import Mathlib

/-!
The device core of libmapper (`src/device.c`): a shallow embedding of the
inbound signal handler `handler_signal`, of its type checker `check_types`, of
the device's instance ID-map lists, of registration and the signal arrays
(`mdev_registered`, `mdev_add_input`, `mdev_add_output`, `mdev_remove_input`,
`mdev_remove_output`), and of the device object (`mdev_new`, `mdev_free`,
`mdev_name`, `mdev_get_fds`, `mdev_set_property`), together with theorems
about them.

Modelling conventions.

* C `int` lengths, counts and indices that the code only ever uses as
  non-negative quantities are `Nat`; signed quantities (reference counts,
  instance indices returned by lookups, slot numbers) are `Int`.
* A C string is a `List Char`; reading the terminating NUL (or anything past
  it) yields the NUL character.
* Memory blocks are lists of bytes.  A byte of a value buffer is an
  `Option Nat`; `none` is an indeterminate byte (uninitialised storage or a
  read past the end of an object).  A write past the end of a block is dropped.
* Pointers are `Option Nat`: `none` is the null pointer and `some a` is the
  address `a` of an object in the store it points into (a list; an address
  outside the list holds a zeroed object).  Dereferencing a null pointer makes
  the enclosing function return `none`, and so does a loop over a linked list
  that does not end.
* Functions, macros and constants of other modules are the fields of `Env`,
  of `RegistryEnv` and of `DeviceEnv`; the theorems hold for every value of
  these fields unless they say otherwise.
* Calls to user callbacks and to other modules are recorded in a list of
  `Event`s (`RegistryEvent`s, `DeviceEvent`s); what a callback does to the
  state is outside the model.
* A string owned by the device is a `heap_string`: null, a block holding a
  string, or the address of a block that has been freed.  Freeing or reading
  a freed block makes the enclosing function return `none`.
-/

namespace Libmapper

/-! ## Type and vector check -/

/-- The NUL character that terminates a C string. -/
def NUL : Char := Char.ofNat 0

/-- The character `types[i]` of a C string. -/
def char_at (types : List Char) (i : Nat) : Char := types.getD i NUL

/-- The `for (i = 0; i < len; i++)` loop of `check_types` with its final
`return len / vector_len`; the first argument counts the iterations left. -/
def check_types_loop (types : List Char) (len : Nat) (type : Char) (vector_len : Nat) :
    Nat → Nat → Nat
  | 0, _ => len / vector_len
  | n + 1, i =>
    if char_at types i ≠ type ∧ char_at types i ≠ 'N' then 0
    else check_types_loop types len type vector_len n (i + 1)

/-- `check_types(types, len, type, vector_len)`.  With `vector_len = 0` the
source divides by zero in `len % vector_len` (line 228); the definition stands
for the function on `vector_len ≥ 1`, the range of a vector length, and the
theorems that depend on its value assume a length of at least 1. -/
def check_types (types : List Char) (len : Nat) (type : Char) (vector_len : Nat) : Nat :=
  if len < vector_len ∨ len % vector_len ≠ 0 then 0
  else check_types_loop types len type vector_len len 0

/-! ## Instance ID-map lists

The device keeps two intrusive singly linked lists of `struct _mapper_id_map`
nodes: `active_id_map` and `reserve_id_map` (the free-list).  Nodes live in a
heap that only grows (`calloc`); the address of a node is its position in the
heap. -/

/-- The node type `struct _mapper_id_map`; the fields `local` and `global` of the
source are `local_` and `global`. -/
structure mapper_id_map where
  local_ : Int
  global : Nat
  refcount_local : Int
  refcount_global : Int
  next : Option Nat
deriving DecidableEq, Repr

/-- A zeroed node, as returned by `calloc`. -/
def mapper_id_map.zero : mapper_id_map :=
  { local_ := 0, global := 0, refcount_local := 0, refcount_global := 0, next := none }

/-- The ID-map part of `struct _mapper_device`: the node heap and the heads of
the two lists. -/
structure id_map_lists where
  heap : List mapper_id_map
  active_id_map : Option Nat
  reserve_id_map : Option Nat
deriving DecidableEq, Repr

/-- The node stored at address `a`. -/
def node_at (heap : List mapper_id_map) (a : Nat) : mapper_id_map :=
  heap.getD a mapper_id_map.zero

/-- `mdev_reserve_instance_id_map(dev)`: allocate a zeroed node and push it onto
the free-list. -/
def mdev_reserve_instance_id_map (dev : id_map_lists) : id_map_lists :=
  { dev with
    heap := dev.heap ++ [{ mapper_id_map.zero with next := dev.reserve_id_map }]
    reserve_id_map := some dev.heap.length }

/-- `mdev_add_instance_id_map(dev, local_id, global_id)`: returns the device and
the address of the node that was activated. -/
def mdev_add_instance_id_map (dev : id_map_lists) (local_id : Int) (global_id : Nat) :
    Option (id_map_lists × Nat) :=
  let dev1 := if dev.reserve_id_map = none then mdev_reserve_instance_id_map dev else dev
  match dev1.reserve_id_map with
  | none => none
  | some map =>
    let n := node_at dev1.heap map
    let n1 := { n with local_ := local_id, global := global_id,
                       refcount_local := 1, refcount_global := 0 }
    some ({ heap := dev1.heap.set map { n1 with next := dev1.active_id_map }
            active_id_map := some map
            reserve_id_map := n.next }, map)

/-- The pointer stored at the location `id_map` of `mdev_remove_instance_id_map`:
`none` is `&dev->active_id_map` and `some a` is `&a->next`. -/
def read_link (dev : id_map_lists) : Option Nat → Option Nat
  | none => dev.active_id_map
  | some a => (node_at dev.heap a).next

/-- Store the pointer `v` at the location `id_map`. -/
def write_link (dev : id_map_lists) (v : Option Nat) : Option Nat → id_map_lists
  | none => { dev with active_id_map := v }
  | some a => { dev with heap := dev.heap.set a { node_at dev.heap a with next := v } }

/-- The `while (*id_map)` loop of `mdev_remove_instance_id_map`; the first
argument bounds the number of iterations and `none` is returned when it is
exhausted. -/
def mdev_remove_instance_id_map_loop (map : Option Nat) :
    Nat → id_map_lists → Option Nat → Option id_map_lists
  | 0, _, _ => none
  | fuel + 1, dev, id_map =>
    match read_link dev id_map with
    | none => some dev
    | some cur =>
      if some cur = map then
        let dev1 := write_link dev (node_at dev.heap cur).next id_map
        let dev2 := { dev1 with
          heap := dev1.heap.set cur { node_at dev1.heap cur with next := dev1.reserve_id_map } }
        some { dev2 with reserve_id_map := some cur }
      else mdev_remove_instance_id_map_loop map fuel dev (some cur)

/-- `mdev_remove_instance_id_map(dev, map)`.  A list without a cycle has at most
`heap.length + 1` nodes, so the bound is never reached on one. -/
def mdev_remove_instance_id_map (dev : id_map_lists) (map : Option Nat) : Option id_map_lists :=
  mdev_remove_instance_id_map_loop map (dev.heap.length + 2) dev none

/-- The `while (map)` loop of `mdev_find_instance_id_map_by_local`; the result
`none` means that the iteration bound was exhausted. -/
def mdev_find_instance_id_map_by_local_loop (heap : List mapper_id_map) (local_id : Int) :
    Nat → Option Nat → Option (Option Nat)
  | 0, _ => none
  | _ + 1, none => some none
  | fuel + 1, some map =>
    if (node_at heap map).local_ = local_id then some (some map)
    else mdev_find_instance_id_map_by_local_loop heap local_id fuel (node_at heap map).next

/-- `mdev_find_instance_id_map_by_local(dev, local_id)`. -/
def mdev_find_instance_id_map_by_local (dev : id_map_lists) (local_id : Int) :
    Option (Option Nat) :=
  mdev_find_instance_id_map_by_local_loop dev.heap local_id (dev.heap.length + 2)
    dev.active_id_map

/-- The `while (map)` loop of `mdev_find_instance_id_map_by_global`. -/
def mdev_find_instance_id_map_by_global_loop (heap : List mapper_id_map) (global_id : Nat) :
    Nat → Option Nat → Option (Option Nat)
  | 0, _ => none
  | _ + 1, none => some none
  | fuel + 1, some map =>
    if (node_at heap map).global = global_id then some (some map)
    else mdev_find_instance_id_map_by_global_loop heap global_id fuel (node_at heap map).next

/-- `mdev_find_instance_id_map_by_global(dev, global_id)`. -/
def mdev_find_instance_id_map_by_global (dev : id_map_lists) (global_id : Nat) :
    Option (Option Nat) :=
  mdev_find_instance_id_map_by_global_loop dev.heap global_id (dev.heap.length + 2)
    dev.active_id_map

/-- The linked list starting at pointer `p` consists of the nodes at the
addresses `l`, in link order, and ends with a null pointer. -/
def is_list (heap : List mapper_id_map) : Option Nat → List Nat → Prop
  | p, [] => p = none
  | p, a :: l => p = some a ∧ a < heap.length ∧ is_list heap (node_at heap a).next l

/-! ## Messages and buffers -/

/-- The time tag `mapper_timetag_t` (`lo_timetag`). -/
structure mapper_timetag_t where
  sec : Nat
  frac : Nat
deriving DecidableEq, Repr

/-- One message argument, `lo_arg`.  It is a union: `s`, `i32` and `i64` are the
views that `handler_signal` reads after it has checked the type tag, and `bytes`
is the argument's storage in the message as `memcpy` reads it (nothing for a
null argument). -/
structure lo_arg where
  s : String
  i32 : Int
  i64 : Int
  bytes : List Nat
deriving DecidableEq, Repr

/-- An argument without data. -/
def lo_arg.zero : lo_arg := { s := "", i32 := 0, i64 := 0, bytes := [] }

/-- The argument `argv[k]`. -/
def arg_at (argv : List lo_arg) (k : Nat) : lo_arg := argv.getD k lo_arg.zero

/-- The bytes found at the pointer `argv[k]`: the storage of argument `k`
followed by that of the arguments after it, which the message holds
contiguously. -/
def arg_data (argv : List lo_arg) (k : Nat) : List (Option Nat) :=
  (((argv.drop k).map fun a => a.bytes).flatten).map some

/-- `memcpy(dst + off, src, n)`, where `src` lists the bytes found at the source
pointer; bytes past the end of `src` are indeterminate. -/
def memcpy (dst : List (Option Nat)) (off : Nat) (src : List (Option Nat)) (n : Nat) :
    List (Option Nat) :=
  (List.range dst.length).map fun p =>
    if off ≤ p ∧ p < off + n then src.getD (p - off) none else dst.getD p none

/-- `flags[j / 8] |= 1 << (j % 8)`. -/
def set_flag (flags : List Nat) (j : Nat) : List Nat :=
  flags.set (j / 8) (flags.getD (j / 8) 0 ||| (1 <<< (j % 8)))

/-- `memcmp(a, b, n) == 0`. -/
def memcmp_eq (a b : List Nat) (n : Nat) : Bool :=
  decide (a.take n = b.take n)

/-! ## Signals -/

/-- A signal instance, `struct _mapper_signal_instance`. -/
structure mapper_signal_instance where
  index : Nat
  value : List (Option Nat)
  has_value_flags : List Nat
  has_value : Bool
  timetag : mapper_timetag_t
deriving DecidableEq, Repr

/-- A zeroed instance. -/
def mapper_signal_instance.zero : mapper_signal_instance :=
  { index := 0, value := [], has_value_flags := [], has_value := false,
    timetag := { sec := 0, frac := 0 } }

/-- An entry of `sig->id_maps`: `map` points to an ID-map node of the device,
`inst` (the field `instance` of the source) to an instance of the signal. -/
structure mapper_signal_id_map_t where
  map : Option Nat
  inst : Option Nat
  status : Nat
deriving DecidableEq, Repr

/-- A free entry. -/
def mapper_signal_id_map_t.zero : mapper_signal_id_map_t :=
  { map := none, inst := none, status := 0 }

/-- The signal properties `sig->props` that the handler reads. -/
structure mapper_db_signal where
  type : Char
  length : Nat
  direction : Nat
deriving DecidableEq, Repr

/-- A signal, `struct _mapper_signal`.  `instances` holds the instance objects
(the address of an instance is its position); `handler` and
`instance_event_handler` tell whether the callback pointers are non-null. -/
structure mapper_signal where
  props : mapper_db_signal
  id_maps : List mapper_signal_id_map_t
  instances : List mapper_signal_instance
  has_complete_value : List Nat
  handler : Bool
  instance_event_handler : Bool
  instance_event_flags : Nat
deriving DecidableEq, Repr

/-- The entry `sig->id_maps[idx]`. -/
def id_map_entry (sig : mapper_signal) (idx : Int) : mapper_signal_id_map_t :=
  sig.id_maps.getD idx.toNat mapper_signal_id_map_t.zero

/-- Store an entry at `sig->id_maps[idx]`. -/
def set_id_map_entry (sig : mapper_signal) (idx : Int) (e : mapper_signal_id_map_t) :
    mapper_signal :=
  { sig with id_maps := sig.id_maps.set idx.toNat e }

/-- The instance at address `a`. -/
def instance_at (sig : mapper_signal) (a : Nat) : mapper_signal_instance :=
  sig.instances.getD a mapper_signal_instance.zero

/-- Store an instance at address `a`. -/
def set_instance (sig : mapper_signal) (a : Nat) (si : mapper_signal_instance) : mapper_signal :=
  { sig with instances := sig.instances.set a si }

/-! ## Router, maps and slots -/

/-- A history ring, `struct _mapper_history`. -/
structure mapper_history where
  type : Char
  length : Nat
  size : Int
  position : Int
  value : List (Option Nat)
  timetag : List mapper_timetag_t
deriving DecidableEq, Repr

/-- An empty history. -/
def mapper_history.zero : mapper_history :=
  { type := NUL, length := 0, size := 0, position := 0, value := [], timetag := [] }

/-- The slot properties `s->props` that the handler reads. -/
structure mapper_db_map_slot where
  type : Char
  length : Nat
  cause_update : Bool
deriving DecidableEq, Repr

/-- A map slot, `struct _mapper_slot_internal`; `map` is the address of the
owning map and `history` has one ring per signal instance. -/
structure mapper_slot_internal where
  props : mapper_db_map_slot
  map : Nat
  history : List mapper_history
deriving DecidableEq, Repr

/-- An empty slot. -/
def mapper_slot_internal.zero : mapper_slot_internal :=
  { props := { type := NUL, length := 0, cause_update := false }, map := 0, history := [] }

/-- A map, `struct _mapper_map_internal`.  `expr` is the compiled expression
(null when absent), `sources` and `destination` are addresses of slots and
`expr_vars` holds the expression variables of each instance. -/
structure mapper_map_internal where
  status : Int
  expr : Option Nat
  process_location : Int
  num_sources : Nat
  sources : List Nat
  destination : Nat
  expr_vars : List (List mapper_history)
deriving DecidableEq, Repr

/-- An empty map. -/
def mapper_map_internal.zero : mapper_map_internal :=
  { status := 0, expr := none, process_location := 0, num_sources := 0, sources := [],
    destination := 0, expr_vars := [] }

/-- The router state the handler works on: the slot and map objects. -/
structure mapper_router where
  slots : List mapper_slot_internal
  maps : List mapper_map_internal
deriving DecidableEq, Repr

/-- The slot at address `s`. -/
def slot_at (r : mapper_router) (s : Nat) : mapper_slot_internal :=
  r.slots.getD s mapper_slot_internal.zero

/-- The map at address `m`. -/
def map_at (r : mapper_router) (m : Nat) : mapper_map_internal :=
  r.maps.getD m mapper_map_internal.zero

/-- The history `slot->history[idx]`. -/
def history_at (r : mapper_router) (s idx : Nat) : mapper_history :=
  (slot_at r s).history.getD idx mapper_history.zero

/-- Store a history at `slot->history[idx]`. -/
def set_history (r : mapper_router) (s idx : Nat) (h : mapper_history) : mapper_router :=
  let sl := slot_at r s
  { r with slots := r.slots.set s { sl with history := sl.history.set idx h } }

/-- The device state the handler works on: the ID-map lists and the router. -/
structure mapper_device where
  id_map : id_map_lists
  router : mapper_router
deriving DecidableEq, Repr

/-- The objects a handler invocation starts from: `sig` is what `user_data`
points to and `md` what `sig->device` points to (either may be null). -/
structure World where
  sig : Option mapper_signal
  md : Option mapper_device
deriving DecidableEq, Repr

/-- A signal together with its device. -/
structure State where
  sig : mapper_signal
  md : mapper_device
deriving DecidableEq, Repr

/-- The calls `handler_signal` makes to user callbacks and to other modules, in
the order in which it makes them.  A buffer argument is recorded with the
contents it has at the time of the call. -/
inductive Event where
  | handler (instance_id : Int) (value : Option (List (Option Nat))) (count : Nat)
      (tt : mapper_timetag_t)
  | instance_event_handler (instance_id : Int) (event : Nat) (tt : mapper_timetag_t)
  | mdev_route_signal (instance_index : Int) (value : List (Option Nat)) (count : Nat)
      (tt : mapper_timetag_t)
  | msig_get_instance_with_global_id (global_id : Nat) (flags : Nat) (tt : mapper_timetag_t)
  | msig_get_instance_with_local_id (local_id : Int) (flags : Int) (tt : mapper_timetag_t)
deriving DecidableEq, Repr

/-- The constants and functions of other modules that `handler_signal` uses.
The functions that may change the signal and its device return the new
state. -/
structure Env where
  IN_RELEASED_LOCALLY : Nat
  IN_RELEASED_REMOTELY : Nat
  IN_UPSTREAM_RELEASE : Nat
  DI_OUTGOING : Nat
  MAPPER_READY : Int
  MAPPER_DESTINATION : Int
  mapper_type_size : Char → Nat
  msig_find_instance_with_global_id : State → Nat → Nat → Int
  msig_get_instance_with_global_id : State → Nat → Nat → mapper_timetag_t → State × Int
  msig_get_instance_with_local_id : State → Int → Int → mapper_timetag_t → State × Int
  mapper_router_find_map_slot : mapper_router → mapper_signal → Int → Option Nat
  mapper_expr_evaluate : Option Nat → List mapper_history → List mapper_history → mapper_history →
    mapper_timetag_t → Int × List mapper_history × mapper_history × List Char
  mapper_boundary_perform : mapper_history → mapper_db_map_slot → List Char →
    Int × mapper_history × List Char

/-! ## The inbound handler `handler_signal` -/

/-- The loop that finds the length of the value prefix and counts nulls
(lines 284-290).  The source tests `types[i]`, where `i` is still 0; the first
argument bounds the number of iterations. -/
def scan_values (types : List Char) (argc i : Nat) : Nat → Nat → Nat → Nat × Nat
  | 0, value_len, nulls => (value_len, nulls)
  | fuel + 1, value_len, nulls =>
    if value_len < argc ∧ char_at types value_len ≠ 's' ∧ char_at types value_len ≠ 'S' then
      scan_values types argc i fuel (value_len + 1)
        (if char_at types i = 'N' then nulls + 1 else nulls)
    else (value_len, nulls)

/-- The properties that may follow the values of a message. -/
structure Properties where
  is_instance_update : Bool
  instance_id : Nat
  slot : Int
deriving DecidableEq, Repr

/-- The property loop `while (argnum < argc)` (lines 292-331).  The result `none`
stands for `return 0`.  Every iteration that does not return advances `argnum`
by 2, so that `argc` iterations are always enough. -/
def parse_properties (types : List Char) (argv : List lo_arg) (argc : Nat) :
    Nat → Nat → Properties → Option Properties
  | 0, _, p => some p
  | fuel + 1, argnum, p =>
    if argnum < argc then
      if char_at types argnum ≠ 's' ∧ char_at types argnum ≠ 'S' then none
      else if (arg_at argv argnum).s = "@instance" ∧ argc ≥ argnum + 2 then
        if char_at types (argnum + 1) ≠ 'h' then none
        else parse_properties types argv argc fuel (argnum + 2)
          { p with is_instance_update := true
                   instance_id := ((arg_at argv (argnum + 1)).i64 % 2 ^ 64).toNat }
      else if (arg_at argv argnum).s = "@slot" ∧ argc ≥ argnum + 2 then
        if char_at types (argnum + 1) ≠ 'i' then none
        else parse_properties types argv argc fuel (argnum + 2)
          { p with slot := (arg_at argv (argnum + 1)).i32 }
      else none
    else some p

/-- The outcome of the slot lookup and type check (lines 333-367). -/
structure Selected where
  count : Nat
  map : Option Nat
  s : Option Nat
deriving DecidableEq, Repr

/-- Lines 333-367: find the slot and its map when `slot >= 0`, and check the
value types against the slot or the signal.  The result `none` stands for
`return 0`. -/
def select_map (env : Env) (sig : mapper_signal) (md : mapper_device) (slot : Int)
    (types : List Char) (value_len : Nat) : Option Selected :=
  if slot ≥ 0 then
    match env.mapper_router_find_map_slot md.router sig slot with
    | none => none
    | some s =>
      let sl := slot_at md.router s
      let map := map_at md.router sl.map
      if map.status < env.MAPPER_READY then none
      else if map.expr = none then none
      else if map.process_location = env.MAPPER_DESTINATION then
        some { count := check_types types value_len sl.props.type sl.props.length
               map := some sl.map, s := some s }
      else
        some { count := check_types types value_len sig.props.type sig.props.length
               map := none, s := some s }
  else
    some { count := check_types types value_len sig.props.type sig.props.length
           map := none, s := none }

/-- `id_map->refcount_global--`. -/
def decrement_refcount_global (dev : id_map_lists) (a : Nat) : id_map_lists :=
  let n := node_at dev.heap a
  { dev with heap := dev.heap.set a { n with refcount_global := n.refcount_global - 1 } }

/-- `if (id_map->refcount_global <= 0 && id_map->refcount_local <= 0)
mdev_remove_instance_id_map(md, id_map);`. -/
def remove_if_unreferenced (dev : id_map_lists) (a : Nat) : Option id_map_lists :=
  if (node_at dev.heap a).refcount_global ≤ 0 ∧ (node_at dev.heap a).refcount_local ≤ 0 then
    mdev_remove_instance_id_map dev (some a)
  else some dev

/-- The outcome of instance resolution: the state, the calls made, and the
ID-map index, or `none` when the handler has returned. -/
structure Resolved where
  st : State
  events : List Event
  id_map_index : Option Int
deriving DecidableEq, Repr

/-- The search for the instance of an instance update and its activation when it
is not found (lines 379-397, and again lines 482-501 with another status mask).
-/
def find_or_activate (env : Env) (st : State) (instance_id : Nat) (mask : Nat)
    (nulls value_len count : Nat) (tt : mapper_timetag_t) : Resolved ⊕ Int :=
  let id_map_index := env.msig_find_instance_with_global_id st instance_id mask
  if id_map_index < 0 then
    if nulls = value_len * count then
      Sum.inl { st := st, events := [], id_map_index := none }
    else
      let r := env.msig_get_instance_with_global_id st instance_id 0 tt
      let ev := [Event.msig_get_instance_with_global_id instance_id 0 tt]
      if r.2 < 0 then Sum.inl { st := r.1, events := ev, id_map_index := none }
      else Sum.inl { st := r.1, events := ev, id_map_index := some r.2 }
  else Sum.inr id_map_index

/-- Instance resolution (lines 378-428).  The result `none` is a null pointer
dereference or a list walk that does not end. -/
def resolve_instance (env : Env) (st : State) (p : Properties) (nulls value_len count : Nat)
    (tt : mapper_timetag_t) : Option Resolved :=
  if p.is_instance_update then
    match find_or_activate env st p.instance_id env.IN_RELEASED_LOCALLY nulls value_len count
        tt with
    | Sum.inl r => some r
    | Sum.inr id_map_index =>
      let e := id_map_entry st.sig id_map_index
      if e.status &&& env.IN_RELEASED_LOCALLY ≠ 0 then
        if count = 1 ∧ nulls = value_len then
          match e.map with
          | none => none
          | some id_map =>
            let sig1 := set_id_map_entry st.sig id_map_index { e with map := none }
            let dev1 := decrement_refcount_global st.md.id_map id_map
            match remove_if_unreferenced dev1 id_map with
            | none => none
            | some dev2 =>
              some { st := { sig := sig1, md := { st.md with id_map := dev2 } }
                     events := [], id_map_index := none }
        else some { st := st, events := [], id_map_index := none }
      else if e.inst = none then some { st := st, events := [], id_map_index := none }
      else some { st := st, events := [], id_map_index := some id_map_index }
  else
    if (id_map_entry st.sig 0).inst = none then
      let r := env.msig_get_instance_with_local_id st 0 1 tt
      let ev := [Event.msig_get_instance_with_local_id 0 1 tt]
      if r.2 < 0 then some { st := r.1, events := ev, id_map_index := none }
      else some { st := r.1, events := ev, id_map_index := some r.2 }
    else some { st := st, events := [], id_map_index := some 0 }

/-- The local variables of the sample loops (lines 429-435) together with the
state and the calls made so far. -/
structure Loop where
  sig : mapper_signal
  md : mapper_device
  si : Option Nat
  id_map : Option Nat
  id_map_index : Int
  k : Nat
  out_buffer : List (Option Nat)
  out_count : Nat
  active : Bool
  events : List Event
deriving DecidableEq, Repr

/-- How a loop iteration ends: `next` goes on with the following sample (also
after `continue`) and `ret` is `return 0`. -/
inductive Step where
  | next (l : Loop)
  | ret (l : Loop)
deriving DecidableEq, Repr

/-- `if (sig->handler) sig->handler(sig, &sig->props, id_map->local, value, count,
&tt);`. -/
def call_handler (l : Loop) (value : Option (List (Option Nat))) (count : Nat)
    (tt : mapper_timetag_t) : Option Loop :=
  if l.sig.handler then
    match l.id_map with
    | none => none
    | some a =>
      some { l with events := l.events ++
        [Event.handler (node_at l.md.id_map.heap a).local_ value count tt] }
  else some l

/-- `if (!(sig->props.direction & DI_OUTGOING)) mdev_route_signal(md, sig,
id_map_index, value, count, tt);`. -/
def call_route (env : Env) (l : Loop) (value : List (Option Nat)) (count : Nat)
    (tt : mapper_timetag_t) : Loop :=
  if l.sig.props.direction &&& env.DI_OUTGOING = 0 then
    { l with events := l.events ++ [Event.mdev_route_signal l.id_map_index value count tt] }
  else l

/-- The release of an instance by an all-null vector: set `IN_RELEASED_REMOTELY`,
decrement `refcount_global`, remove the node when `remove` is set and it is no
longer referenced, and call the instance event handler when it is subscribed to
`IN_UPSTREAM_RELEASE`.  Lines 455-464 have `remove` set; lines 549-555 and
614-620 do not call `mdev_remove_instance_id_map`. -/
def release_remotely (env : Env) (l : Loop) (remove : Bool) (tt : mapper_timetag_t) :
    Option Loop :=
  let e := id_map_entry l.sig l.id_map_index
  let sig1 := set_id_map_entry l.sig l.id_map_index
    { e with status := e.status ||| env.IN_RELEASED_REMOTELY }
  match l.id_map with
  | none => none
  | some a =>
    let dev1 := decrement_refcount_global l.md.id_map a
    match (if remove then remove_if_unreferenced dev1 a else some dev1) with
    | none => none
    | some dev2 =>
      let l1 := { l with sig := sig1, md := { l.md with id_map := dev2 } }
      if l.sig.instance_event_handler ∧
          l.sig.instance_event_flags &&& env.IN_UPSTREAM_RELEASE ≠ 0 then
        some { l1 with events := l1.events ++
          [Event.instance_event_handler (node_at dev2.heap a).local_
            env.IN_UPSTREAM_RELEASE tt] }
      else some l1

/-- The flush `if (out_count) { ... }` of the out-buffer to the router and the
user handler (lines 538-545, 588-593 and 647-652). -/
def flush_out_buffer (env : Env) (l : Loop) (tt : mapper_timetag_t) : Option Loop :=
  if l.out_count ≠ 0 then
    call_handler (call_route env l l.out_buffer l.out_count tt) (some l.out_buffer)
      l.out_count tt
  else some l

/-- The number of tags other than `N` among `types[k .. k + n - 1]`. -/
def count_vals (types : List Char) : Nat → Nat → Nat
  | _, 0 => 0
  | k, n + 1 => (if char_at types k ≠ 'N' then 1 else 0) + count_vals types (k + 1) n

/-- The element loop of the plain path (lines 598-604) on the instance `si`:
`n` iterations are left, and the result is the instance and the number of
values copied. -/
def plain_elements (types : List Char) (argv : List lo_arg) (size : Nat) :
    Nat → Nat → Nat → mapper_signal_instance → Nat → mapper_signal_instance × Nat
  | 0, _, _, si, vals => (si, vals)
  | n + 1, j, k, si, vals =>
    if char_at types k = 'N' then plain_elements types argv size n (j + 1) (k + 1) si vals
    else
      plain_elements types argv size n (j + 1) (k + 1)
        { si with value := memcpy si.value (j * size) (arg_data argv k) size
                  has_value_flags := set_flag si.has_value_flags j } (vals + 1)

/-- Lines 565-582 and 628-645: complete `has_value` and, when the instance has
a value, stamp it and either append it to the out-buffer (`count > 1`) or route
it and call the handler.  `a` is the address of the instance `si`. -/
def commit_value (env : Env) (l : Loop) (a : Nat) (count size : Nat) (tt : mapper_timetag_t) :
    Option Loop :=
  let si := instance_at l.sig a
  let si1 := if memcmp_eq si.has_value_flags l.sig.has_complete_value
      (l.sig.props.length / 8 + 1) then { si with has_value := true } else si
  if si1.has_value then
    let si2 := { si1 with timetag := tt }
    let l1 := { l with sig := set_instance l.sig a si2 }
    if count > 1 then
      some { l1 with
        out_buffer := memcpy l1.out_buffer (l1.out_count * l1.sig.props.length * size)
          si2.value size
        out_count := l1.out_count + 1 }
    else
      call_handler (call_route env l1 si2.value 1 tt) (some si2.value) 1 tt
  else some { l with sig := set_instance l.sig a si1 }

/-- One iteration of the sample loop of the plain path (lines 597-645). -/
def plain_sample (env : Env) (p : Properties) (types : List Char) (argv : List lo_arg)
    (count size : Nat) (tt : mapper_timetag_t) (l : Loop) : Option Step :=
  let len := l.sig.props.length
  let l0 := { l with k := l.k + len }
  let copied : Option (Loop × Nat) :=
    match l.si with
    | some a =>
      let r := plain_elements types argv size len 0 l.k (instance_at l.sig a) 0
      some ({ l0 with sig := set_instance l.sig a r.1 }, r.2)
    | none => if count_vals types l.k len = 0 then some (l0, 0) else none
  match copied with
  | none => none
  | some (l1, vals) =>
    if vals = 0 then
      if count > 1 then some (Step.ret l1)
      else
        match (if p.is_instance_update then release_remotely env l1 false tt else some l1) with
        | none => none
        | some l2 => (call_handler l2 none 1 tt).map Step.ret
    else
      match l1.si with
      | none => none
      | some a => (commit_value env l1 a count size tt).map Step.next

/-- The sample loop of the plain path: `n` iterations are left. -/
def plain_loop (env : Env) (p : Properties) (types : List Char) (argv : List lo_arg)
    (count size : Nat) (tt : mapper_timetag_t) : Nat → Loop → Option Step
  | 0, l => some (Step.next l)
  | n + 1, l =>
    match plain_sample env p types argv count size tt l with
    | none => none
    | some (Step.ret l1) => some (Step.ret l1)
    | some (Step.next l1) => plain_loop env p types argv count size tt n l1

/-- Modelled from the spec: the macro `mapper_history_value_ptr` is not part of
`device.c`; the spec has the sample copied "into the new head" of the ring, so
the offset of the head in `h.value` is `position` vectors of `length` elements.
-/
def history_value_offset (env : Env) (h : mapper_history) : Nat :=
  h.position.toNat * h.length * env.mapper_type_size h.type

/-- Lines 505-510: advance the history ring of the slot for instance index `idx`
and copy the sample and the time tag into its head.  The ring has a size of at
least 1; with `size = 0` the source divides by zero in `% size` (line 506). -/
def push_history (env : Env) (r : mapper_router) (s idx : Nat) (argv : List lo_arg)
    (i count size : Nat) (tt : mapper_timetag_t) : mapper_router :=
  let h := history_at r s idx
  let h1 := { h with position := Int.tmod (h.position + 1) h.size }
  let copied := memcpy h1.value (history_value_offset env h1) (arg_data argv (i * count))
    (size * (slot_at r s).props.length)
  let h2 := { h1 with value := copied }
  let h3 := { h2 with timetag := h2.timetag.set h2.position.toNat tt }
  set_history r s idx h3

/-- The element loop on the expression result (lines 528-534): `n` iterations
are left and `result` lists the bytes at the head of the destination history. -/
def result_elements (typestring : List Char) (result : List (Option Nat)) (size : Nat) :
    Nat → Nat → mapper_signal_instance → Nat → mapper_signal_instance × Nat
  | 0, _, si, vals => (si, vals)
  | n + 1, j, si, vals =>
    if char_at typestring j = 'N' then result_elements typestring result size n (j + 1) si vals
    else
      result_elements typestring result size n (j + 1)
        { si with value := memcpy si.value (j * size) (result.drop (j * size)) size
                  has_value_flags := set_flag si.has_value_flags j } (vals + 1)

/-- Lines 511-583: evaluate the expression of the map for the instance at
address `a`, apply the boundary behaviour and commit the result. -/
def evaluate_sample (env : Env) (p : Properties) (count size : Nat) (tt : mapper_timetag_t)
    (map a : Nat) (l : Loop) : Option Step :=
  let idx := (instance_at l.sig a).index
  let m := map_at l.md.router map
  let sources := (List.range m.num_sources).map fun j =>
    history_at l.md.router (m.sources.getD j 0) idx
  let r := env.mapper_expr_evaluate m.expr sources (m.expr_vars.getD idx [])
    (history_at l.md.router m.destination idx) tt
  let router1 := set_history l.md.router m.destination idx r.2.2.1
  let m1 := { map_at router1 map with expr_vars := (map_at router1 map).expr_vars.set idx r.2.1 }
  let router2 := { router1 with maps := router1.maps.set map m1 }
  let l1 := { l with md := { l.md with router := router2 } }
  if r.1 = 0 then some (Step.next l1)
  else
    let b := env.mapper_boundary_perform (history_at router2 m.destination idx)
      (slot_at router2 m.destination).props r.2.2.2
    let router3 := set_history router2 m.destination idx b.2.1
    let l2 := { l1 with md := { l1.md with router := router3 } }
    if b.1 ≠ 0 then some (Step.next l2)
    else
      let dest := history_at router3 m.destination idx
      let result := dest.value.drop (history_value_offset env dest)
      let e := result_elements b.2.2 result size (slot_at router3 m.destination).props.length 0
        (instance_at l2.sig a) 0
      let l3 := { l2 with sig := set_instance l2.sig a e.1 }
      if e.2 = 0 then
        match (if l3.out_count ≠ 0 then
            (flush_out_buffer env l3 tt).map fun x => { x with out_count := 0 }
          else some l3) with
        | none => none
        | some l4 =>
          match (if p.is_instance_update then release_remotely env l4 false tt
              else some l4) with
          | none => none
          | some l5 =>
            (call_handler l5 none 1 tt).map fun x => Step.next { x with active := false }
      else (commit_value env l3 a count size tt).map Step.next

/-- One iteration `i` of the sample loop of the map path (lines 439-586) for the
slot at address `s` of the map at address `map`. -/
def map_sample (env : Env) (p : Properties) (types : List Char) (argv : List lo_arg)
    (nulls value_len count size : Nat) (tt : mapper_timetag_t) (map s i : Nat) (l : Loop) :
    Option Step :=
  let len := (slot_at l.md.router s).props.length
  let vals := count_vals types l.k len
  let l0 := { l with k := l.k + len }
  if vals = 0 then
    if count > 1 then some (Step.ret l0)
    else
      match (if p.is_instance_update then release_remotely env l0 true tt else some l0) with
      | none => none
      | some l1 => (call_handler l1 none 1 tt).map Step.next
  else if vals ≠ len then some (Step.ret l0)
  else
    let resolved : Loop ⊕ Loop :=
      if p.is_instance_update ∧ l0.active = false then
        match find_or_activate env { sig := l0.sig, md := l0.md } p.instance_id
            env.IN_RELEASED_REMOTELY nulls value_len count tt with
        | Sum.inl r =>
          let l1 := { l0 with sig := r.st.sig, md := r.st.md, events := l0.events ++ r.events }
          match r.id_map_index with
          | none => Sum.inr l1
          | some idx =>
            Sum.inl { l1 with id_map_index := idx, si := (id_map_entry l1.sig idx).inst
                              id_map := (id_map_entry l1.sig idx).map }
        | Sum.inr idx =>
          Sum.inl { l0 with id_map_index := idx, si := (id_map_entry l0.sig idx).inst
                            id_map := (id_map_entry l0.sig idx).map }
      else Sum.inl l0
    match resolved with
    | Sum.inr l1 => some (Step.ret l1)
    | Sum.inl l1 =>
      match l1.si with
      | none => none
      | some a =>
        let pushed := push_history env l1.md.router s (instance_at l1.sig a).index argv i count
          size tt
        let l2 := { l1 with md := { l1.md with router := pushed } }
        if (slot_at l2.md.router s).props.cause_update then
          evaluate_sample env p count size tt map a l2
        else some (Step.next l2)

/-- The sample loop of the map path: `n` iterations are left and `i` is the
current sample. -/
def map_loop (env : Env) (p : Properties) (types : List Char) (argv : List lo_arg)
    (nulls value_len count size : Nat) (tt : mapper_timetag_t) (map s : Nat) :
    Nat → Nat → Loop → Option Step
  | 0, _, l => some (Step.next l)
  | n + 1, i, l =>
    match map_sample env p types argv nulls value_len count size tt map s i l with
    | none => none
    | some (Step.ret l1) => some (Step.ret l1)
    | some (Step.next l1) =>
      map_loop env p types argv nulls value_len count size tt map s n (i + 1) l1

/-- Lines 429-655: the sample loops on the resolved instance and the final flush
of the out-buffer. -/
def process_samples (env : Env) (st : State) (p : Properties) (sel : Selected)
    (types : List Char) (argv : List lo_arg) (nulls value_len : Nat) (id_map_index : Int)
    (events : List Event) (tt : mapper_timetag_t) : Option Loop :=
  let size := match sel.s with
    | some s => env.mapper_type_size (slot_at st.md.router s).props.type
    | none => env.mapper_type_size st.sig.props.type
  let l : Loop :=
    { sig := st.sig, md := st.md
      si := (id_map_entry st.sig id_map_index).inst
      id_map := (id_map_entry st.sig id_map_index).map
      id_map_index := id_map_index
      k := 0
      out_buffer := List.replicate (sel.count * value_len * size) none
      out_count := 0
      active := true
      events := events }
  let looped : Option Step :=
    match sel.map, sel.s with
    | some map, some s =>
      map_loop env p types argv nulls value_len sel.count size tt map s sel.count 0 l
    | some _, none => none
    | none, _ => plain_loop env p types argv sel.count size tt sel.count l
  match looped with
  | none => none
  | some (Step.ret l1) => some l1
  | some (Step.next l1) => flush_out_buffer env l1 tt

/-- The handler `handler_signal(path, types, argv, argc, msg, user_data)`, where
`tt` is the time tag of `msg`.  It returns the objects as it leaves them and
the calls it made; `none` is a null pointer dereference or a list walk that
does not end.  What the callbacks themselves do is not part of the model. -/
def handler_signal (env : Env) (w : World) (types : List Char) (argv : List lo_arg)
    (argc : Nat) (tt : mapper_timetag_t) : Option (World × List Event) :=
  match w.sig, w.md with
  | some sig, some md =>
    if argc = 0 then some (w, [])
    else
      let i := 0
      let scan := scan_values types argc i argc 0 0
      let value_len := scan.1
      let nulls := scan.2
      match parse_properties types argv argc argc value_len
          { is_instance_update := false, instance_id := 0, slot := -1 } with
      | none => some (w, [])
      | some p =>
        match select_map env sig md p.slot types value_len with
        | none => some (w, [])
        | some sel =>
          if sel.count = 0 then some (w, [])
          else
            match resolve_instance env { sig := sig, md := md } p nulls value_len sel.count
                tt with
            | none => none
            | some r =>
              match r.id_map_index with
              | none => some ({ sig := some r.st.sig, md := some r.st.md }, r.events)
              | some id_map_index =>
                match process_samples env r.st p sel types argv nulls value_len id_map_index
                    r.events tt with
                | none => none
                | some l => some ({ sig := some l.sig, md := some l.md }, l.events)
  | _, _ => some (w, [])

/-! ## Notions used to state the properties -/

/-- The vector length against which `handler_signal` checks the values of a
message with slot number `slot`: that of the slot when the slot belongs to a map
processed at the destination, and that of the signal otherwise. -/
def expected_vector_len (env : Env) (sig : mapper_signal) (md : mapper_device) (slot : Int) :
    Nat :=
  if slot ≥ 0 then
    match env.mapper_router_find_map_slot md.router sig slot with
    | none => sig.props.length
    | some s =>
      if (map_at md.router (slot_at md.router s).map).process_location = env.MAPPER_DESTINATION
      then (slot_at md.router s).props.length
      else sig.props.length
  else sig.props.length

/-- The tags and arguments of a message from position `argnum` on. -/
def suffix_at (types : List Char) (argv : List lo_arg) (argc argnum : Nat) :
    List (Char × lo_arg) :=
  (List.range' argnum (argc - argnum)).map fun k => (char_at types k, arg_at argv k)

/-- The grammar of the property suffix: a sequence of pairs made of a string
(tag `s` or `S`) that is either `@instance`, followed by an argument of type `h`,
or `@slot`, followed by an argument of type `i`. -/
def valid_suffix : List (Char × lo_arg) → Prop
  | [] => True
  | [_] => False
  | (t1, a1) :: (t2, _) :: rest =>
    (t1 = 's' ∨ t1 = 'S') ∧
    ((a1.s = "@instance" ∧ t2 = 'h') ∨ (a1.s = "@slot" ∧ t2 = 'i')) ∧
    valid_suffix rest

/-- Whether a call is one to the user update handler, to the instance event
handler or to the router. -/
def Event.is_callback : Event → Bool
  | Event.handler _ _ _ _ => true
  | Event.instance_event_handler _ _ _ => true
  | Event.mdev_route_signal _ _ _ _ => true
  | _ => false

/-- Bit `j` of a flag array: `flags[j / 8] & (1 << (j % 8))`. -/
def bit_set (flags : List Nat) (j : Nat) : Bool :=
  (flags.getD (j / 8) 0).testBit (j % 8)

/-- Modelled from the spec: the all-ones template `has_complete_value` of a signal
of vector length `length`, a zeroed array of `length / 8 + 1` bytes in which the
bit of every element is set. -/
def all_ones_template (length : Nat) : List Nat :=
  (List.range length).foldl set_flag (List.replicate (length / 8 + 1) 0)

/-- The flag array has `len / 8 + 1` bytes and no bit set other than the bits of
the elements `0 .. len - 1`. -/
def flags_within (flags : List Nat) (len : Nat) : Prop :=
  flags.length = len / 8 + 1 ∧
  ∀ b i, (flags.getD b 0).testBit i = true → 8 * b + i < len ∧ i < 8

/-! ## Example objects -/

/-- Modelled from the spec: `msig_find_instance_with_global_id` is not part of
`device.c`; the spec has it return the "index of any id-map entry whose
`map.global == global_id` AND whose status matches `status_mask` (bitwise AND,
nonzero for a positive match; `status_mask == 0` matches entries with zero
status)", and -1 when there is none.  `i` is the index of the first entry of the
list. -/
def example_find (heap : List mapper_id_map) (global_id status_mask : Nat) :
    List mapper_signal_id_map_t → Int → Int
  | [], _ => -1
  | e :: rest, i =>
    match e.map with
    | some m =>
      if (node_at heap m).global = global_id ∧
          (if status_mask = 0 then e.status = 0 else e.status &&& status_mask ≠ 0) then i
      else example_find heap global_id status_mask rest (i + 1)
    | none => example_find heap global_id status_mask rest (i + 1)

/-- An environment for the examples: sample values for the constants, 4-byte
`i` and `f` elements and 8-byte `d` elements, a signal without instances left to
activate (the activation functions return -1), and a router in which slot
number 0 is the slot at address 0 whenever the router has slots. -/
def example_env : Env :=
  { IN_RELEASED_LOCALLY := 1
    IN_RELEASED_REMOTELY := 2
    IN_UPSTREAM_RELEASE := 2
    DI_OUTGOING := 1
    MAPPER_READY := 2
    MAPPER_DESTINATION := 2
    mapper_type_size := fun c => if c = 'd' then 8 else 4
    msig_find_instance_with_global_id := fun st global_id mask =>
      example_find st.md.id_map.heap global_id mask st.sig.id_maps 0
    msig_get_instance_with_global_id := fun st _ _ _ => (st, -1)
    msig_get_instance_with_local_id := fun st _ _ _ => (st, -1)
    mapper_router_find_map_slot := fun r _ slot =>
      if slot = 0 ∧ r.slots ≠ [] then some 0 else none
    mapper_expr_evaluate := fun _ _ vars h _ => (0, vars, h, [])
    mapper_boundary_perform := fun h _ typestring => (0, h, typestring) }

/-- A 32-bit integer argument with value `v < 256`. -/
def example_int32 (v : Nat) : lo_arg :=
  { s := "", i32 := v, i64 := 0, bytes := [v, 0, 0, 0] }

/-- A 64-bit integer argument with value `v < 256`. -/
def example_int64 (v : Nat) : lo_arg :=
  { s := "", i32 := 0, i64 := v, bytes := [v, 0, 0, 0, 0, 0, 0, 0] }

/-- A string argument; its storage is not used by the examples. -/
def example_string (s : String) : lo_arg :=
  { s := s, i32 := 0, i64 := 0, bytes := [] }

/-- The double 3.14 (`0x40091EB851EB851F`) as an argument. -/
def example_double : lo_arg :=
  { s := "", i32 := 0, i64 := 0, bytes := [0x1f, 0x85, 0xeb, 0x51, 0xb8, 0x1e, 0x09, 0x40] }

/-- An input signal of element type `type` and vector length `length` with one
active instance (entry 0, instance 0, bound to the ID-map node at address 0)
whose value is zeroed, and with a user update handler. -/
def example_signal (type : Char) (length : Nat) : mapper_signal :=
  { props := { type := type, length := length, direction := 2 }
    id_maps := [{ map := some 0, inst := some 0, status := 0 }]
    instances := [{ index := 0
                    value := List.replicate (length * example_env.mapper_type_size type) (some 0)
                    has_value_flags := List.replicate (length / 8 + 1) 0
                    has_value := false
                    timetag := { sec := 0, frac := 0 } }]
    has_complete_value := all_ones_template length
    handler := true
    instance_event_handler := false
    instance_event_flags := 0 }

/-- A device whose active ID-map list is the single node at address 0, with
local id 0 and global id 1, and whose router has no maps. -/
def example_device : mapper_device :=
  { id_map := { heap := [{ local_ := 0, global := 1, refcount_local := 1, refcount_global := 0,
                           next := none }]
                active_id_map := some 0
                reserve_id_map := none }
    router := { slots := [], maps := [] } }

/-- The device `example_device` with one map that is ready, has an expression
and is processed at the source (`process_location` 1), and whose only source
slot, slot number 0, has elements of type `i`. -/
def example_device_with_map : mapper_device :=
  { example_device with
    router :=
      { slots := [{ props := { type := 'i', length := 1, cause_update := true }
                    map := 0, history := [] }]
        maps := [{ status := 2, expr := some 0, process_location := 1, num_sources := 1
                   sources := [0], destination := 0, expr_vars := [] }] } }

/-- The time tag of the example messages. -/
def example_tt : mapper_timetag_t := { sec := 1, frac := 0 }

/-- The float 3.14 (`0x4048F5C3`) as an argument. -/
def example_float : lo_arg :=
  { s := "", i32 := 0, i64 := 0, bytes := [0xc3, 0xf5, 0x48, 0x40] }

/-! ## Notions and examples for the release paths -/

/-- Every node of the list `l` has non-negative reference counts. -/
def refcounts_nonneg (heap : List mapper_id_map) (l : List Nat) : Prop :=
  ∀ a ∈ l, 0 ≤ (node_at heap a).refcount_local ∧ 0 ≤ (node_at heap a).refcount_global

/-- The active list and the free-list are well formed and disjoint, and every
node of the active list has non-negative reference counts. -/
def id_maps_nonneg (dev : id_map_lists) : Prop :=
  ∃ la lr, is_list dev.heap dev.active_id_map la ∧ is_list dev.heap dev.reserve_id_map lr ∧
    (∀ a ∈ la, a ∉ lr) ∧ refcounts_nonneg dev.heap la

/-- A device whose active ID-map list is the single node at address 0, with
local id 0, global id 7 and the given reference counts. -/
def example_device_node (refcount_local refcount_global : Int) : mapper_device :=
  { id_map := { heap := [{ local_ := 0, global := 7, refcount_local := refcount_local
                           refcount_global := refcount_global, next := none }]
                active_id_map := some 0
                reserve_id_map := none }
    router := { slots := [], maps := [] } }

/-- The signal `example_signal type length` with the given status in its
entry 0. -/
def example_signal_status (type : Char) (length status : Nat) : mapper_signal :=
  { example_signal type length with
    id_maps := [{ map := some 0, inst := some 0, status := status }] }

/-- What the handler leaves of the ID-map node at address 0: the head of the
active list, the status and node pointer of entry 0 of the signal, and the two
reference counts of the node. -/
def node_summary (r : Option (World × List Event)) :
    Option (Option Nat × Nat × Option Nat × Int × Int) :=
  match r with
  | some ({ sig := some sig, md := some md }, _) =>
    some (md.id_map.active_id_map, (id_map_entry sig 0).status, (id_map_entry sig 0).map,
      (node_at md.id_map.heap 0).refcount_local, (node_at md.id_map.heap 0).refcount_global)
  | _ => none

/-- Modelled from the spec: `msig_get_instance_with_global_id` is not part of
`device.c`; §4.3 has it return an index that "already references this global id
and is not in `RELEASED_LOCALLY`", and "otherwise allocate (or steal by policy
external to core), bind, and increment `refcount_global`", with -1 when that
fails.  This is the search for such an index, `i` being the index of the first
entry of the list; its result is -1 when there is none. -/
def example_get (heap : List mapper_id_map) (global_id released_locally : Nat) :
    List mapper_signal_id_map_t → Int → Int
  | [], _ => -1
  | e :: rest, i =>
    match e.map with
    | some m =>
      if (node_at heap m).global = global_id ∧ e.status &&& released_locally = 0 then i
      else example_get heap global_id released_locally rest (i + 1)
    | none => example_get heap global_id released_locally rest (i + 1)

/-- The environment `example_env` with an activation by global id that returns
the entry which references the id, when there is one that is not released
locally, and has no instance left to allocate otherwise, and with a map
expression whose result has no value: `mapper_expr_evaluate` succeeds and
returns the type string `N`. -/
def example_env_release : Env :=
  { example_env with
    msig_get_instance_with_global_id := fun st global_id _ _ =>
      (st, example_get st.md.id_map.heap global_id example_env.IN_RELEASED_LOCALLY
        st.sig.id_maps 0)
    mapper_expr_evaluate := fun _ _ vars h _ => (1, vars, h, ['N']) }

/-- A device with the ID-map lists of `example_device_node` (one active node,
local id 0, global id 7) and a router with one map that is ready, has an
expression and is processed at the destination.  Slot 0 is the source slot of
the map, of type `f` and vector length 1, and causes an update; slot 1 is its
destination slot.  Each has a zeroed history ring of two samples for instance
index 0. -/
def example_device_node_map (refcount_local refcount_global : Int) : mapper_device :=
  { id_map := (example_device_node refcount_local refcount_global).id_map
    router :=
      { slots := [{ props := { type := 'f', length := 1, cause_update := true }
                    map := 0
                    history := [{ type := 'f', length := 1, size := 2, position := 0
                                  value := List.replicate 8 (some 0)
                                  timetag := [{ sec := 0, frac := 0 },
                                              { sec := 0, frac := 0 }] }] },
                  { props := { type := 'f', length := 1, cause_update := false }
                    map := 0
                    history := [{ type := 'f', length := 1, size := 2, position := 0
                                  value := List.replicate 8 (some 0)
                                  timetag := [{ sec := 0, frac := 0 },
                                              { sec := 0, frac := 0 }] }] }]
        maps := [{ status := 2, expr := some 0, process_location := 2, num_sources := 1
                   sources := [0], destination := 1, expr_vars := [] }] } }

/-- The ID-map node that an instance update addresses has been claimed by a
peer, so that a release by the peer can lower its `refcount_global`: the node of
the entry that the lookup with the mask `IN_RELEASED_LOCALLY` finds for the
instance id, and the node of the entry with which the instance resolution
ends, have `refcount_global ≥ 1`. -/
def addressed_node_claimed (env : Env) (st : State) (p : Properties)
    (nulls value_len count : Nat) (tt : mapper_timetag_t) : Prop :=
  (∀ m, 0 ≤ env.msig_find_instance_with_global_id st p.instance_id env.IN_RELEASED_LOCALLY →
    (id_map_entry st.sig
      (env.msig_find_instance_with_global_id st p.instance_id env.IN_RELEASED_LOCALLY)).map =
        some m →
    1 ≤ (node_at st.md.id_map.heap m).refcount_global) ∧
  ∀ r idx m, resolve_instance env st p nulls value_len count tt = some r →
    r.id_map_index = some idx → (id_map_entry r.st.sig idx).map = some m →
    1 ≤ (node_at r.st.md.id_map.heap m).refcount_global

/-! ## Notions for the completeness of instance values -/

/-- The template `has_complete_value` of the signal has the bit of every element
`0 .. length - 1` set. -/
def template_complete (sig : mapper_signal) : Prop :=
  ∀ j, j < sig.props.length → bit_set sig.has_complete_value j = true

/-- Every instance of the signal with `has_value` set has the bit of every
element `0 .. length - 1` set in `has_value_flags`. -/
def has_value_complete (sig : mapper_signal) : Prop :=
  ∀ a, (instance_at sig a).has_value = true →
    ∀ j, j < sig.props.length → bit_set (instance_at sig a).has_value_flags j = true

/-- The template is complete and so is every instance that has a value. -/
def has_value_invariant (sig : mapper_signal) : Prop :=
  template_complete sig ∧ has_value_complete sig

/-! ## Registration and the signal arrays of the device

The functions `mdev_registered`, `mdev_add_input` and `mdev_add_output` work on
the signal arrays of the device.  The signals are objects in memory: a signal
pointer is an address in the list `signals`, and the arrays `inputs` and
`outputs` hold such pointers (`none` is an indeterminate entry).  Counts are
natural numbers, which the theorems take below `INT_MAX` where the source
increments them, and `version` is a C `int` whose increment wraps around. -/

/-- The fields of `struct _mapper_signal` that registration and the signal arrays
use: `props.name`, `props.path`, `props.id` and the array `id_maps`, whose
length is `id_map_length`; the removal of an output and the start of the server
also read whether `handler` and `instance_event_handler` are set, and
`instance_event_flags`. -/
structure device_signal where
  name : List Char
  path : List Char
  id : Nat
  id_maps : List mapper_signal_id_map_t
  handler : Bool := false
  instance_event_handler : Bool := false
  instance_event_flags : Nat := 0
deriving DecidableEq, Repr

/-- The fields of `md->props` (a `mapper_db_device`) used here; `id` is a
`uint64_t`. -/
structure mapper_db_device where
  id : Nat
  version : Int
  num_inputs : Nat
  num_outputs : Nat
deriving DecidableEq, Repr

/-- The fields of `struct _mapper_device` used here, with the memory that holds
the signals and the ID-map nodes.  `resource_counter` is declared outside
`device.c`; it is taken to be 32 bits wide, as the spec has "the low 32 bits of
the counter". -/
structure signal_registry where
  registered : Bool
  props : mapper_db_device
  inputs : List (Option Nat)
  outputs : List (Option Nat)
  n_alloc_inputs : Nat
  n_alloc_outputs : Nat
  resource_counter : Nat
  signals : List device_signal
  id_map_heap : List mapper_id_map
deriving DecidableEq, Repr

/-- The handlers that `mdev_add_input` and `mdev_start_server` register with the
server. -/
inductive method_handler where
  | handler_signal
  | handler_query
  | handler_instance_release_request
deriving DecidableEq, Repr

/-- The calls that the functions on the signal arrays make to other modules;
`sig` is a signal pointer. -/
inductive RegistryEvent where
  | lo_server_add_method (path : List Char) (h : method_handler) (sig : Nat)
  | mapper_admin_set_bundle_dest_subscribers (flags : Nat)
  | mapper_admin_send_signal (sig : Nat)
deriving DecidableEq, Repr

/-- The constants and the constructor of other modules that the functions on the
signal arrays use.  `msig_new name length type direction` stands for the call
`msig_new(name, length, type, direction, unit, minimum, maximum, handler,
user_data)`, whose remaining arguments are only passed on; `none` is a null
result. -/
structure RegistryEnv where
  DI_INCOMING : Nat
  DI_OUTGOING : Nat
  SUBSCRIBE_DEVICE_INPUTS : Nat
  SUBSCRIBE_DEVICE_OUTPUTS : Nat
  msig_new : Option (List Char) → Int → Char → Nat → Option device_signal

/-- The signal object that the entry `array[i]` points to; `none` when the entry
is not a pointer to a signal. -/
def signal_of (signals : List device_signal) (array : List (Option Nat)) (i : Nat) :
    Option device_signal :=
  match array.getD i none with
  | none => none
  | some s => signals[s]?

/-- `!(global >> 32)`, the test of the loop over the input signals. -/
def shifted_right_zero (global : Nat) : Bool := global >>> 32 = 0

/-- `!(global << 32)` on a `uint64_t`, the test of the loop over the output
signals. -/
def shifted_left_zero (global : Nat) : Bool := (global <<< 32) % 2 ^ 64 = 0

/-- The loop over `id_maps[j]` of one signal in `mdev_registered`: when the entry
has a node and `test` holds of its global id, `map->global |= md->props.id`. -/
def mdev_registered_id_maps (id : Nat) (test : Nat → Bool) :
    List mapper_signal_id_map_t → List mapper_id_map → List mapper_id_map
  | [], heap => heap
  | e :: rest, heap =>
    match e.map with
    | some a =>
      if test (node_at heap a).global then
        mdev_registered_id_maps id test rest
          (heap.set a { node_at heap a with global := (node_at heap a).global ||| id })
      else mdev_registered_id_maps id test rest heap
    | none => mdev_registered_id_maps id test rest heap

/-- The loop over the signals `array[i]`, ..., of which `n` are left, in
`mdev_registered`.  The result `none` is the dereference of an entry that is
not a pointer to a signal. -/
def mdev_registered_signals (id : Nat) (test : Nat → Bool) (signals : List device_signal)
    (array : List (Option Nat)) : Nat → Nat → List mapper_id_map → Option (List mapper_id_map)
  | 0, _, heap => some heap
  | n + 1, i, heap =>
    match signal_of signals array i with
    | none => none
    | some sig =>
      mdev_registered_signals id test signals array n (i + 1)
        (mdev_registered_id_maps id test sig.id_maps heap)

/-- The function `mdev_registered(md)` (lines 185-207). -/
def mdev_registered (md : signal_registry) : Option signal_registry :=
  match mdev_registered_signals md.props.id shifted_right_zero md.signals md.inputs
      md.props.num_inputs 0 md.id_map_heap with
  | none => none
  | some heap1 =>
    match mdev_registered_signals md.props.id shifted_left_zero md.signals md.outputs
        md.props.num_outputs 0 heap1 with
    | none => none
    | some heap2 => some { md with registered := true, id_map_heap := heap2 }

/-- The loop `while (*size < length) (*size) *= 2;` with a bound on the number of
iterations; `none` when the bound is reached. -/
def grow_size (length : Nat) : Nat → Nat → Option Nat
  | 0, size => if size < length then none else some size
  | fuel + 1, size => if size < length then grow_size length fuel (size * 2) else some size

/-- The function `grow_ptr_array(array, length, size)` (lines 213-218); the result
is the new array and the new `*size`.  `realloc` keeps the entries that fit and
leaves the new ones indeterminate; it is taken to succeed.  The doubling loop
ends within `length` iterations. -/
def grow_ptr_array (array : List (Option Nat)) (length size : Nat) :
    Option (List (Option Nat) × Nat) :=
  let size1 := if size < length ∧ size = 0 then size + 1 else size
  match grow_size length length size1 with
  | none => none
  | some size2 =>
    some (array.take size2 ++ List.replicate (size2 - array.length) none, size2)

/-- The value that a C `int` holds after an operation whose exact result is `x`:
`x` reduced modulo `2 ^ 32` to the range `-2 ^ 31 .. 2 ^ 31 - 1` (two's
complement; `INT_MAX + 1` gives `INT_MIN`). -/
def int_wrap (x : Int) : Int := (x + 2 ^ 31) % 2 ^ 32 - 2 ^ 31

/-- The function `mdev_increment_version(md)` (lines 220-223):
`md->props.version ++` on an `int`. -/
def mdev_increment_version (md : signal_registry) : signal_registry :=
  { md with props := { md.props with version := int_wrap (md.props.version + 1) } }

/-- The function `mdev_get_unique_id(dev)` (lines 1552-1554):
`++dev->resource_counter | dev->props.id`. -/
def mdev_get_unique_id (dev : signal_registry) : signal_registry × Nat :=
  let counter := (dev.resource_counter + 1) % 2 ^ 32
  ({ dev with resource_counter := counter }, counter ||| dev.props.id)

/-- The loops `for (i = 0; i < n; i++) if (array[i]->props.id == id) ...` of
`get_unused_signal_id`: whether one of the `n` signals from index `i` on has the
id.  The result `none` is the dereference of an entry that is not a pointer to
a signal. -/
def signal_id_exists (signals : List device_signal) (array : List (Option Nat)) (id : Nat) :
    Nat → Nat → Option Bool
  | 0, _ => some false
  | n + 1, i =>
    match signal_of signals array i with
    | none => none
    | some sig =>
      if sig.id = id then some true else signal_id_exists signals array id n (i + 1)

/-- The loop `while (!done)` of `get_unused_signal_id` with a bound on the number
of iterations; `none` when the bound is reached or an entry of the arrays is
not a pointer to a signal. -/
def get_unused_signal_id_loop : Nat → signal_registry → Option (signal_registry × Nat)
  | 0, _ => none
  | fuel + 1, dev =>
    let r := mdev_get_unique_id dev
    match signal_id_exists r.1.signals r.1.inputs r.2 r.1.props.num_inputs 0 with
    | none => none
    | some true => get_unused_signal_id_loop fuel r.1
    | some false =>
      match signal_id_exists r.1.signals r.1.outputs r.2 r.1.props.num_outputs 0 with
      | none => none
      | some true => get_unused_signal_id_loop fuel r.1
      | some false => some r

/-- The function `get_unused_signal_id(dev)` (lines 755-780).  After `2 ^ 32`
iterations the counter has taken every value, so that the loop of the source
does not end when the bound is reached. -/
def get_unused_signal_id (dev : signal_registry) : Option (signal_registry × Nat) :=
  get_unused_signal_id_loop (2 ^ 32) dev

/-- The argument `name + slash` of `strcmp`, where
`slash = name[0]=='/' ? 1 : 0`. -/
def skip_slash : List Char → List Char
  | '/' :: rest => rest
  | name => name

/-- The loop of `mdev_get_input_by_name` and `mdev_get_output_by_name` over the
`n` entries from index `i` on: the index and the pointer of the first signal
whose name is `key`.  The outer `none` is the dereference of an entry that is
not a pointer to a signal. -/
def find_signal_by_name (signals : List device_signal) (array : List (Option Nat))
    (key : List Char) : Nat → Nat → Option (Option (Nat × Nat))
  | 0, _ => some none
  | n + 1, i =>
    match array.getD i none with
    | none => none
    | some s =>
      match signals[s]? with
      | none => none
      | some sig =>
        if sig.name = key then some (some (i, s))
        else find_signal_by_name signals array key n (i + 1)

/-- The function `mdev_get_input_by_name(md, name, index)` (lines 1125-1141); the
result has the value stored to `*index` and the signal pointer. -/
def mdev_get_input_by_name (md : signal_registry) (name : Option (List Char)) :
    Option (Option (Nat × Nat)) :=
  match name with
  | none => some none
  | some name =>
    find_signal_by_name md.signals md.inputs (skip_slash name) md.props.num_inputs 0

/-- The function `mdev_get_output_by_name(md, name, index)` (lines 1143-1159). -/
def mdev_get_output_by_name (md : signal_registry) (name : Option (List Char)) :
    Option (Option (Nat × Nat)) :=
  match name with
  | none => some none
  | some name =>
    find_signal_by_name md.signals md.outputs (skip_slash name) md.props.num_outputs 0

/-- The function `mdev_get_signal_by_name(md, name, index)` (lines 1116-1123). -/
def mdev_get_signal_by_name (md : signal_registry) (name : Option (List Char)) :
    Option (Option (Nat × Nat)) :=
  match mdev_get_input_by_name md name with
  | none => none
  | some (some r) => some (some r)
  | some none => mdev_get_output_by_name md name

/-- The function `mdev_add_input(md, name, length, type, ...)` (lines 783-829).
The result has the device, the signal pointer returned (`none` is null) and
the calls made; the result `none` is the dereference of an entry that is not a
pointer to a signal, or a loop that does not end.  The new signal is the
object at the first free address of `signals`; its back pointers `sig->device`
and `sig->props.device` are not part of the model. -/
def mdev_add_input (env : RegistryEnv) (md : signal_registry) (name : Option (List Char))
    (length : Int) (type : Char) :
    Option (signal_registry × Option Nat × List RegistryEvent) :=
  match mdev_get_signal_by_name md name with
  | none => none
  | some (some r) => some (md, some r.2, [])
  | some none =>
    match env.msig_new name length type env.DI_INCOMING with
    | none => some (md, none, [])
    | some new =>
      let sig := md.signals.length
      match get_unused_signal_id md with
      | none => none
      | some (md1, id) =>
        let md2 := { md1 with signals := md1.signals ++ [{ new with id := id }] }
        let md3 := { md2 with props := { md2.props with num_inputs := md2.props.num_inputs + 1 } }
        match grow_ptr_array md3.inputs md3.props.num_inputs md3.n_alloc_inputs with
        | none => none
        | some (array, size) =>
          let md4 := { md3 with inputs := array, n_alloc_inputs := size }
          let md5 := mdev_increment_version md4
          let md6 := { md5 with inputs := md5.inputs.set (md5.props.num_inputs - 1) (some sig) }
          let methods :=
            [RegistryEvent.lo_server_add_method new.path method_handler.handler_signal sig,
             RegistryEvent.lo_server_add_method (new.path ++ "/get".toList)
               method_handler.handler_query sig]
          let notified :=
            if md6.registered then
              [RegistryEvent.mapper_admin_set_bundle_dest_subscribers env.SUBSCRIBE_DEVICE_INPUTS,
               RegistryEvent.mapper_admin_send_signal sig]
            else []
          some (md6, some sig, methods ++ notified)

/-- The function `mdev_add_output(md, name, length, type, ...)` (lines 832-863),
with the result of `mdev_add_input`. -/
def mdev_add_output (env : RegistryEnv) (md : signal_registry) (name : Option (List Char))
    (length : Int) (type : Char) :
    Option (signal_registry × Option Nat × List RegistryEvent) :=
  match mdev_get_signal_by_name md name with
  | none => none
  | some (some r) => some (md, some r.2, [])
  | some none =>
    match env.msig_new name length type env.DI_OUTGOING with
    | none => some (md, none, [])
    | some new =>
      let sig := md.signals.length
      match get_unused_signal_id md with
      | none => none
      | some (md1, id) =>
        let md2 := { md1 with signals := md1.signals ++ [{ new with id := id }] }
        let md3 := { md2 with
          props := { md2.props with num_outputs := md2.props.num_outputs + 1 } }
        match grow_ptr_array md3.outputs md3.props.num_outputs md3.n_alloc_outputs with
        | none => none
        | some (array, size) =>
          let md4 := { md3 with outputs := array, n_alloc_outputs := size }
          let md5 := mdev_increment_version md4
          let md6 := { md5 with
            outputs := md5.outputs.set (md5.props.num_outputs - 1) (some sig) }
          let notified :=
            if md6.registered then
              [RegistryEvent.mapper_admin_set_bundle_dest_subscribers
                 env.SUBSCRIBE_DEVICE_OUTPUTS,
               RegistryEvent.mapper_admin_send_signal sig]
            else []
          some (md6, some sig, notified)

/-! ## Notions and examples for the signal arrays -/

/-- Every entry of the arrays below `num_inputs` and `num_outputs` points to a
signal. -/
def signals_valid (md : signal_registry) : Prop :=
  (∀ i, i < md.props.num_inputs → ∃ sig, signal_of md.signals md.inputs i = some sig) ∧
  (∀ i, i < md.props.num_outputs → ∃ sig, signal_of md.signals md.outputs i = some sig)

/-- Some input or output signal of the device has the name `key`. -/
def name_exists (md : signal_registry) (key : List Char) : Prop :=
  (∃ i sig, i < md.props.num_inputs ∧ signal_of md.signals md.inputs i = some sig ∧
    sig.name = key) ∨
  (∃ i sig, i < md.props.num_outputs ∧ signal_of md.signals md.outputs i = some sig ∧
    sig.name = key)

/-- Some input or output signal of the device has the id `id`. -/
def id_exists (md : signal_registry) (id : Nat) : Prop :=
  (∃ i sig, i < md.props.num_inputs ∧ signal_of md.signals md.inputs i = some sig ∧
    sig.id = id) ∨
  (∃ i sig, i < md.props.num_outputs ∧ signal_of md.signals md.outputs i = some sig ∧
    sig.id = id)

/-- A device with the id `0xABCDEF00_00000000`, one input signal `in` and one
output signal `out`, each with one ID-map entry: the entry of `in` is bound to
the node at address 0, whose global id is `g0`, and that of `out` to the node
at address `out_node`; the node at address 1 has the global id `g1`. -/
def example_registry (g0 g1 out_node : Nat) : signal_registry :=
  { registered := false
    props := { id := 0xABCDEF0000000000, version := 0, num_inputs := 1, num_outputs := 1 }
    inputs := [some 0]
    outputs := [some 1]
    n_alloc_inputs := 1
    n_alloc_outputs := 1
    resource_counter := 0
    signals := [{ name := "in".toList, path := "/in".toList, id := 1
                  id_maps := [{ map := some 0, inst := some 0, status := 0 }] },
                { name := "out".toList, path := "/out".toList, id := 2
                  id_maps := [{ map := some out_node, inst := some 0, status := 0 }] }]
    id_map_heap := [{ local_ := 0, global := g0, refcount_local := 1, refcount_global := 0
                      next := some 1 },
                    { local_ := 1, global := g1, refcount_local := 1, refcount_global := 0
                      next := none }] }

/-- An environment for the examples: sample values for the constants, and a
constructor that makes a signal without ID-map entries, whose name is the
argument without its leading slash, or returns null for a null name. -/
def example_registry_env : RegistryEnv :=
  { DI_INCOMING := 2
    DI_OUTGOING := 1
    SUBSCRIBE_DEVICE_INPUTS := 4
    SUBSCRIBE_DEVICE_OUTPUTS := 8
    msig_new := fun name _ _ _ =>
      name.map fun n => { name := skip_slash n, path := '/' :: skip_slash n, id := 0
                          id_maps := [] } }

/-! ## Notions for the ids of the signals -/

/-- The signals at different indices below `n` of the array have different ids. -/
def array_ids_distinct (signals : List device_signal) (array : List (Option Nat)) (n : Nat) :
    Prop :=
  ∀ i j s1 s2, i < n → j < n → i ≠ j → signal_of signals array i = some s1 →
    signal_of signals array j = some s2 → s1.id ≠ s2.id

/-- No signal below index `n` of the first array has the id of a signal below
index `m` of the second. -/
def array_ids_disjoint (signals : List device_signal) (array1 : List (Option Nat)) (n : Nat)
    (array2 : List (Option Nat)) (m : Nat) : Prop :=
  ∀ i j s1 s2, i < n → j < m → signal_of signals array1 i = some s1 →
    signal_of signals array2 j = some s2 → s1.id ≠ s2.id

/-- The signals in the input and output arrays of the device have pairwise
distinct ids. -/
def ids_distinct (md : signal_registry) : Prop :=
  array_ids_distinct md.signals md.inputs md.props.num_inputs ∧
  array_ids_distinct md.signals md.outputs md.props.num_outputs ∧
  array_ids_disjoint md.signals md.inputs md.props.num_inputs md.outputs md.props.num_outputs

/-! ## The device object

The functions of `device.c` that work on the device as a whole: its name, its
file descriptors, its properties, the removal of signals, construction and
teardown.  `device_record` has the fields of `struct _mapper_device` that
these functions use; the signal arrays are those of `signal_registry`.  The
objects of other modules that the device points to (the admin context, the
router, the property table) are part of the record. -/

/-- A pointer to a string obtained from `malloc` or `strdup`: null, the address
of a live string, or the address of a block that has been freed. -/
inductive heap_string where
  | null
  | valid (s : List Char)
  | freed
deriving DecidableEq, Repr

/-- The fields `value` and `locked` of `md->ordinal`. -/
structure mapper_admin_allocated_t where
  value : Int
  locked : Int
deriving DecidableEq, Repr

/-- The fields of the admin context (`struct _mapper_admin`) that `device.c`
reads or writes; the bundle and the two servers are handles of the transport
library, and `device` tells whether `admin->device` is set. -/
structure mapper_admin_t where
  bundle : Option Nat
  bus_server : Option Nat
  mesh_server : Option Nat
  device : Bool
deriving DecidableEq, Repr

/-- A record of the property table `props.extra`: key, type, value and length. -/
structure table_record where
  key : List Char
  type : Char
  value : Option (List Char)
  length : Int
deriving DecidableEq, Repr

/-- The two names that `send_unmap` reads through a slot of a map:
`props->signal->device->name` and `props->signal->path`. -/
structure slot_names where
  device_name : List Char
  signal_path : List Char
deriving DecidableEq, Repr

/-- The fields of a map that `send_unmap` reads: `status`, `props.num_sources`,
the source slots and the destination slot. -/
structure router_map where
  status : Int
  num_sources : Nat
  sources : List slot_names
  destination : slot_names
deriving DecidableEq, Repr

/-- A router signal (`struct _mapper_router_signal`): `slots` is the array of
slot pointers, and `next` the link of the list `router->signals`. -/
structure router_signal where
  signal : Option Nat
  num_slots : Nat
  slots : List (Option Nat)
  next : Option Nat
deriving DecidableEq, Repr

/-- The router of the device (`struct _mapper_router`) with the memory of its
objects: `signals` is the head of the list of router signals, which are the
objects of `router_signals`; `slot_map` has the pointer `map` of every slot,
and `maps` the maps.  `links` lists the links of the router, the first being
`router->links`. -/
structure device_router where
  links : List Nat
  signals : Option Nat
  router_signals : List router_signal
  slot_map : List (Option Nat)
  maps : List router_map
deriving DecidableEq, Repr

/-- The fields of `struct _mapper_device` used by the functions on the device
object.  `reg` has the signal arrays (an array without entries is a null
array pointer) and the memory of the signals and of the ID-map nodes, of
which `active_id_map` and `reserve_id_map` are the two lists. -/
structure device_record where
  reg : signal_registry
  admin : Option mapper_admin_t
  own_admin : Int
  server : Option Nat
  ordinal : mapper_admin_allocated_t
  identifier : heap_string
  name : heap_string
  description : heap_string
  host : heap_string
  lib_version : Option (List Char)
  port : Int
  extra : Option (List table_record)
  router : Option device_router
  active_id_map : Option Nat
  reserve_id_map : Option Nat
  link_timeout_sec : Int
  n_output_callbacks : Int
deriving DecidableEq, Repr

/-- The calls that the functions on the device object make to other modules. -/
inductive DeviceEvent where
  | lo_server_add_method (path : List Char) (typespec : Option (List Char))
      (h : method_handler) (sig : Nat)
  | lo_server_del_method (path : List Char) (typespec : Option (List Char))
  | lo_server_new (port : Option (List Char))
  | lo_server_enable_queue (server : Nat)
  | lo_server_free (server : Nat)
  | lo_bundle_free_messages (bundle : Option Nat)
  | lo_bundle_add_message (bundle : Option Nat) (path : List Char) (args : List (List Char))
  | mapper_admin_new
  | mapper_admin_free
  | mapper_admin_add_device
  | mapper_admin_set_bundle_dest_bus
  | mapper_admin_set_bundle_dest_subscribers (flags : Nat)
  | mapper_admin_send_bundle
  | mapper_admin_send_signal_removed (sig : Nat)
  | mapper_admin_bundle_message (msg : List Char) (arg : Option (List Char))
  | mapper_router_remove_map (map : Option Nat)
  | mapper_router_remove_signal (rs : Nat)
  | mapper_router_remove_link (link : Nat)
  | msig_release_instance_internal (sig : Nat) (j : Nat)
  | msig_free (sig : Nat)
  | table_free
deriving DecidableEq, Repr

/-- The constants and functions of other modules that the functions on the
device object use.  A function that changes an object returns the new object.
`lo_server_new` is a function of its port argument, so that a call that fails
once fails again. -/
structure DeviceEnv where
  SUBSCRIBE_DEVICE_INPUTS : Nat
  SUBSCRIBE_DEVICE_OUTPUTS : Nat
  IN_DOWNSTREAM_RELEASE : Nat
  ADM_LOGOUT : List Char
  ADM_UNMAP : List Char
  PACKAGE_VERSION : List Char
  ADMIN_TIMEOUT_SEC : Int
  mapper_admin_new : Option mapper_admin_t
  lo_server_new : Option (List Char) → Option Nat
  lo_server_get_port : Nat → Int
  lo_server_get_socket_fd : Option Nat → Int
  lo_message_new : Bool
  table_new : Option (List table_record)
  mapper_table_add_or_update_typed_value : Option (List table_record) → List Char → Char →
    Option (List Char) → Int → Option (List table_record)
  table_remove_key : Option (List table_record) → List Char → Int →
    Option (List table_record)
  mapper_router_remove_map : device_router → Option Nat → device_router
  mapper_router_remove_signal : device_router → Nat → device_router
  mapper_router_remove_link : device_router → Nat → device_router
  msig_release_instance_internal : signal_registry → Nat → Nat → signal_registry

/-- The conversion `%d` of `printf`. -/
def decimal (n : Int) : List Char :=
  if n < 0 then '-' :: Nat.toDigits 10 (-n).toNat else Nat.toDigits 10 n.toNat

/-- The string that `snprintf(str, size, ...)` leaves in `str` when the whole
output would be `s`: at most `size - 1` characters. -/
def snprintf (size : Nat) (s : List Char) : List Char := s.take (size - 1)

/-- `if (p) free(p);` on a string pointer: the pointer keeps its value.  The
result `none` is the second `free` of a block. -/
def free_string : heap_string → Option heap_string
  | heap_string.null => some heap_string.null
  | heap_string.valid _ => some heap_string.freed
  | heap_string.freed => none

/-- The function `mdev_name(md)` (lines 1424-1438); the result has the device,
whose `props.name` caches the name, and the string returned (`none` is null).
The result `none` is `strlen` of a null or freed identifier, or the use of a
freed name. -/
def mdev_name (md : device_record) : Option (device_record × Option (List Char)) :=
  if md.reg.registered = false ∨ md.ordinal.locked = 0 then some (md, none)
  else
    match md.name with
    | heap_string.valid s => some (md, some s)
    | heap_string.freed => none
    | heap_string.null =>
      match md.identifier with
      | heap_string.valid identifier =>
        let len := identifier.length + 6
        let name := snprintf len (identifier ++ '.' :: decimal md.ordinal.value)
        some ({ md with name := heap_string.valid name }, some name)
      | _ => none

/-- The function `mdev_num_fds(md)` (lines 1213-1217). -/
def mdev_num_fds (_md : device_record) : Int := 3

/-- The function `mdev_get_fds(md, fds, num)` (lines 1219-1233); the result has
the array `fds` and the value returned.  The result `none` is the dereference
of a null admin context. -/
def mdev_get_fds (env : DeviceEnv) (md : device_record) (fds : List Int) (num : Int) :
    Option (List Int × Int) :=
  match md.admin with
  | none => if num > 0 then none else some (fds, 1)
  | some admin =>
    let fds1 := if num > 0 then fds.set 0 (env.lo_server_get_socket_fd admin.bus_server) else fds
    if num > 1 then
      let fds2 := fds1.set 1 (env.lo_server_get_socket_fd admin.mesh_server)
      if num > 2 then some (fds2.set 2 (env.lo_server_get_socket_fd md.server), 3)
      else some (fds2, 2)
    else some (fds1, 1)

/-- The eleven keys that `mdev_set_property` refuses (lines 1493-1503). -/
def locked_properties : List (List Char) :=
  ["host".toList, "libversion".toList, "name".toList, "num_incoming_maps".toList,
   "num_outgoing_maps".toList, "num_inputs".toList, "num_outputs".toList, "port".toList,
   "synced".toList, "user_data".toList, "version".toList]

/-- The function `mdev_set_property(dev, property, type, value, length)` (lines
1490-1521); `value` is the string at the pointer `value`, or `none` for a null
pointer.  The result `none` is `strdup` of a null pointer or the second `free`
of the description. -/
def mdev_set_property (env : DeviceEnv) (dev : device_record) (property : List Char)
    (type : Char) (value : Option (List Char)) (length : Int) : Option device_record :=
  if property = "host".toList ∨ property = "libversion".toList ∨ property = "name".toList ∨
      property = "num_incoming_maps".toList ∨ property = "num_outgoing_maps".toList ∨
      property = "num_inputs".toList ∨ property = "num_outputs".toList ∨
      property = "port".toList ∨ property = "synced".toList ∨
      property = "user_data".toList ∨ property = "version".toList then
    some dev
  else if property = "description".toList then
    if type = 's' ∧ length = 1 then
      match free_string dev.description with
      | none => none
      | some _ =>
        match value with
        | none => none
        | some s => some { dev with description := heap_string.valid s }
    else if value = none ∨ length = 0 then
      match free_string dev.description with
      | none => none
      | some description => some { dev with description := description }
    else some dev
  else
    some { dev with
      extra := env.mapper_table_add_or_update_typed_value dev.extra property type value length }

/-- The function `mdev_remove_property(dev, property)` (lines 1530-1533). -/
def mdev_remove_property (env : DeviceEnv) (dev : device_record) (property : List Char) :
    device_record :=
  { dev with extra := env.table_remove_key dev.extra property 1 }

/-! ## Removal of signals -/

/-- The loop of `send_unmap` over `map->sources[i]`, of which `n` are left; `len`
is the number of bytes of `source_names` in use and `args` the strings added to
the message so far.  The inner `none` is the early `return` for names that do
not fit, the outer one a read past the end of the sources. -/
def send_unmap_sources (map : router_map) :
    Nat → Nat → Nat → List (List Char) → Option (Option (List (List Char)))
  | 0, _, _, args => some (some args)
  | n + 1, i, len, args =>
    match map.sources[i]? with
    | none => none
    | some src =>
      let result := (src.device_name ++ src.signal_path).length
      if len + result + 1 ≥ 1024 then some none
      else
        send_unmap_sources map n (i + 1) (len + result + 1)
          (args ++ [snprintf (1024 - len) (src.device_name ++ src.signal_path)])

/-- The function `send_unmap(admin, map)` (lines 934-967); the result has the
calls made.  The result `none` is the dereference of a null admin context or
map, or a read past the end of the sources. -/
def send_unmap (env : DeviceEnv) (admin : Option mapper_admin_t) (map : Option router_map) :
    Option (List DeviceEvent) :=
  match map with
  | none => none
  | some map =>
    if map.status = 0 then some []
    else if env.lo_message_new = false then some [DeviceEvent.mapper_admin_set_bundle_dest_bus]
    else
      match send_unmap_sources map map.num_sources 0 0 [] with
      | none => none
      | some none => some [DeviceEvent.mapper_admin_set_bundle_dest_bus]
      | some (some sources) =>
        let dest_name := snprintf 1024
          (map.destination.device_name ++ map.destination.signal_path)
        match admin with
        | none => none
        | some admin =>
          some [DeviceEvent.mapper_admin_set_bundle_dest_bus,
            DeviceEvent.lo_bundle_add_message admin.bundle env.ADM_UNMAP
              (sources ++ ["->".toList, dest_name]),
            DeviceEvent.mapper_admin_send_bundle]

/-- The search loops `for (i=0; i<n; i++) if (array[i] == sig) break;`: the index
at which the loop ends, of the `n` entries from index `i` on. -/
def find_signal_index (array : List (Option Nat)) (sig : Nat) : Nat → Nat → Nat
  | 0, i => i
  | n + 1, i =>
    if array.getD i none = some sig then i else find_signal_index array sig n (i + 1)

/-- The loops `for (n=i; n<(num-1); n++) array[n] = array[n+1];`, of which `k`
iterations are left. -/
def shift_signals : Nat → Nat → List (Option Nat) → List (Option Nat)
  | 0, _, array => array
  | k + 1, n, array => shift_signals k (n + 1) (array.set n (array.getD (n + 1) none))

/-- The loop `while (rs && rs->signal != sig) rs = rs->next;` over the router
signals.  `fuel` bounds the number of steps; the result `none` is a walk that
does not end or leaves the memory of the router signals. -/
def find_router_signal (router : device_router) (sig : Nat) :
    Nat → Option Nat → Option (Option Nat)
  | _, none => some none
  | 0, some _ => none
  | fuel + 1, some rs =>
    match router.router_signals[rs]? with
    | none => none
    | some r =>
      if r.signal = some sig then some (some rs)
      else find_router_signal router sig fuel r.next

/-- The loop over `rs->slots[i]` in the removal of a signal: every slot that is
set has its map announced by `send_unmap` and removed from the router.  `n`
bounds the number of iterations left, and the bound `rs->num_slots` is read
again in every iteration; the result `none` is a null pointer dereference or a
loop that goes on after `n` iterations. -/
def unmap_slots (env : DeviceEnv) (admin : Option mapper_admin_t) (rs : Nat) :
    Nat → Nat → device_router → List DeviceEvent → Option (device_router × List DeviceEvent)
  | n, i, router, events =>
    match router.router_signals[rs]? with
    | none => none
    | some r =>
      if i < r.num_slots then
        match n with
        | 0 => none
        | n + 1 =>
          match r.slots.getD i none with
          | none => unmap_slots env admin rs n (i + 1) router events
          | some slot =>
            match router.slot_map[slot]? with
            | none => none
            | some map =>
              match send_unmap env admin (map.bind fun m => router.maps[m]?) with
              | none => none
              | some sent =>
                unmap_slots env admin rs n (i + 1) (env.mapper_router_remove_map router map)
                  (events ++ sent ++ [DeviceEvent.mapper_router_remove_map map])
      else some (router, events)

/-- The part of the removal of a signal that works on the router (lines
996-1009 and 1043-1056): find the router signal of `sig`, unmap its slots and
remove it from the router. -/
def unmap_signal (env : DeviceEnv) (md : device_record) (sig : Nat) :
    Option (device_router × List DeviceEvent) :=
  match md.router with
  | none => none
  | some router =>
    match find_router_signal router sig (router.router_signals.length + 1) router.signals with
    | none => none
    | some none => some (router, [])
    | some (some rs) =>
      match router.router_signals[rs]? with
      | none => none
      | some r =>
        match unmap_slots env md.admin rs r.num_slots 0 router [] with
        | none => none
        | some (router1, events) =>
          some (env.mapper_router_remove_signal router1 rs,
            events ++ [DeviceEvent.mapper_router_remove_signal rs])

/-- The function `mdev_remove_input(md, sig)` (lines 977-1022); the result has
the device and the calls made.  The freed signal stays in the memory
`signals`.  The result `none` is a null pointer dereference or a loop that
does not end. -/
def mdev_remove_input (env : DeviceEnv) (md : device_record) (sig : Nat) :
    Option (device_record × List DeviceEvent) :=
  let i := find_signal_index md.reg.inputs sig md.reg.props.num_inputs 0
  if i = md.reg.props.num_inputs then some (md, [])
  else
    let inputs := shift_signals (md.reg.props.num_inputs - 1 - i) i md.reg.inputs
    match md.reg.signals[sig]? with
    | none => none
    | some s =>
      let methods :=
        [DeviceEvent.lo_server_del_method s.path none,
         DeviceEvent.lo_server_del_method (snprintf 1024 (s.path ++ "/get".toList)) none]
      match unmap_signal env md sig with
      | none => none
      | some (router, unmapped) =>
        let notified :=
          if md.reg.registered then
            [DeviceEvent.mapper_admin_set_bundle_dest_subscribers env.SUBSCRIBE_DEVICE_INPUTS,
             DeviceEvent.mapper_admin_send_signal_removed sig]
          else []
        let props := { md.reg.props with num_inputs := md.reg.props.num_inputs - 1 }
        let reg := mdev_increment_version { md.reg with inputs := inputs, props := props }
        some ({ md with reg := reg, router := some router },
          methods ++ unmapped ++ notified ++ [DeviceEvent.msig_free sig])

/-- The function `mdev_remove_output(md, sig)` (lines 1024-1072), with the
result of `mdev_remove_input`. -/
def mdev_remove_output (env : DeviceEnv) (md : device_record) (sig : Nat) :
    Option (device_record × List DeviceEvent) :=
  let i := find_signal_index md.reg.outputs sig md.reg.props.num_outputs 0
  if i = md.reg.props.num_outputs then some (md, [])
  else
    let outputs := shift_signals (md.reg.props.num_outputs - 1 - i) i md.reg.outputs
    match md.reg.signals[sig]? with
    | none => none
    | some s =>
      let got :=
        if s.handler then
          [DeviceEvent.lo_server_del_method (snprintf 1024 (s.path ++ "/got".toList)) none]
        else []
      let release :=
        if s.instance_event_handler ∧ s.instance_event_flags &&& env.IN_DOWNSTREAM_RELEASE ≠ 0
        then [DeviceEvent.lo_server_del_method s.path (some "iiF".toList)]
        else []
      match unmap_signal env md sig with
      | none => none
      | some (router, unmapped) =>
        let notified :=
          if md.reg.registered then
            [DeviceEvent.mapper_admin_set_bundle_dest_subscribers env.SUBSCRIBE_DEVICE_OUTPUTS,
             DeviceEvent.mapper_admin_send_signal_removed sig]
          else []
        let props := { md.reg.props with num_outputs := md.reg.props.num_outputs - 1 }
        let reg := mdev_increment_version { md.reg with outputs := outputs, props := props }
        some ({ md with reg := reg, router := some router },
          got ++ release ++ unmapped ++ notified ++ [DeviceEvent.msig_free sig])

/-! ## Construction and teardown -/

/-- The object that `calloc` returns for a device: every field is zero. -/
def device_record.zero : device_record :=
  { reg := { registered := false
             props := { id := 0, version := 0, num_inputs := 0, num_outputs := 0 }
             inputs := [], outputs := [], n_alloc_inputs := 0, n_alloc_outputs := 0
             resource_counter := 0, signals := [], id_map_heap := [] }
    admin := none
    own_admin := 0
    server := none
    ordinal := { value := 0, locked := 0 }
    identifier := heap_string.null
    name := heap_string.null
    description := heap_string.null
    host := heap_string.null
    lib_version := none
    port := 0
    extra := none
    router := none
    active_id_map := none
    reserve_id_map := none
    link_timeout_sec := 0
    n_output_callbacks := 0 }

/-- The object that `calloc` returns for a router. -/
def device_router.zero : device_router :=
  { links := [], signals := none, router_signals := [], slot_map := [], maps := [] }

/-- The loop of `mdev_start_server` over the input signals, of which `n` are
left: the methods `path` and `path/get` are added for each. -/
def start_server_inputs (reg : signal_registry) :
    Nat → Nat → List DeviceEvent → Option (List DeviceEvent)
  | 0, _, events => some events
  | n + 1, i, events =>
    match reg.inputs.getD i none with
    | none => none
    | some sig =>
      match reg.signals[sig]? with
      | none => none
      | some s =>
        start_server_inputs reg n (i + 1)
          (events ++
            [DeviceEvent.lo_server_add_method s.path none method_handler.handler_signal sig,
             DeviceEvent.lo_server_add_method (s.path ++ "/get".toList) none
               method_handler.handler_query sig])

/-- The loop of `mdev_start_server` over the output signals, of which `n` are
left; the result has the calls made and `n_output_callbacks`. -/
def start_server_outputs (env : DeviceEnv) (reg : signal_registry) :
    Nat → Nat → List DeviceEvent → Int → Option (List DeviceEvent × Int)
  | 0, _, events, callbacks => some (events, callbacks)
  | n + 1, i, events, callbacks =>
    match reg.outputs.getD i none with
    | none => none
    | some sig =>
      match reg.signals[sig]? with
      | none => none
      | some s =>
        let got :=
          if s.handler then
            [DeviceEvent.lo_server_add_method (s.path ++ "/got".toList) none
              method_handler.handler_signal sig]
          else []
        let callbacks1 := if s.handler then callbacks + 1 else callbacks
        let requested : Bool :=
          s.instance_event_handler ∧ s.instance_event_flags &&& env.IN_DOWNSTREAM_RELEASE ≠ 0
        let release :=
          if requested then
            [DeviceEvent.lo_server_add_method s.path (some "iiF".toList)
              method_handler.handler_instance_release_request sig]
          else []
        let callbacks2 := if requested then callbacks1 + 1 else callbacks1
        start_server_outputs env reg n (i + 1) (events ++ got ++ release) callbacks2

/-- The function `mdev_start_server(md, starting_port)` (lines 1382-1422).  The
result `none` is the loop `while (!(md->server = lo_server_new(...)))` going on
for ever, or the dereference of an entry of the arrays that does not point to
a signal. -/
def mdev_start_server (env : DeviceEnv) (md : device_record) (starting_port : Int) :
    Option (device_record × List DeviceEvent) :=
  if md.server = none then
    let pport := if starting_port ≠ 0 then some (decimal starting_port) else none
    let created : Option (Nat × List DeviceEvent) :=
      match env.lo_server_new pport with
      | some server => some (server, [DeviceEvent.lo_server_new pport])
      | none =>
        if pport = none then none
        else
          match env.lo_server_new none with
          | some server =>
            some (server, [DeviceEvent.lo_server_new pport, DeviceEvent.lo_server_new none])
          | none => none
    match created with
    | none => none
    | some (server, events) =>
      let md1 := { md with server := some server, port := env.lo_server_get_port server }
      match start_server_inputs md1.reg md1.reg.props.num_inputs 0
          (events ++ [DeviceEvent.lo_server_enable_queue server]) with
      | none => none
      | some events1 =>
        match start_server_outputs env md1.reg md1.reg.props.num_outputs 0 events1
            md1.n_output_callbacks with
        | none => none
        | some (events2, callbacks) =>
          some ({ md1 with n_output_callbacks := callbacks }, events2)
  else some (md, [])

/-- The loop over `sig->id_maps[j]` in `mdev_free`: every entry with an instance
is released.  `n` bounds the number of iterations left and `id_map_length` is
read again in every iteration; the result `none` is the dereference of a
pointer that is not one to a signal, or a loop that goes on after `n`
iterations. -/
def release_signal_instances (env : DeviceEnv) (sig : Nat) :
    Nat → Nat → signal_registry → List DeviceEvent → Option (signal_registry × List DeviceEvent)
  | n, j, reg, events =>
    match reg.signals[sig]? with
    | none => none
    | some s =>
      if j < s.id_maps.length then
        match n with
        | 0 => none
        | n + 1 =>
          if (s.id_maps.getD j mapper_signal_id_map_t.zero).inst ≠ none then
            release_signal_instances env sig n (j + 1)
              (env.msig_release_instance_internal reg sig j)
              (events ++ [DeviceEvent.msig_release_instance_internal sig j])
          else release_signal_instances env sig n (j + 1) reg events
      else some (reg, events)

/-- The loops of `mdev_free` over the signals of an array (`array` and `num`
select the outputs or the inputs): the instances of every signal are released.
`n` bounds the number of iterations left. -/
def release_all_instances (env : DeviceEnv) (array : signal_registry → List (Option Nat))
    (num : signal_registry → Nat) :
    Nat → Nat → signal_registry → List DeviceEvent → Option (signal_registry × List DeviceEvent)
  | n, i, reg, events =>
    if i < num reg then
      match n with
      | 0 => none
      | n + 1 =>
        match (array reg).getD i none with
        | none => none
        | some sig =>
          match reg.signals[sig]? with
          | none => none
          | some s =>
            match release_signal_instances env sig s.id_maps.length 0 reg events with
            | none => none
            | some (reg1, events1) => release_all_instances env array num n (i + 1) reg1 events1
    else some (reg, events)

/-- The loop `while (md->props.num_outputs) mdev_remove_output(md,
md->outputs[0]);`, which ends within `num_outputs` iterations; `n` iterations
are left. -/
def remove_all_outputs (env : DeviceEnv) :
    Nat → device_record → List DeviceEvent → Option (device_record × List DeviceEvent)
  | n, md, events =>
    if md.reg.props.num_outputs ≠ 0 then
      match n with
      | 0 => none
      | n + 1 =>
        match md.reg.outputs.getD 0 none with
        | none => none
        | some sig =>
          match mdev_remove_output env md sig with
          | none => none
          | some (md1, removed) => remove_all_outputs env n md1 (events ++ removed)
    else some (md, events)

/-- The loop `while (md->props.num_inputs) mdev_remove_input(md, md->inputs[0]);`.
-/
def remove_all_inputs (env : DeviceEnv) :
    Nat → device_record → List DeviceEvent → Option (device_record × List DeviceEvent)
  | n, md, events =>
    if md.reg.props.num_inputs ≠ 0 then
      match n with
      | 0 => none
      | n + 1 =>
        match md.reg.inputs.getD 0 none with
        | none => none
        | some sig =>
          match mdev_remove_input env md sig with
          | none => none
          | some (md1, removed) => remove_all_inputs env n md1 (events ++ removed)
    else some (md, events)

/-- The loop `while (md->router->links) mapper_router_remove_link(...)`; `n`
bounds the number of iterations left, which is enough when every call removes
a link. -/
def remove_all_links (env : DeviceEnv) :
    Nat → device_router → List DeviceEvent → Option (device_router × List DeviceEvent)
  | n, router, events =>
    match router.links with
    | [] => some (router, events)
    | link :: _ =>
      match n with
      | 0 => none
      | n + 1 =>
        remove_all_links env n (env.mapper_router_remove_link router link)
          (events ++ [DeviceEvent.mapper_router_remove_link link])

/-- The loops that free a linked list node by node, given the link `next` of
the node at an address (`none` for an address outside the memory); `freed`
lists the nodes freed so far.  The result `none` is the use of a node that is
outside the memory or has been freed, so that `fuel` above the number of nodes
is never used up. -/
def free_list (next : Nat → Option (Option Nat)) :
    Nat → Option Nat → List Nat → Option (List Nat)
  | _, none, freed => some freed
  | 0, some _, _ => none
  | fuel + 1, some a, freed =>
    if a ∈ freed then none
    else
      match next a with
      | none => none
      | some link => free_list next fuel link (a :: freed)

/-- The function `mdev_free(md)` (lines 85-183).  The result has the admin
context that is left, when it is not the device's own, and the calls made; the
result `none` is a null pointer dereference, the use of freed memory, or a
loop that does not end. -/
def mdev_free (env : DeviceEnv) (md : Option device_record) :
    Option (Option mapper_admin_t × List DeviceEvent) :=
  match md with
  | none => some (none, [])
  | some md =>
    match md.admin with
    | none => none
    | some admin =>
      let md1 := { md with admin := some { admin with bundle := none } }
      let events0 := [DeviceEvent.lo_bundle_free_messages admin.bundle]
      match (if md1.reg.outputs ≠ [] then
          release_all_instances env (fun reg => reg.outputs) (fun reg => reg.props.num_outputs)
            md1.reg.props.num_outputs 0 md1.reg events0
        else some (md1.reg, events0)) with
      | none => none
      | some (reg1, events1) =>
        match (if reg1.inputs ≠ [] then
            release_all_instances env (fun reg => reg.inputs) (fun reg => reg.props.num_inputs)
              reg1.props.num_inputs 0 reg1 events1
          else some (reg1, events1)) with
        | none => none
        | some (reg2, events2) =>
          let md2 := { md1 with reg := reg2 }
          match (if md2.reg.outputs ≠ [] then
              remove_all_outputs env md2.reg.props.num_outputs md2 events2
            else some (md2, events2)) with
          | none => none
          | some (md3, events3) =>
            match (if md3.reg.inputs ≠ [] then
                remove_all_inputs env md3.reg.props.num_inputs md3 events3
              else some (md3, events3)) with
            | none => none
            | some (md4, events4) =>
              match (if md4.reg.registered then
                  (mdev_name md4).map fun r =>
                    (r.1, events4 ++ [DeviceEvent.mapper_admin_set_bundle_dest_bus,
                      DeviceEvent.mapper_admin_bundle_message env.ADM_LOGOUT r.2])
                else some (md4, events4)) with
              | none => none
              | some (md5, events5) =>
                match md5.router with
                | none => none
                | some router =>
                  match remove_all_links env router.links.length router events5 with
                  | none => none
                  | some (router1, events6) =>
                    let heap := md5.reg.id_map_heap
                    let next_node := fun a => heap[a]?.map fun node => node.next
                    match free_list next_node (heap.length + 1) md5.active_id_map [] with
                    | none => none
                    | some freed =>
                      match free_list next_node (heap.length + 1) md5.reserve_id_map freed with
                      | none => none
                      | some _ =>
                        let next_signal := fun a => router1.router_signals[a]?.map fun rs => rs.next
                        match free_list next_signal (router1.router_signals.length + 1)
                            router1.signals [] with
                        | none => none
                        | some _ =>
                          let events7 :=
                            if md5.extra ≠ none then events6 ++ [DeviceEvent.table_free]
                            else events6
                          match free_string md5.identifier, free_string md5.name,
                              free_string md5.description, free_string md5.host with
                          | some _, some _, some _, some _ =>
                            let left := if md5.own_admin ≠ 0 then none
                              else md5.admin.map fun a => { a with device := false }
                            let events8 :=
                              if md5.own_admin ≠ 0 ∧ md5.admin ≠ none then
                                events7 ++ [DeviceEvent.mapper_admin_free]
                              else events7
                            let events9 := match md5.server with
                              | some server => events8 ++ [DeviceEvent.lo_server_free server]
                              | none => events8
                            some (left, events9)
                          | _, _, _, _ => none

/-- The function `mdev_new(name_prefix, port, admin)` (lines 36-82); the result
has the device returned (`none` is null) and the calls made.  The result
`none` is that of `mdev_start_server` or of `mdev_free`. -/
def mdev_new (env : DeviceEnv) (name : Option (List Char)) (port : Int)
    (admin : Option mapper_admin_t) : Option (Option device_record × List DeviceEvent) :=
  match name with
  | none => some (none, [])
  | some name =>
    let md := device_record.zero
    let md1 := match admin with
      | some a => { md with admin := some a, own_admin := 0 }
      | none => { md with admin := env.mapper_admin_new, own_admin := 1 }
    let events1 := if admin = none then [DeviceEvent.mapper_admin_new] else []
    match mdev_start_server env md1 port with
    | none => none
    | some (md2, events2) =>
      if md2.admin = none ∨ md2.server = none then
        (mdev_free env (some md2)).map fun r => (none, events1 ++ events2 ++ r.2)
      else
        let name1 := skip_slash name
        if '/' ∈ name1 then
          (mdev_free env (some md2)).map fun r => (none, events1 ++ events2 ++ r.2)
        else
          let md3 := { md2 with
            ordinal := { md2.ordinal with value := 1 }
            identifier := heap_string.valid name1
            lib_version := some env.PACKAGE_VERSION
            extra := env.table_new
            router := some device_router.zero
            link_timeout_sec := env.ADMIN_TIMEOUT_SEC }
          some (some md3, events1 ++ events2 ++ [DeviceEvent.mapper_admin_add_device])

/-! ## Examples of device objects -/

/-- An environment for the examples: sample values for the constants, servers
and an admin context that can be created, sockets numbered after the server
handles, a property table that is a list of records with `update` at the
head, and a router whose functions only remove the link, the map pointer or
nothing. -/
def example_device_env : DeviceEnv :=
  { SUBSCRIBE_DEVICE_INPUTS := 4
    SUBSCRIBE_DEVICE_OUTPUTS := 8
    IN_DOWNSTREAM_RELEASE := 4
    ADM_LOGOUT := "/logout".toList
    ADM_UNMAP := "/unmap".toList
    PACKAGE_VERSION := "0.4".toList
    ADMIN_TIMEOUT_SEC := 10
    mapper_admin_new := some { bundle := none, bus_server := some 1, mesh_server := some 2
                               device := false }
    lo_server_new := fun _ => some 3
    lo_server_get_port := fun _ => 9000
    lo_server_get_socket_fd := fun s => match s with
      | some h => 10 + h
      | none => -1
    lo_message_new := true
    table_new := some []
    mapper_table_add_or_update_typed_value := fun t key type value length =>
      some ({ key := key, type := type, value := value, length := length } ::
        (t.getD []).filter fun r => r.key ≠ key)
    table_remove_key := fun t key _ => t.map fun l => l.filter fun r => r.key ≠ key
    mapper_router_remove_map := fun r _ => r
    mapper_router_remove_signal := fun r _ => r
    mapper_router_remove_link := fun r _ => { r with links := r.links.tail }
    msig_release_instance_internal := fun reg _ _ => reg }

/-- A registered device `synth` with the given ordinal, locked, whose arrays are
those of `example_registry 1 1 1`, with its own admin context, the server 3, an
empty property table, an empty router, and the description `old`. -/
def example_device_record (ordinal : Int) : device_record :=
  { reg := { example_registry 1 1 1 with registered := true }
    admin := some { bundle := some 5, bus_server := some 1, mesh_server := some 2
                    device := true }
    own_admin := 1
    server := some 3
    ordinal := { value := ordinal, locked := 1 }
    identifier := heap_string.valid "synth".toList
    name := heap_string.null
    description := heap_string.valid "old".toList
    host := heap_string.null
    lib_version := some "0.4".toList
    port := 9000
    extra := some []
    router := some { links := [], signals := none, router_signals := [], slot_map := []
                     maps := [] }
    active_id_map := some 0
    reserve_id_map := none
    link_timeout_sec := 10
    n_output_callbacks := 0 }

/-- The name `identifier.ordinal` of a device in full. -/
def qualified_name (identifier : List Char) (ordinal : Int) : List Char :=
  identifier ++ '.' :: decimal ordinal

/-! ## Examples for the map path and for the unmap message -/

/-- The float 1.0 (`0x3F800000`) as an argument. -/
def example_float_one : lo_arg :=
  { s := "", i32 := 0, i64 := 0, bytes := [0x00, 0x00, 0x80, 0x3f] }

/-- The string argument `@slot` with its storage in the message: the
characters, the terminating NUL and the padding to a multiple of 4 bytes. -/
def example_slot_string : lo_arg :=
  { s := "@slot", i32 := 0, i64 := 0, bytes := [0x40, 0x73, 0x6c, 0x6f, 0x74, 0, 0, 0] }

/-- The device `example_device` with one map that is ready, has an expression
and is processed at the destination (`process_location` 2).  Its only source
slot, slot number 0, has elements of type `f` and the given vector length and
does not cause an update; the history of the slot for instance index 0 is a
zeroed ring of two samples at position 0. -/
def example_device_with_destination_map (length : Nat) : mapper_device :=
  { example_device with
    router :=
      { slots := [{ props := { type := 'f', length := length, cause_update := false }
                    map := 0
                    history := [{ type := 'f', length := length, size := 2, position := 0
                                  value := List.replicate (2 * length * 4) (some 0)
                                  timetag := [{ sec := 0, frac := 0 }, { sec := 0, frac := 0 }] }] }]
        maps := [{ status := 2, expr := some 0, process_location := 2, num_sources := 1
                   sources := [0], destination := 0, expr_vars := [] }] } }

/-- A map with status 1 and the single source `/src.1/out`, and with the given
names of the destination. -/
def example_router_map (source destination : slot_names) : router_map :=
  { status := 1, num_sources := 1, sources := [source], destination := destination }
/-! ## Notions for the release of an instance by a peer -/

theorem int_wrap_eq (x : Int) (h1 : -2 ^ 31 ≤ x) (h2 : x < 2 ^ 31) : int_wrap x = x := by
  unfold int_wrap
  norm_num at h1 h2 ⊢
  omega

theorem int_wrap_succ (x : Int) (h : -2 ^ 31 ≤ x ∧ x < 2 ^ 31 - 1) : int_wrap (x + 1) = x + 1 := by
  apply int_wrap_eq
  · have := h.1
    omega
  · have := h.2
    omega

theorem int_wrap_max : int_wrap (2147483647 + 1) = -2147483648 := by
  decide

theorem check_types_loop_eq (types : List Char) (len : Nat) (type : Char) (vector_len : Nat)
    (n i : Nat) :
    (check_types_loop types len type vector_len n i = len / vector_len ∧
      ∀ k, i ≤ k → k < i + n → (char_at types k = type ∨ char_at types k = 'N')) ∨
    (check_types_loop types len type vector_len n i = 0 ∧
      ∃ k, i ≤ k ∧ k < i + n ∧ ¬ (char_at types k = type ∨ char_at types k = 'N')) := by
  induction n generalizing i with
  | zero =>
    left
    exact ⟨rfl, fun k h1 h2 => by omega⟩
  | succ n ih =>
    unfold check_types_loop
    by_cases hbad : char_at types i ≠ type ∧ char_at types i ≠ 'N'
    · right
      rw [if_pos hbad]
      exact ⟨rfl, i, le_refl i, by omega, by tauto⟩
    · rw [if_neg hbad]
      rcases ih (i + 1) with ⟨h1, h2⟩ | ⟨h1, k, hk1, hk2, hk3⟩
      · left
        refine ⟨h1, fun k hk1 hk2 => ?_⟩
        by_cases hki : k = i
        · subst hki
          tauto
        · exact h2 k (by omega) (by omega)
      · right
        exact ⟨h1, k, by omega, by omega, hk3⟩

theorem check_types_valid (types : List Char) (len : Nat) (T : Char) (L : Nat)
    (h1 : L ≤ len) (h2 : len % L = 0)
    (h3 : ∀ k, k < len → (char_at types k = T ∨ char_at types k = 'N')) :
    check_types types len T L = len / L := by
  unfold check_types
  rw [if_neg (by omega)]
  rcases check_types_loop_eq types len T L len 0 with ⟨h, _⟩ | ⟨_, k, _, hk2, hk3⟩
  · exact h
  · exact absurd (h3 k (by omega)) hk3

/-- C1: for a vector length `L ≥ 1`, `check_types` returns `len / L` when
`len ≥ L`, `len mod L = 0` and each of the first `len` tags is `T` or `N`, and
returns 0 in every other case; hence the result is non-zero iff the value
prefix is valid. -/
theorem check_types_spec (types : List Char) (len : Nat) (T : Char) (L : Nat) (hL : 1 ≤ L) :
    ((L ≤ len ∧ len % L = 0 ∧ ∀ k, k < len → (char_at types k = T ∨ char_at types k = 'N')) →
        check_types types len T L = len / L) ∧
    (¬ (L ≤ len ∧ len % L = 0 ∧ ∀ k, k < len → (char_at types k = T ∨ char_at types k = 'N')) →
        check_types types len T L = 0) ∧
    (check_types types len T L ≠ 0 ↔
      (L ≤ len ∧ len % L = 0 ∧ ∀ k, k < len → (char_at types k = T ∨ char_at types k = 'N'))) := by
  have hpos : ∀ (_ : L ≤ len), len / L ≠ 0 := fun h =>
    Nat.pos_iff_ne_zero.mp (Nat.div_pos h (by omega))
  have key := check_types_loop_eq types len T L len 0
  by_cases hlen : len < L ∨ len % L ≠ 0
  · have h0 : check_types types len T L = 0 := by
      unfold check_types
      rw [if_pos hlen]
    refine ⟨fun h => ?_, fun _ => h0, ?_⟩
    · omega
    · constructor
      · intro h
        exact absurd h0 h
      · intro h
        omega
  · have hc : check_types types len T L = check_types_loop types len T L len 0 := by
      unfold check_types
      rw [if_neg hlen]
    have hL1 : L ≤ len := by omega
    have hL2 : len % L = 0 := by omega
    rcases key with ⟨h1, h2⟩ | ⟨h1, k, _, hk2, hk3⟩
    · have hall : ∀ k, k < len → (char_at types k = T ∨ char_at types k = 'N') :=
        fun k hk => h2 k (Nat.zero_le k) (by omega)
      refine ⟨fun _ => hc.trans h1, fun h => absurd ⟨hL1, hL2, hall⟩ h, ?_⟩
      constructor
      · intro _
        exact ⟨hL1, hL2, hall⟩
      · intro _
        rw [hc, h1]
        exact hpos hL1
    · have hnot : ¬ (L ≤ len ∧ len % L = 0 ∧
          ∀ k, k < len → (char_at types k = T ∨ char_at types k = 'N')) := by
        rintro ⟨_, _, hall⟩
        exact hk3 (hall k (by omega))
      refine ⟨fun h => absurd h hnot, fun _ => hc.trans h1, ?_⟩
      constructor
      · intro h
        exact absurd (hc.trans h1) h
      · intro h
        exact absurd h hnot

/-- Witness for C1: the type string `iiii` checked against `i` vectors of
length 2 holds two samples. -/
theorem check_types_spec_witness :
    check_types ['i', 'i', 'i', 'i'] 4 'i' 2 ≠ 0 ↔
      (2 ≤ 4 ∧ 4 % 2 = 0 ∧
        ∀ k, k < 4 → (char_at ['i', 'i', 'i', 'i'] k = 'i' ∨ char_at ['i', 'i', 'i', 'i'] k = 'N')) :=
  (check_types_spec ['i', 'i', 'i', 'i'] 4 'i' 2 (by decide)).2.2

/-! ### ID-map lists -/

theorem node_at_set (heap : List mapper_id_map) (a b : Nat) (v : mapper_id_map) :
    node_at (heap.set a v) b = if a = b ∧ a < heap.length then v else node_at heap b := by
  unfold node_at
  simp only [List.getD_eq_getElem?_getD, List.getElem?_set]
  by_cases hab : a = b
  · subst hab
    by_cases hlt : a < heap.length
    · simp [hlt]
    · have hnone : heap[a]? = none := List.getElem?_eq_none (by omega)
      simp [hlt, hnone]
  · simp [hab]

theorem node_at_append_left (heap : List mapper_id_map) (x : mapper_id_map) (b : Nat)
    (h : b < heap.length) : node_at (heap ++ [x]) b = node_at heap b := by
  unfold node_at
  simp [List.getD_eq_getElem?_getD, List.getElem?_append_left h]

theorem node_at_append_length (heap : List mapper_id_map) (x : mapper_id_map) :
    node_at (heap ++ [x]) heap.length = x := by
  unfold node_at
  simp [List.getD_eq_getElem?_getD]

theorem is_list_lt (heap : List mapper_id_map) (l : List Nat) (p : Option Nat)
    (h : is_list heap p l) : ∀ a ∈ l, a < heap.length := by
  induction l generalizing p with
  | nil => simp
  | cons a l ih =>
    obtain ⟨_, h2, h3⟩ := h
    intro b hb
    rcases List.mem_cons.mp hb with rfl | hb
    · exact h2
    · exact ih _ h3 b hb

theorem is_list_frame (heap heap1 : List mapper_id_map) (l : List Nat) (p : Option Nat)
    (h : is_list heap p l) (hlen : heap.length ≤ heap1.length)
    (hsame : ∀ a ∈ l, node_at heap1 a = node_at heap a) : is_list heap1 p l := by
  induction l generalizing p with
  | nil => exact h
  | cons a l ih =>
    obtain ⟨h1, h2, h3⟩ := h
    refine ⟨h1, by omega, ?_⟩
    rw [hsame a (List.mem_cons_self a l)]
    exact ih _ h3 (fun b hb => hsame b (List.mem_cons_of_mem a hb))

theorem is_list_unique (heap : List mapper_id_map) (l1 l2 : List Nat) (p : Option Nat)
    (h1 : is_list heap p l1) (h2 : is_list heap p l2) : l1 = l2 := by
  induction l1 generalizing p l2 with
  | nil =>
    cases l2 with
    | nil => rfl
    | cons b l2 =>
      have e1 : p = none := h1
      have e2 : p = some b := h2.1
      rw [e1] at e2
      cases e2
  | cons a l1 ih =>
    cases l2 with
    | nil =>
      have e1 : p = some a := h1.1
      have e2 : p = none := h2
      rw [e1] at e2
      cases e2
    | cons b l2 =>
      obtain ⟨e1, _, r1⟩ := h1
      obtain ⟨e2, _, r2⟩ := h2
      rw [e1] at e2
      cases e2
      rw [ih l2 _ r1 r2]

theorem is_list_suffix (heap : List mapper_id_map) (l : List Nat) (p : Option Nat)
    (h : is_list heap p l) (a : Nat) (ha : a ∈ l) :
    ∃ l1 l2, l = l1 ++ a :: l2 ∧ is_list heap (some a) (a :: l2) := by
  induction l generalizing p with
  | nil => cases ha
  | cons b l ih =>
    obtain ⟨h1, h2, h3⟩ := h
    rcases List.mem_cons.mp ha with rfl | hb
    · exact ⟨[], l, rfl, rfl, h2, h3⟩
    · obtain ⟨l1, l2, e, hl⟩ := ih _ h3 hb
      exact ⟨b :: l1, l2, by rw [e]; rfl, hl⟩

theorem is_list_nodup (heap : List mapper_id_map) (l : List Nat) (p : Option Nat)
    (h : is_list heap p l) : l.Nodup := by
  induction l generalizing p with
  | nil => exact List.nodup_nil
  | cons a l ih =>
    obtain ⟨h1, h2, h3⟩ := h
    refine List.nodup_cons.mpr ⟨?_, ih _ h3⟩
    intro hmem
    obtain ⟨l1, l2, e, hl⟩ := is_list_suffix heap l _ h3 a hmem
    have hl3 : is_list heap (node_at heap a).next l2 := hl.2.2
    have := is_list_unique heap l l2 _ h3 hl3
    have hlen : l.length = (l1 ++ a :: l2).length := by rw [← e]
    rw [this] at hlen
    simp at hlen
    omega

theorem mdev_add_instance_id_map_props (dev : id_map_lists) (local_id : Int) (global_id : Nat)
    (la lr : List Nat)
    (hact : is_list dev.heap dev.active_id_map la)
    (hres : is_list dev.heap dev.reserve_id_map lr)
    (hdisj : ∀ a ∈ la, a ∉ lr) :
    ∃ dev1 map, mdev_add_instance_id_map dev local_id global_id = some (dev1, map) ∧
      (node_at dev1.heap map).local_ = local_id ∧
      (node_at dev1.heap map).global = global_id ∧
      (node_at dev1.heap map).refcount_local = 1 ∧
      (node_at dev1.heap map).refcount_global = 0 ∧
      is_list dev1.heap dev1.active_id_map (map :: la) ∧
      is_list dev1.heap dev1.reserve_id_map lr.tail ∧
      (lr ≠ [] → lr.head? = some map) ∧
      (lr = [] → map = dev.heap.length) ∧
      (∀ a, a ≠ map → node_at dev1.heap a = node_at dev.heap a) := by
  cases lr with
  | nil =>
    have hnone : dev.reserve_id_map = none := hres
    have heq : mdev_add_instance_id_map dev local_id global_id =
        some ({ heap := (dev.heap ++ [mapper_id_map.zero]).set dev.heap.length
                  { local_ := local_id, global := global_id, refcount_local := 1,
                    refcount_global := 0, next := dev.active_id_map }
                active_id_map := some dev.heap.length
                reserve_id_map := none }, dev.heap.length) := by
      simp only [mdev_add_instance_id_map, hnone, mdev_reserve_instance_id_map, if_true,
        node_at_append_length]
      rfl
    refine ⟨_, dev.heap.length, heq, ?_, ?_, ?_, ?_, ?_, ?_, ?_, ?_, ?_⟩
    all_goals (try simp only [node_at_set, List.length_append, List.length_singleton, List.tail_nil])
    · simp
    · simp
    · simp
    · simp
    · refine ⟨rfl, by simp, ?_⟩
      simp only [node_at_set, List.length_append, List.length_singleton, true_and,
        Nat.lt_succ_self, if_true]
      refine is_list_frame dev.heap _ la _ hact (by simp) ?_
      intro a ha
      have hlt := is_list_lt dev.heap la _ hact a ha
      rw [node_at_set, if_neg (by omega), node_at_append_left _ _ _ hlt]
    · rfl
    · simp
    · simp
    · intro a ha
      rw [if_neg (by omega)]
      unfold node_at
      by_cases hlt : a < dev.heap.length
      · simp [List.getD_eq_getElem?_getD, List.getElem?_append_left hlt]
      · have h1 : (dev.heap ++ [mapper_id_map.zero])[a]? = none :=
          List.getElem?_eq_none (by simp; omega)
        have h2 : dev.heap[a]? = none := List.getElem?_eq_none (by omega)
        simp [List.getD_eq_getElem?_getD, h1, h2]
  | cons m lr =>
    obtain ⟨hm, hmlt, hrest⟩ := hres
    have hnd := is_list_nodup dev.heap (m :: lr) _ ⟨hm, hmlt, hrest⟩
    have hmlr : m ∉ lr := (List.nodup_cons.mp hnd).1
    have hmla : m ∉ la := fun h => hdisj m h (List.mem_cons_self m lr)
    have heq : mdev_add_instance_id_map dev local_id global_id =
        some ({ heap := dev.heap.set m
                  { local_ := local_id, global := global_id, refcount_local := 1,
                    refcount_global := 0, next := dev.active_id_map }
                active_id_map := some m
                reserve_id_map := (node_at dev.heap m).next }, m) := by
      simp [mdev_add_instance_id_map, hm]
    refine ⟨_, m, heq, ?_, ?_, ?_, ?_, ?_, ?_, ?_, ?_, ?_⟩
    all_goals (try simp only [node_at_set, List.tail_cons])
    · simp [hmlt]
    · simp [hmlt]
    · simp [hmlt]
    · simp [hmlt]
    · refine ⟨rfl, by simp [hmlt], ?_⟩
      simp only [node_at_set, true_and, hmlt, if_true]
      refine is_list_frame dev.heap _ la _ hact (by simp) ?_
      intro a ha
      rw [node_at_set, if_neg]
      rintro ⟨rfl, _⟩
      exact hmla ha
    · refine is_list_frame dev.heap _ lr _ hrest (by simp) ?_
      intro a ha
      rw [node_at_set, if_neg]
      rintro ⟨rfl, _⟩
      exact hmlr ha
    · simp
    · simp
    · intro a ha
      rw [if_neg]
      rintro ⟨rfl, _⟩
      exact ha rfl

/-- C10: `mdev_add_instance_id_map(dev, local_id, global_id)` returns a node with
`local = local_id`, `global = global_id`, `refcount_local = 1` and
`refcount_global = 0`; afterwards the active list is that node followed by the
previous active list in unchanged order, and the free-list is the previous
free-list without its head (the node returned) when it was non-empty, and empty
when it was empty (the node returned is then freshly allocated).  All other nodes
are untouched. -/
theorem mdev_add_instance_id_map_spec (dev : id_map_lists) (local_id : Int) (global_id : Nat)
    (la lr : List Nat)
    (hact : is_list dev.heap dev.active_id_map la)
    (hres : is_list dev.heap dev.reserve_id_map lr)
    (hdisj : ∀ a ∈ la, a ∉ lr) :
    ∃ dev1 map, mdev_add_instance_id_map dev local_id global_id = some (dev1, map) ∧
      (node_at dev1.heap map).local_ = local_id ∧
      (node_at dev1.heap map).global = global_id ∧
      (node_at dev1.heap map).refcount_local = 1 ∧
      (node_at dev1.heap map).refcount_global = 0 ∧
      is_list dev1.heap dev1.active_id_map (map :: la) ∧
      is_list dev1.heap dev1.reserve_id_map lr.tail ∧
      (lr ≠ [] → lr.head? = some map) ∧
      (lr = [] → map = dev.heap.length) ∧
      (∀ a, a ≠ map → node_at dev1.heap a = node_at dev.heap a) :=
  mdev_add_instance_id_map_props dev local_id global_id la lr hact hres hdisj

/-- Witness for C10: a device whose active list is the node at address 0 and
whose free-list is the node at address 1. -/
theorem mdev_add_instance_id_map_spec_witness :
    ∃ dev1 map,
      mdev_add_instance_id_map
        { heap := [{ mapper_id_map.zero with local_ := 3, global := 9, refcount_local := 1 },
                   mapper_id_map.zero]
          active_id_map := some 0
          reserve_id_map := some 1 } 5 7 = some (dev1, map) ∧
      (node_at dev1.heap map).local_ = 5 ∧
      (node_at dev1.heap map).global = 7 ∧
      (node_at dev1.heap map).refcount_local = 1 ∧
      (node_at dev1.heap map).refcount_global = 0 ∧
      is_list dev1.heap dev1.active_id_map (map :: [0]) ∧
      is_list dev1.heap dev1.reserve_id_map [1].tail ∧
      ([1] ≠ [] → [1].head? = some map) ∧
      ([1] = [] → map = 2) ∧
      (∀ a, a ≠ map → node_at dev1.heap a =
        node_at [{ mapper_id_map.zero with local_ := 3, global := 9, refcount_local := 1 },
                 mapper_id_map.zero] a) :=
  mdev_add_instance_id_map_spec _ 5 7 [0] [1]
    ⟨rfl, by decide, rfl⟩ ⟨rfl, by decide, rfl⟩ (by decide)

/-! ### Parsing of the message -/

theorem scan_values_eq (types : List Char) (argc i value_len : Nat)
    (hval : ∀ k, k < value_len → char_at types k ≠ 's' ∧ char_at types k ≠ 'S')
    (hend : value_len < argc → (char_at types value_len = 's' ∨ char_at types value_len = 'S'))
    (hle : value_len ≤ argc) (fuel v n : Nat) (hv : v ≤ value_len) (hfuel : value_len - v ≤ fuel) :
    scan_values types argc i fuel v n =
      (value_len, n + if char_at types i = 'N' then value_len - v else 0) := by
  induction fuel generalizing v n with
  | zero =>
    have hveq : v = value_len := by omega
    subst hveq
    simp [scan_values]
  | succ fuel ih =>
    unfold scan_values
    by_cases hveq : v = value_len
    · subst hveq
      have hcond : ¬ (v < argc ∧ char_at types v ≠ 's' ∧ char_at types v ≠ 'S') := by
        rintro ⟨h1, h2, h3⟩
        rcases hend h1 with h | h
        · exact h2 h
        · exact h3 h
      rw [if_neg hcond]
      simp
    · have hlt : v < value_len := by omega
      have hcond : v < argc ∧ char_at types v ≠ 's' ∧ char_at types v ≠ 'S' :=
        ⟨by omega, hval v hlt⟩
      rw [if_pos hcond, ih (v + 1) _ (by omega) (by omega)]
      by_cases hN : char_at types i = 'N'
      · simp only [hN, if_true]
        congr 1
        omega
      · simp only [hN, if_false]

theorem check_types_eq_zero_of_mod (types : List Char) (len : Nat) (T : Char) (L : Nat)
    (h : len % L ≠ 0) : check_types types len T L = 0 := by
  unfold check_types
  rw [if_pos (Or.inr h)]

theorem select_map_count (env : Env) (sig : mapper_signal) (md : mapper_device) (slot : Int)
    (types : List Char) (value_len : Nat) (sel : Selected)
    (h : select_map env sig md slot types value_len = some sel) :
    ∃ T, sel.count = check_types types value_len T (expected_vector_len env sig md slot) := by
  unfold select_map at h
  unfold expected_vector_len
  by_cases hslot : slot ≥ 0
  · simp only [hslot, if_true] at h ⊢
    cases hfind : env.mapper_router_find_map_slot md.router sig slot with
    | none =>
      rw [hfind] at h
      cases h
    | some s =>
      rw [hfind] at h
      simp only at h ⊢
      split_ifs at h with h1 h2 h3
      · cases h
        rw [if_pos h3]
        exact ⟨_, rfl⟩
      · cases h
        rw [if_neg h3]
        exact ⟨_, rfl⟩
  · simp only [hslot, if_false] at h ⊢
    cases h
    exact ⟨_, rfl⟩

/-- C2: a message whose value-prefix length `value_len` (the number of tags
before the first `s` or `S`) is not a multiple of the expected vector length is
rejected: the handler returns with the signal and the device unchanged and
without having called anything.  The expected vector length is at least 1, as
the length of a signal is; with a length of 0 the source divides by zero in
`check_types` (line 228). -/
theorem handler_signal_rejects_bad_length (env : Env) (w : World) (types : List Char)
    (argv : List lo_arg) (argc : Nat) (tt : mapper_timetag_t) (value_len : Nat)
    (hval : ∀ k, k < value_len → char_at types k ≠ 's' ∧ char_at types k ≠ 'S')
    (hend : value_len < argc → (char_at types value_len = 's' ∨ char_at types value_len = 'S'))
    (hle : value_len ≤ argc)
    (hmod : ∀ sig md p, w.sig = some sig → w.md = some md →
      parse_properties types argv argc argc value_len
        { is_instance_update := false, instance_id := 0, slot := -1 } = some p →
      1 ≤ expected_vector_len env sig md p.slot ∧
      value_len % expected_vector_len env sig md p.slot ≠ 0) :
    handler_signal env w types argv argc tt = some (w, []) := by
  unfold handler_signal
  cases hsig : w.sig with
  | none => rfl
  | some sig =>
    cases hmd : w.md with
    | none => rfl
    | some md =>
      simp only
      by_cases hargc : argc = 0
      · rw [if_pos hargc]
      · rw [if_neg hargc]
        rw [scan_values_eq types argc 0 value_len hval hend hle argc 0 0 (Nat.zero_le _)
          (by omega)]
        simp only
        cases hp : parse_properties types argv argc argc value_len
            { is_instance_update := false, instance_id := 0, slot := -1 } with
        | none => rfl
        | some p =>
          simp only
          cases hsel : select_map env sig md p.slot types value_len with
          | none => rfl
          | some sel =>
            simp only
            obtain ⟨T, hT⟩ := select_map_count env sig md p.slot types value_len sel hsel
            have h0 : sel.count = 0 := by
              rw [hT]
              exact check_types_eq_zero_of_mod _ _ _ _ (hmod sig md p hsig hmd hp).2
            rw [if_pos h0]

theorem suffix_at_nil (types : List Char) (argv : List lo_arg) (argc argnum : Nat)
    (h : argc ≤ argnum) : suffix_at types argv argc argnum = [] := by
  unfold suffix_at
  have h0 : argc - argnum = 0 := by omega
  rw [h0]
  rfl

theorem suffix_at_cons (types : List Char) (argv : List lo_arg) (argc argnum : Nat)
    (h : argnum < argc) :
    suffix_at types argv argc argnum =
      (char_at types argnum, arg_at argv argnum) :: suffix_at types argv argc (argnum + 1) := by
  unfold suffix_at
  have h0 : argc - argnum = (argc - (argnum + 1)) + 1 := by omega
  rw [h0, List.range'_succ]
  rfl

theorem parse_properties_none_iff (types : List Char) (argv : List lo_arg) (argc : Nat)
    (fuel argnum : Nat) (p : Properties) (hfuel : argc - argnum ≤ 2 * fuel) :
    parse_properties types argv argc fuel argnum p = none ↔
      ¬ valid_suffix (suffix_at types argv argc argnum) := by
  induction fuel generalizing argnum p with
  | zero =>
    rw [suffix_at_nil types argv argc argnum (by omega)]
    simp [parse_properties, valid_suffix]
  | succ fuel ih =>
    unfold parse_properties
    by_cases hlt : argnum < argc
    · rw [if_pos hlt, suffix_at_cons types argv argc argnum hlt]
      by_cases hstr : char_at types argnum ≠ 's' ∧ char_at types argnum ≠ 'S'
      · rw [if_pos hstr]
        by_cases hlt2 : argnum + 1 < argc
        · rw [suffix_at_cons types argv argc (argnum + 1) hlt2]
          simp only [valid_suffix, true_iff]
          rintro ⟨h1 | h1, _⟩
          · exact hstr.1 h1
          · exact hstr.2 h1
        · rw [suffix_at_nil types argv argc (argnum + 1) (by omega)]
          simp [valid_suffix]
      · rw [if_neg hstr]
        have hstr2 : char_at types argnum = 's' ∨ char_at types argnum = 'S' := by
          by_contra hc
          exact hstr ⟨fun h => hc (Or.inl h), fun h => hc (Or.inr h)⟩
        by_cases hlt2 : argnum + 1 < argc
        · rw [suffix_at_cons types argv argc (argnum + 1) hlt2]
          have hge : argc ≥ argnum + 2 := by omega
          have hne : ("@instance" : String) ≠ "@slot" := by decide
          by_cases hinst : (arg_at argv argnum).s = "@instance"
          · rw [if_pos ⟨hinst, hge⟩]
            by_cases hh : char_at types (argnum + 1) ≠ 'h'
            · rw [if_pos hh]
              simp only [valid_suffix, true_iff]
              rintro ⟨_, h2 | h2, _⟩
              · exact hh h2.2
              · exact hne (hinst.symm.trans h2.1)
            · rw [if_neg hh, ih (argnum + 1 + 1) _ (by omega)]
              have hh2 : char_at types (argnum + 1) = 'h' := by
                by_contra hc
                exact hh hc
              simp only [valid_suffix]
              constructor
              · intro hnv hv
                exact hnv hv.2.2
              · intro hnv hv
                exact hnv ⟨hstr2, Or.inl ⟨hinst, hh2⟩, hv⟩
          · have hc1 : ¬ ((arg_at argv argnum).s = "@instance" ∧ argc ≥ argnum + 2) :=
              fun h => hinst h.1
            rw [if_neg hc1]
            by_cases hsl : (arg_at argv argnum).s = "@slot"
            · rw [if_pos ⟨hsl, hge⟩]
              by_cases hi : char_at types (argnum + 1) ≠ 'i'
              · rw [if_pos hi]
                simp only [valid_suffix, true_iff]
                rintro ⟨_, h2 | h2, _⟩
                · exact hinst h2.1
                · exact hi h2.2
              · rw [if_neg hi, ih (argnum + 1 + 1) _ (by omega)]
                have hi2 : char_at types (argnum + 1) = 'i' := by
                  by_contra hc
                  exact hi hc
                simp only [valid_suffix]
                constructor
                · intro hnv hv
                  exact hnv hv.2.2
                · intro hnv hv
                  exact hnv ⟨hstr2, Or.inr ⟨hsl, hi2⟩, hv⟩
            · have hc2 : ¬ ((arg_at argv argnum).s = "@slot" ∧ argc ≥ argnum + 2) :=
                fun h => hsl h.1
              rw [if_neg hc2]
              simp only [valid_suffix, true_iff]
              rintro ⟨_, h2 | h2, _⟩
              · exact hinst h2.1
              · exact hsl h2.1
        · rw [suffix_at_nil types argv argc (argnum + 1) (by omega)]
          have hc1 : ¬ ((arg_at argv argnum).s = "@instance" ∧ argc ≥ argnum + 2) := by
            rintro ⟨_, h⟩
            omega
          have hc2 : ¬ ((arg_at argv argnum).s = "@slot" ∧ argc ≥ argnum + 2) := by
            rintro ⟨_, h⟩
            omega
          rw [if_neg hc1, if_neg hc2]
          simp [valid_suffix]
    · rw [if_neg hlt, suffix_at_nil types argv argc argnum (by omega)]
      simp [valid_suffix]

/-- C3: a message whose property suffix (the tags and arguments from the first
`s` or `S` tag on) is not a sequence of pairs `@instance` + `h` argument or
`@slot` + `i` argument is rejected: the handler returns with the signal and the
device unchanged and without having called anything. -/
theorem handler_signal_rejects_bad_properties (env : Env) (w : World) (types : List Char)
    (argv : List lo_arg) (argc : Nat) (tt : mapper_timetag_t) (value_len : Nat)
    (hval : ∀ k, k < value_len → char_at types k ≠ 's' ∧ char_at types k ≠ 'S')
    (hend : value_len < argc → (char_at types value_len = 's' ∨ char_at types value_len = 'S'))
    (hle : value_len ≤ argc)
    (hbad : ¬ valid_suffix (suffix_at types argv argc value_len)) :
    handler_signal env w types argv argc tt = some (w, []) := by
  unfold handler_signal
  cases hsig : w.sig with
  | none => rfl
  | some sig =>
    cases hmd : w.md with
    | none => rfl
    | some md =>
      simp only
      by_cases hargc : argc = 0
      · rw [if_pos hargc]
      · rw [if_neg hargc]
        rw [scan_values_eq types argc 0 value_len hval hend hle argc 0 0 (Nat.zero_le _)
          (by omega)]
        simp only
        rw [(parse_properties_none_iff types argv argc argc value_len _ (by omega)).mpr hbad]

/-! ### Instance resolution -/

theorem find_or_activate_events (env : Env) (st : State) (instance_id mask : Nat)
    (nulls value_len count : Nat) (tt : mapper_timetag_t) (r : Resolved)
    (h : find_or_activate env st instance_id mask nulls value_len count tt = Sum.inl r) :
    ∀ e ∈ r.events, e.is_callback = false := by
  unfold find_or_activate at h
  simp only at h
  split_ifs at h
  all_goals
    cases h
    intro e he
    simp at he
  all_goals
    subst he
    rfl

theorem resolve_instance_events (env : Env) (st : State) (p : Properties)
    (nulls value_len count : Nat) (tt : mapper_timetag_t) (r : Resolved)
    (h : resolve_instance env st p nulls value_len count tt = some r) :
    ∀ e ∈ r.events, e.is_callback = false := by
  unfold resolve_instance at h
  by_cases hi : p.is_instance_update
  · rw [if_pos hi] at h
    cases hf : find_or_activate env st p.instance_id env.IN_RELEASED_LOCALLY nulls value_len
        count tt with
    | inl r1 =>
      rw [hf] at h
      cases h
      exact find_or_activate_events env st _ _ _ _ _ tt r hf
    | inr idx =>
      rw [hf] at h
      simp only at h
      split_ifs at h
      · cases hm : (id_map_entry st.sig idx).map with
        | none =>
          rw [hm] at h
          cases h
        | some a =>
          rw [hm] at h
          simp only at h
          cases hr : remove_if_unreferenced (decrement_refcount_global st.md.id_map a) a with
          | none =>
            rw [hr] at h
            cases h
          | some d =>
            rw [hr] at h
            cases h
            simp
      all_goals
        cases h
        simp
  · rw [if_neg hi] at h
    dsimp only at h
    split_ifs at h
    all_goals
      cases h
      intro e he
      simp at he
    all_goals
      subst he
      rfl

theorem resolve_instance_total (env : Env) (st : State) (p : Properties)
    (nulls value_len count : Nat) (tt : mapper_timetag_t) (hcount : count ≠ 1) :
    ∃ r, resolve_instance env st p nulls value_len count tt = some r := by
  unfold resolve_instance
  by_cases hi : p.is_instance_update
  · rw [if_pos hi]
    cases hf : find_or_activate env st p.instance_id env.IN_RELEASED_LOCALLY nulls value_len
        count tt with
    | inl r1 => exact ⟨_, rfl⟩
    | inr idx =>
      simp only
      have hc : ¬ (count = 1 ∧ nulls = value_len) := fun h => hcount h.1
      rw [if_neg hc]
      split_ifs
      all_goals exact ⟨_, rfl⟩
  · rw [if_neg hi]
    dsimp only
    split_ifs
    all_goals exact ⟨_, rfl⟩

/-! ### The plain path -/

theorem plain_elements_snd (types : List Char) (argv : List lo_arg) (size n j k : Nat)
    (si : mapper_signal_instance) (vals : Nat) :
    (plain_elements types argv size n j k si vals).2 = vals + count_vals types k n := by
  induction n generalizing j k si vals with
  | zero => rfl
  | succ n ih =>
    unfold plain_elements count_vals
    by_cases hN : char_at types k = 'N'
    · rw [if_pos hN, ih]
      simp [hN]
    · rw [if_neg hN, ih]
      simp only [ne_eq, hN, not_false_eq_true, if_true]
      omega

theorem commit_value_multi (env : Env) (l : Loop) (a count size : Nat) (tt : mapper_timetag_t)
    (hcount : 1 < count) :
    ∃ l2, commit_value env l a count size tt = some l2 ∧ l2.events = l.events ∧
      l2.si = l.si ∧ l2.k = l.k ∧ l2.sig.props = l.sig.props := by
  unfold commit_value
  dsimp only
  split_ifs
  all_goals exact ⟨_, rfl, rfl, rfl, rfl, rfl⟩

theorem plain_sample_multi (env : Env) (p : Properties) (types : List Char)
    (argv : List lo_arg) (count size : Nat) (tt : mapper_timetag_t) (l : Loop) (a : Nat)
    (hcount : 1 < count) (hsi : l.si = some a) :
    (count_vals types l.k l.sig.props.length = 0 →
      ∃ l1, plain_sample env p types argv count size tt l = some (Step.ret l1) ∧
        l1.events = l.events) ∧
    (count_vals types l.k l.sig.props.length ≠ 0 →
      ∃ l1, plain_sample env p types argv count size tt l = some (Step.next l1) ∧
        l1.events = l.events ∧ l1.si = some a ∧ l1.k = l.k + l.sig.props.length ∧
        l1.sig.props = l.sig.props) := by
  unfold plain_sample
  simp only [hsi, plain_elements_snd, Nat.zero_add]
  constructor
  · intro h0
    rw [if_pos h0, if_pos hcount]
    exact ⟨_, rfl, rfl⟩
  · intro h0
    rw [if_neg h0]
    obtain ⟨l2, h2, he, hs, hk, hp⟩ := commit_value_multi env
      { l with k := l.k + l.sig.props.length,
               sig := set_instance l.sig a
                 (plain_elements types argv size l.sig.props.length 0 l.k
                   (instance_at l.sig a) 0).1 } a count size tt hcount
    rw [hsi] at h2
    rw [h2]
    exact ⟨l2, rfl, he, hs.trans hsi, hk, hp⟩

theorem plain_loop_reject (env : Env) (p : Properties) (types : List Char)
    (argv : List lo_arg) (count size : Nat) (tt : mapper_timetag_t) (a : Nat)
    (hcount : 1 < count) (n : Nat) (l : Loop) (hsi : l.si = some a)
    (hnull : ∃ i, i < n ∧
      count_vals types (l.k + i * l.sig.props.length) l.sig.props.length = 0) :
    ∃ l1, plain_loop env p types argv count size tt n l = some (Step.ret l1) ∧
      l1.events = l.events := by
  induction n generalizing l with
  | zero =>
    obtain ⟨i, hi, _⟩ := hnull
    omega
  | succ n ih =>
    unfold plain_loop
    obtain ⟨hz, hnz⟩ := plain_sample_multi env p types argv count size tt l a hcount hsi
    by_cases h0 : count_vals types l.k l.sig.props.length = 0
    · obtain ⟨l1, h1, he⟩ := hz h0
      rw [h1]
      exact ⟨l1, rfl, he⟩
    · obtain ⟨l1, h1, he, hs, hk, hp⟩ := hnz h0
      rw [h1]
      simp only
      obtain ⟨i, hi, hcv⟩ := hnull
      have hipos : i ≠ 0 := by
        rintro rfl
        simp at hcv
        exact h0 hcv
      have hnull1 : ∃ i, i < n ∧
          count_vals types (l1.k + i * l1.sig.props.length) l1.sig.props.length = 0 := by
        refine ⟨i - 1, by omega, ?_⟩
        rw [hk, hp]
        have e : l.k + l.sig.props.length + (i - 1) * l.sig.props.length =
            l.k + i * l.sig.props.length := by
          obtain ⟨i', rfl⟩ : ∃ i', i = i' + 1 := ⟨i - 1, by omega⟩
          simp only [Nat.add_sub_cancel]
          ring
        rw [e]
        exact hcv
      obtain ⟨l2, h2, he2⟩ := ih l1 hs hnull1
      exact ⟨l2, h2, he2.trans he⟩

/-! ### The handler as a whole -/

theorem handler_signal_eq (env : Env) (w : World) (sig : mapper_signal) (md : mapper_device)
    (types : List Char) (argv : List lo_arg) (argc : Nat) (tt : mapper_timetag_t)
    (value_len : Nat) (p : Properties) (sel : Selected) (r : Resolved)
    (hsig : w.sig = some sig) (hmd : w.md = some md)
    (hval : ∀ k, k < value_len → char_at types k ≠ 's' ∧ char_at types k ≠ 'S')
    (hend : value_len < argc → (char_at types value_len = 's' ∨ char_at types value_len = 'S'))
    (hle : value_len ≤ argc) (hargc : argc ≠ 0)
    (hp : parse_properties types argv argc argc value_len
      { is_instance_update := false, instance_id := 0, slot := -1 } = some p)
    (hsel : select_map env sig md p.slot types value_len = some sel)
    (hcount : sel.count ≠ 0)
    (hres : resolve_instance env { sig := sig, md := md } p
      (if char_at types 0 = 'N' then value_len else 0) value_len sel.count tt = some r) :
    handler_signal env w types argv argc tt =
      match r.id_map_index with
      | none => some ({ sig := some r.st.sig, md := some r.st.md }, r.events)
      | some id_map_index =>
        (process_samples env r.st p sel types argv
          (if char_at types 0 = 'N' then value_len else 0) value_len id_map_index r.events
          tt).map fun l => ({ sig := some l.sig, md := some l.md }, l.events) := by
  unfold handler_signal
  simp only [hsig, hmd, if_neg hargc]
  rw [scan_values_eq types argc 0 value_len hval hend hle argc 0 0 (Nat.zero_le _)
    (by omega)]
  simp only [hp, hsel, if_neg hcount, Nat.zero_add, Nat.sub_zero, hres]
  cases r.id_map_index with
  | none => rfl
  | some idx =>
    simp only
    cases process_samples env r.st p sel types argv
      (if char_at types 0 = 'N' then value_len else 0) value_len idx r.events tt with
    | none => rfl
    | some l => rfl

/-- C9: a plain message with more than one sample in which some sample consists
only of null elements is rejected whatever the position of that sample: the
handler returns and has called neither the user update handler, nor the instance
event handler, nor `mdev_route_signal`. -/
theorem handler_signal_rejects_null_sample (env : Env) (w : World) (sig : mapper_signal)
    (md : mapper_device) (types : List Char) (argv : List lo_arg) (argc : Nat)
    (tt : mapper_timetag_t) (value_len : Nat) (p : Properties) (sel : Selected)
    (hsig : w.sig = some sig) (hmd : w.md = some md)
    (hval : ∀ k, k < value_len → char_at types k ≠ 's' ∧ char_at types k ≠ 'S')
    (hend : value_len < argc → (char_at types value_len = 's' ∨ char_at types value_len = 'S'))
    (hle : value_len ≤ argc)
    (hp : parse_properties types argv argc argc value_len
      { is_instance_update := false, instance_id := 0, slot := -1 } = some p)
    (hsel : select_map env sig md p.slot types value_len = some sel)
    (hplain : sel.map = none) (hcount : 1 < sel.count)
    (hinst : ∀ r idx, resolve_instance env { sig := sig, md := md } p
        (if char_at types 0 = 'N' then value_len else 0) value_len sel.count tt = some r →
      r.id_map_index = some idx → (id_map_entry r.st.sig idx).inst ≠ none)
    (hnull : ∀ r, resolve_instance env { sig := sig, md := md } p
        (if char_at types 0 = 'N' then value_len else 0) value_len sel.count tt = some r →
      ∃ i, i < sel.count ∧
        count_vals types (i * r.st.sig.props.length) r.st.sig.props.length = 0) :
    ∃ w1 ev, handler_signal env w types argv argc tt = some (w1, ev) ∧
      ∀ e ∈ ev, e.is_callback = false := by
  obtain ⟨r, hres⟩ := resolve_instance_total env { sig := sig, md := md } p
    (if char_at types 0 = 'N' then value_len else 0) value_len sel.count tt (by omega)
  have hargc : argc ≠ 0 := by
    rintro rfl
    have hv0 : value_len = 0 := by omega
    obtain ⟨T, hT⟩ := select_map_count env sig md p.slot types value_len sel hsel
    rw [hv0] at hT
    have : check_types types 0 T (expected_vector_len env sig md p.slot) = 0 := by
      unfold check_types
      split_ifs with h
      · rfl
      · have hz : expected_vector_len env sig md p.slot = 0 := by omega
        rw [hz]
        rfl
    omega
  rw [handler_signal_eq env w sig md types argv argc tt value_len p sel r hsig hmd hval hend hle
    hargc hp hsel (by omega) hres]
  have hev := resolve_instance_events env _ p _ value_len sel.count tt r hres
  cases hidx : r.id_map_index with
  | none => exact ⟨_, _, rfl, hev⟩
  | some idx =>
    simp only
    cases hsi : (id_map_entry r.st.sig idx).inst with
    | none => exact absurd hsi (hinst r idx hres hidx)
    | some a =>
      obtain ⟨i, hi, hcv⟩ := hnull r hres
      unfold process_samples
      simp only [hplain]
      obtain ⟨l1, h1, he⟩ := plain_loop_reject env p types argv sel.count
        (match sel.s with
          | some s => env.mapper_type_size (slot_at r.st.md.router s).props.type
          | none => env.mapper_type_size r.st.sig.props.type) tt a hcount sel.count
        { sig := r.st.sig, md := r.st.md
          si := (id_map_entry r.st.sig idx).inst
          id_map := (id_map_entry r.st.sig idx).map
          id_map_index := idx
          k := 0
          out_buffer := List.replicate (sel.count * value_len *
            (match sel.s with
              | some s => env.mapper_type_size (slot_at r.st.md.router s).props.type
              | none => env.mapper_type_size r.st.sig.props.type)) none
          out_count := 0
          active := true
          events := r.events } hsi ⟨i, hi, by simpa using hcv⟩
      rw [h1]
      refine ⟨_, _, rfl, ?_⟩
      rw [he]
      exact hev

/-! ### Flag arrays -/

theorem set_flag_length (flags : List Nat) (j : Nat) :
    (set_flag flags j).length = flags.length := by
  simp [set_flag]

theorem set_flag_testBit (flags : List Nat) (j b i : Nat) (hj : j / 8 < flags.length) :
    ((set_flag flags j).getD b 0).testBit i =
      ((flags.getD b 0).testBit i || (decide (b = j / 8) && decide (i = j % 8))) := by
  unfold set_flag
  simp only [List.getD_eq_getElem?_getD, List.getElem?_set]
  by_cases hb : j / 8 = b
  · subst hb
    simp only [hj, if_true, Option.getD_some, Nat.testBit_or, Nat.one_shiftLeft,
      Nat.testBit_two_pow, decide_True, Bool.true_and]
    congr 1
    by_cases hi : i = j % 8
    · simp [hi]
    · have hi2 : ¬ (j % 8 = i) := fun h => hi h.symm
      simp [hi, hi2]
  · have hb2 : ¬ (b = j / 8) := fun h => hb h.symm
    simp [hb, hb2]

theorem bit_set_set_flag (flags : List Nat) (j j1 : Nat) (hj : j / 8 < flags.length) :
    bit_set (set_flag flags j) j1 = (bit_set flags j1 || decide (j1 = j)) := by
  unfold bit_set
  rw [set_flag_testBit flags j _ _ hj]
  congr 1
  by_cases h : j1 = j
  · subst h
    simp
  · have : ¬ (j1 / 8 = j / 8 ∧ j1 % 8 = j % 8) := by
      rintro ⟨h1, h2⟩
      omega
    simp only [h, decide_False]
    by_cases h1 : j1 / 8 = j / 8
    · have h2 : ¬ (j1 % 8 = j % 8) := fun h2 => this ⟨h1, h2⟩
      simp [h2]
    · simp [h1]

theorem flags_eq_of_testBit (f g : List Nat) (hlen : f.length = g.length)
    (h : ∀ b i, (f.getD b 0).testBit i = (g.getD b 0).testBit i) : f = g := by
  apply List.ext_getElem hlen
  intro b h1 h2
  apply Nat.eq_of_testBit_eq
  intro i
  have := h b i
  simpa [List.getD_eq_getElem?_getD, List.getElem?_eq_getElem h1,
    List.getElem?_eq_getElem h2] using this

theorem foldl_set_flag_length (l : List Nat) (flags : List Nat) :
    (l.foldl set_flag flags).length = flags.length := by
  induction l generalizing flags with
  | nil => rfl
  | cons a l ih => rw [List.foldl_cons, ih, set_flag_length]

theorem foldl_set_flag_range_testBit (flags : List Nat) (n b i : Nat)
    (hn : ∀ j, j < n → j / 8 < flags.length) :
    (((List.range n).foldl set_flag flags).getD b 0).testBit i =
      ((flags.getD b 0).testBit i || decide (8 * b + i < n ∧ i < 8)) := by
  induction n with
  | zero => simp
  | succ n ih =>
    rw [List.range_succ, List.foldl_append, List.foldl_cons, List.foldl_nil,
      set_flag_testBit _ _ _ _ (by rw [foldl_set_flag_length]; exact hn n (Nat.lt_succ_self n)),
      ih (fun j hj => hn j (by omega)), Bool.or_assoc]
    congr 1
    by_cases h1 : 8 * b + i < n ∧ i < 8
    · have h2 : 8 * b + i < n + 1 ∧ i < 8 := ⟨by omega, h1.2⟩
      simp [h1, h2]
    · by_cases h3 : b = n / 8 ∧ i = n % 8
      · have h2 : 8 * b + i < n + 1 ∧ i < 8 := by
          obtain ⟨rfl, rfl⟩ := h3
          constructor <;> omega
        have h5 : (decide (b = n / 8) && decide (i = n % 8)) = true := by
          simp [h3.1, h3.2]
        simp only [h1, h2, h5, decide_False, decide_True, Bool.or_true, Bool.false_or,
          and_self]
      · have h2 : ¬ (8 * b + i < n + 1 ∧ i < 8) := by
          rintro ⟨h4, h5⟩
          apply h3
          by_cases h6 : 8 * b + i < n
          · exact absurd ⟨h6, h5⟩ h1
          · constructor <;> omega
        have h4 : (decide (b = n / 8) && decide (i = n % 8)) = false := by
          by_cases hb : b = n / 8
          · have hi : ¬ (i = n % 8) := fun hi => h3 ⟨hb, hi⟩
            simp [hi]
          · simp [hb]
        simp only [h1, h2, h4, decide_False, Bool.or_false]

theorem all_ones_template_length (len : Nat) : (all_ones_template len).length = len / 8 + 1 := by
  unfold all_ones_template
  rw [foldl_set_flag_length, List.length_replicate]

theorem all_ones_template_testBit (len b i : Nat) :
    ((all_ones_template len).getD b 0).testBit i = decide (8 * b + i < len ∧ i < 8) := by
  unfold all_ones_template
  rw [foldl_set_flag_range_testBit _ _ _ _ (fun j hj => by
    rw [List.length_replicate]
    have := Nat.div_le_div_right (c := 8) (Nat.le_of_lt hj)
    omega)]
  have hz : ((List.replicate (len / 8 + 1) 0).getD b 0) = 0 := by
    rw [List.getD_eq_getElem?_getD, List.getElem?_replicate]
    split_ifs <;> rfl
  rw [hz]
  simp

theorem set_flag_testBit_iff (flags : List Nat) (j b i : Nat) (hj : j / 8 < flags.length) :
    ((set_flag flags j).getD b 0).testBit i = true ↔
      ((flags.getD b 0).testBit i = true ∨ (b = j / 8 ∧ i = j % 8)) := by
  rw [set_flag_testBit flags j b i hj]
  simp

/-! ### The element loop of the plain path -/

theorem plain_elements_frame (types : List Char) (argv : List lo_arg) (size n j k : Nat)
    (si : mapper_signal_instance) (vals : Nat) :
    (plain_elements types argv size n j k si vals).1.index = si.index ∧
    (plain_elements types argv size n j k si vals).1.has_value = si.has_value ∧
    (plain_elements types argv size n j k si vals).1.timetag = si.timetag ∧
    (plain_elements types argv size n j k si vals).1.value.length = si.value.length ∧
    (plain_elements types argv size n j k si vals).1.has_value_flags.length =
      si.has_value_flags.length := by
  induction n generalizing j k si vals with
  | zero => exact ⟨rfl, rfl, rfl, rfl, rfl⟩
  | succ n ih =>
    unfold plain_elements
    by_cases hN : char_at types k = 'N'
    · rw [if_pos hN]
      exact ih _ _ _ _
    · rw [if_neg hN]
      obtain ⟨h1, h2, h3, h4, h5⟩ := ih (j + 1) (k + 1)
        { si with value := memcpy si.value (j * size) (arg_data argv k) size
                  has_value_flags := set_flag si.has_value_flags j } (vals + 1)
      refine ⟨h1, h2, h3, ?_, ?_⟩
      · rw [h4]
        simp [memcpy]
      · rw [h5]
        exact set_flag_length _ _

theorem plain_elements_flags (types : List Char) (argv : List lo_arg) (size n j k : Nat)
    (si : mapper_signal_instance) (vals : Nat) (b i : Nat)
    (hlen : ∀ j1, j1 < j + n → j1 / 8 < si.has_value_flags.length) :
    (((plain_elements types argv size n j k si vals).1.has_value_flags.getD b 0).testBit i
        = true) ↔
      ((si.has_value_flags.getD b 0).testBit i = true ∨
        (i < 8 ∧ j ≤ 8 * b + i ∧ 8 * b + i < j + n ∧
          char_at types (k + (8 * b + i - j)) ≠ 'N')) := by
  induction n generalizing j k si vals with
  | zero =>
    simp only [plain_elements]
    constructor
    · intro h
      exact Or.inl h
    · rintro (h | ⟨_, h1, h2, _⟩)
      · exact h
      · omega
  | succ n ih =>
    unfold plain_elements
    by_cases hN : char_at types k = 'N'
    · rw [if_pos hN, ih (j + 1) (k + 1) si vals (fun j1 h => hlen j1 (by omega))]
      constructor
      · rintro (h | ⟨h0, h1, h2, h3⟩)
        · exact Or.inl h
        · refine Or.inr ⟨h0, by omega, by omega, ?_⟩
          have e : k + (8 * b + i - j) = k + 1 + (8 * b + i - (j + 1)) := by omega
          rw [e]
          exact h3
      · rintro (h | ⟨h0, h1, h2, h3⟩)
        · exact Or.inl h
        · by_cases hx : 8 * b + i = j
          · rw [hx] at h3
            simp at h3
            exact absurd hN h3
          · refine Or.inr ⟨h0, by omega, by omega, ?_⟩
            have e : k + (8 * b + i - j) = k + 1 + (8 * b + i - (j + 1)) := by omega
            rw [← e]
            exact h3
    · rw [if_neg hN, ih (j + 1) (k + 1) _ (vals + 1) (fun j1 h => by
        simp only [set_flag_length]
        exact hlen j1 (by omega))]
      simp only
      rw [set_flag_testBit_iff _ _ _ _ (hlen j (by omega))]
      constructor
      · rintro ((h | ⟨hb, hi⟩) | ⟨h0, h1, h2, h3⟩)
        · exact Or.inl h
        · refine Or.inr ⟨by omega, by omega, by omega, ?_⟩
          have e : 8 * b + i - j = 0 := by omega
          rw [e]
          exact hN
        · refine Or.inr ⟨h0, by omega, by omega, ?_⟩
          have e : k + (8 * b + i - j) = k + 1 + (8 * b + i - (j + 1)) := by omega
          rw [e]
          exact h3
      · rintro (h | ⟨h0, h1, h2, h3⟩)
        · exact Or.inl (Or.inl h)
        · by_cases hx : 8 * b + i = j
          · exact Or.inl (Or.inr ⟨by omega, by omega⟩)
          · refine Or.inr ⟨h0, by omega, by omega, ?_⟩
            have e : k + (8 * b + i - j) = k + 1 + (8 * b + i - (j + 1)) := by omega
            rw [← e]
            exact h3

/-! ### Memory copies -/

theorem memcpy_length (dst : List (Option Nat)) (off : Nat) (src : List (Option Nat)) (n : Nat) :
    (memcpy dst off src n).length = dst.length := by
  simp [memcpy]

theorem memcpy_getD (dst : List (Option Nat)) (off : Nat) (src : List (Option Nat)) (n pos : Nat)
    (hpos : pos < dst.length) :
    (memcpy dst off src n).getD pos none =
      if off ≤ pos ∧ pos < off + n then src.getD (pos - off) none else dst.getD pos none := by
  unfold memcpy
  rw [List.getD_eq_getElem?_getD, List.getElem?_map, List.getElem?_range hpos]
  rfl

theorem memcpy_getD_of_le (dst : List (Option Nat)) (off : Nat) (src : List (Option Nat))
    (n pos : Nat) (hpos : dst.length ≤ pos) :
    (memcpy dst off src n).getD pos none = dst.getD pos none := by
  rw [List.getD_eq_getElem?_getD, List.getD_eq_getElem?_getD,
    List.getElem?_eq_none (by rw [memcpy_length]; exact hpos), List.getElem?_eq_none hpos]

theorem plain_elements_value_other (types : List Char) (argv : List lo_arg)
    (size n j k : Nat) (si : mapper_signal_instance) (vals : Nat) (pos : Nat)
    (h : ∀ j1, j ≤ j1 → j1 < j + n → char_at types (k + (j1 - j)) ≠ 'N' →
      ¬ (j1 * size ≤ pos ∧ pos < j1 * size + size)) :
    (plain_elements types argv size n j k si vals).1.value.getD pos none =
      si.value.getD pos none := by
  induction n generalizing j k si vals with
  | zero => rfl
  | succ n ih =>
    unfold plain_elements
    have hrest : ∀ j1, j + 1 ≤ j1 → j1 < j + 1 + n →
        char_at types (k + 1 + (j1 - (j + 1))) ≠ 'N' →
        ¬ (j1 * size ≤ pos ∧ pos < j1 * size + size) := by
      intro j1 h1 h2 h3
      apply h j1 (by omega) (by omega)
      have e : k + (j1 - j) = k + 1 + (j1 - (j + 1)) := by omega
      rw [e]
      exact h3
    by_cases hN : char_at types k = 'N'
    · rw [if_pos hN]
      exact ih _ _ _ _ hrest
    · rw [if_neg hN, ih _ _ _ _ hrest]
      simp only
      have hj := h j (le_refl j) (by omega) (by simpa using hN)
      by_cases hpos : pos < si.value.length
      · rw [memcpy_getD _ _ _ _ _ hpos, if_neg hj]
      · exact memcpy_getD_of_le _ _ _ _ _ (by omega)

theorem plain_elements_value_copied (types : List Char) (argv : List lo_arg)
    (size n j k : Nat) (si : mapper_signal_instance) (vals : Nat) (j1 b : Nat)
    (h1 : j ≤ j1) (h2 : j1 < j + n) (hb : b < size)
    (hN : char_at types (k + (j1 - j)) ≠ 'N')
    (hlen : j1 * size + b < si.value.length) :
    (plain_elements types argv size n j k si vals).1.value.getD (j1 * size + b) none =
      (arg_data argv (k + (j1 - j))).getD b none := by
  induction n generalizing j k si vals with
  | zero => omega
  | succ n ih =>
    unfold plain_elements
    by_cases hj : j1 = j
    · subst hj
      have hk : char_at types k ≠ 'N' := by simpa using hN
      rw [if_neg hk, plain_elements_value_other]
      · simp only
        rw [memcpy_getD _ _ _ _ _ hlen, if_pos ⟨by omega, by omega⟩]
        simp
      · intro j2 hj2 _ _
        have : (j1 + 1) * size ≤ j2 * size := Nat.mul_le_mul_right size hj2
        have e : (j1 + 1) * size = j1 * size + size := by ring
        omega
    · have e : k + (j1 - j) = k + 1 + (j1 - (j + 1)) := by omega
      rw [e] at hN ⊢
      by_cases hk : char_at types k = 'N'
      · rw [if_pos hk]
        exact ih (j + 1) (k + 1) si vals (by omega) (by omega) hN hlen
      · rw [if_neg hk]
        exact ih (j + 1) (k + 1) _ (vals + 1) (by omega) (by omega) hN
          (by simp only [memcpy_length]; exact hlen)

/-! ### A single sample on the plain path -/

theorem instance_at_set_instance (sig : mapper_signal) (a : Nat) (si : mapper_signal_instance)
    (ha : a < sig.instances.length) : instance_at (set_instance sig a si) a = si := by
  unfold instance_at set_instance
  simp [List.getD_eq_getElem?_getD, List.getElem?_set, ha]

theorem commit_value_single_some (env : Env) (l : Loop) (a m size : Nat)
    (tt : mapper_timetag_t) (hm : l.id_map = some m) :
    ∃ l2, commit_value env l a 1 size tt = some l2 := by
  unfold commit_value
  simp only [call_handler, call_route, set_instance, hm, Nat.lt_irrefl, if_false]
  split_ifs
  all_goals exact ⟨_, rfl⟩

theorem commit_value_single (env : Env) (l l2 : Loop) (a m size : Nat) (tt : mapper_timetag_t)
    (ha : a < l.sig.instances.length) (hm : l.id_map = some m)
    (h : commit_value env l a 1 size tt = some l2) :
    l2.md = l.md ∧
      l2.sig.props = l.sig.props ∧ l2.sig.id_maps = l.sig.id_maps ∧
      l2.out_count = l.out_count ∧
      (instance_at l2.sig a).value = (instance_at l.sig a).value ∧
      (instance_at l2.sig a).has_value_flags = (instance_at l.sig a).has_value_flags ∧
      (instance_at l2.sig a).has_value =
        ((instance_at l.sig a).has_value ||
          memcmp_eq (instance_at l.sig a).has_value_flags l.sig.has_complete_value
            (l.sig.props.length / 8 + 1)) ∧
      l2.events = l.events ++
        (if (instance_at l2.sig a).has_value then
          (if l.sig.props.direction &&& env.DI_OUTGOING = 0 then
            [Event.mdev_route_signal l.id_map_index (instance_at l.sig a).value 1 tt]
           else []) ++
          (if l.sig.handler then
            [Event.handler (node_at l.md.id_map.heap m).local_
              (some (instance_at l.sig a).value) 1 tt]
           else [])
         else []) := by
  unfold commit_value at h
  simp only [call_handler, call_route, hm, Nat.lt_irrefl, if_false] at h
  have hset : ∀ x, instance_at (set_instance l.sig a x) a = x :=
    fun x => instance_at_set_instance l.sig a x ha
  split_ifs at h with h1 h2 h3 h4 h5 h6 h7 h8 h9
  all_goals
    cases h
    simp only [hset]
    simp_all [set_instance]

theorem process_samples_plain_single (env : Env) (st : State) (p : Properties)
    (sel : Selected) (types : List Char) (argv : List lo_arg) (nulls value_len : Nat)
    (idx : Int) (events : List Event) (tt : mapper_timetag_t) (a m : Nat)
    (hplain : sel.map = none) (hcount : sel.count = 1)
    (hinst : (id_map_entry st.sig idx).inst = some a)
    (hmap : (id_map_entry st.sig idx).map = some m)
    (ha : a < st.sig.instances.length)
    (hvals : count_vals types 0 st.sig.props.length ≠ 0) :
    ∃ l, process_samples env st p sel types argv nulls value_len idx events tt = some l ∧
      l.md = st.md ∧ l.sig.props = st.sig.props ∧ l.sig.id_maps = st.sig.id_maps ∧
      (instance_at l.sig a).value =
        (plain_elements types argv
          (match sel.s with
            | some s => env.mapper_type_size (slot_at st.md.router s).props.type
            | none => env.mapper_type_size st.sig.props.type)
          st.sig.props.length 0 0 (instance_at st.sig a) 0).1.value ∧
      (instance_at l.sig a).has_value_flags =
        (plain_elements types argv
          (match sel.s with
            | some s => env.mapper_type_size (slot_at st.md.router s).props.type
            | none => env.mapper_type_size st.sig.props.type)
          st.sig.props.length 0 0 (instance_at st.sig a) 0).1.has_value_flags ∧
      (instance_at l.sig a).has_value =
        ((instance_at st.sig a).has_value ||
          memcmp_eq (instance_at l.sig a).has_value_flags st.sig.has_complete_value
            (st.sig.props.length / 8 + 1)) ∧
      l.events = events ++
        (if (instance_at l.sig a).has_value then
          (if st.sig.props.direction &&& env.DI_OUTGOING = 0 then
            [Event.mdev_route_signal idx (instance_at l.sig a).value 1 tt]
           else []) ++
          (if st.sig.handler then
            [Event.handler (node_at st.md.id_map.heap m).local_
              (some (instance_at l.sig a).value) 1 tt]
           else [])
         else []) := by
  unfold process_samples
  simp only [hplain, hcount, hinst, hmap]
  generalize hsize : (match sel.s with
    | some s => env.mapper_type_size (slot_at st.md.router s).props.type
    | none => env.mapper_type_size st.sig.props.type) = size
  unfold plain_loop plain_sample
  simp only [plain_elements_snd, Nat.zero_add, if_neg hvals]
  obtain ⟨l2, h2⟩ := commit_value_single_some env
    { sig := set_instance st.sig a
        (plain_elements types argv size st.sig.props.length 0 0 (instance_at st.sig a) 0).1
      md := st.md, si := some a, id_map := some m, id_map_index := idx
      k := st.sig.props.length
      out_buffer := List.replicate (1 * value_len * size) none, out_count := 0
      active := true, events := events } a m size tt rfl
  have hset : ∀ x, instance_at (set_instance st.sig a x) a = x :=
    fun x => instance_at_set_instance st.sig a x ha
  obtain ⟨c1, c2, c3, c4, c5, c6, c7, c8⟩ := commit_value_single env _ l2 a m size tt
    (by simpa [set_instance] using ha) rfl h2
  simp only [hset, plain_elements_frame] at c5 c6 c7 c8
  rw [h2]
  simp only [Option.map_some', plain_loop, flush_out_buffer, c4, ne_eq, not_true_eq_false,
    if_false]
  refine ⟨l2, rfl, c1, c2, c3, c5, c6, ?_, ?_⟩
  · rw [c7, c6]
    rfl
  · rw [c8, c5]
    rfl

theorem plain_elements_flags_complete (types : List Char) (argv : List lo_arg) (size len : Nat)
    (si : mapper_signal_instance)
    (hall : ∀ k, k < len → char_at types k ≠ 'N')
    (hflags : flags_within si.has_value_flags len) :
    (plain_elements types argv size len 0 0 si 0).1.has_value_flags = all_ones_template len := by
  apply flags_eq_of_testBit
  · rw [(plain_elements_frame types argv size len 0 0 si 0).2.2.2.2, hflags.1,
      all_ones_template_length]
  · intro b i
    rw [all_ones_template_testBit, Bool.eq_iff_iff,
      plain_elements_flags types argv size len 0 0 si 0 b i (fun j1 h => by
        rw [hflags.1]
        have := Nat.div_le_div_right (c := 8) (Nat.le_of_lt (show j1 < len by omega))
        omega)]
    simp only [decide_eq_true_eq]
    constructor
    · rintro (h | ⟨h0, _, h2, _⟩)
      · exact hflags.2 b i h
      · exact ⟨by omega, h0⟩
    · rintro ⟨h1, h2⟩
      refine Or.inr ⟨h2, Nat.zero_le _, by omega, ?_⟩
      exact hall _ (by omega)

theorem parse_properties_no_suffix (types : List Char) (argv : List lo_arg) (argc fuel : Nat)
    (p : Properties) : parse_properties types argv argc fuel argc p = some p := by
  cases fuel with
  | zero => rfl
  | succ fuel =>
    unfold parse_properties
    rw [if_neg (Nat.lt_irrefl argc)]

/-- C8 (amended): a single sample without null elements and without properties,
delivered to a signal whose direction does not include `DI_OUTGOING`, makes the
handler call `mdev_route_signal` once and then the user handler once, both with
count 1 and with the value of the instance, which holds the arguments of the
message; `has_value` is true afterwards. -/
theorem handler_signal_plain_update (env : Env) (w : World) (sig : mapper_signal)
    (md : mapper_device) (types : List Char) (argv : List lo_arg) (argc : Nat)
    (tt : mapper_timetag_t) (r : Resolved) (idx : Int) (a m : Nat)
    (hsig : w.sig = some sig) (hmd : w.md = some md)
    (hlen : 1 ≤ sig.props.length) (hargc : argc = sig.props.length)
    (htypes : ∀ k, k < argc → char_at types k = sig.props.type)
    (hT : sig.props.type ≠ 's' ∧ sig.props.type ≠ 'S' ∧ sig.props.type ≠ 'N')
    (hres : resolve_instance env { sig := sig, md := md }
      { is_instance_update := false, instance_id := 0, slot := -1 } 0 argc 1 tt = some r)
    (hidx : r.id_map_index = some idx)
    (hinst : (id_map_entry r.st.sig idx).inst = some a)
    (hmap : (id_map_entry r.st.sig idx).map = some m)
    (ha : a < r.st.sig.instances.length)
    (hprops : r.st.sig.props = sig.props)
    (hhandler : r.st.sig.handler = true)
    (hdir : sig.props.direction &&& env.DI_OUTGOING = 0)
    (htempl : r.st.sig.has_complete_value = all_ones_template sig.props.length)
    (hflags : flags_within (instance_at r.st.sig a).has_value_flags sig.props.length)
    (hvalue : (instance_at r.st.sig a).value.length =
      sig.props.length * env.mapper_type_size sig.props.type) :
    ∃ sig1 md1 v, handler_signal env w types argv argc tt =
        some ({ sig := some sig1, md := some md1 },
          r.events ++ [Event.mdev_route_signal idx v 1 tt,
            Event.handler (node_at r.st.md.id_map.heap m).local_ (some v) 1 tt]) ∧
      (∀ e ∈ r.events, e.is_callback = false) ∧
      (instance_at sig1 a).has_value = true ∧
      (instance_at sig1 a).value = v ∧
      ∀ j b, j < sig.props.length → b < env.mapper_type_size sig.props.type →
        v.getD (j * env.mapper_type_size sig.props.type + b) none =
          (arg_data argv j).getD b none := by
  have hval : ∀ k, k < argc → char_at types k ≠ 's' ∧ char_at types k ≠ 'S' := by
    intro k hk
    rw [htypes k hk]
    exact ⟨hT.1, hT.2.1⟩
  have h0 : char_at types 0 = sig.props.type := htypes 0 (by omega)
  have hnulls : (if char_at types 0 = 'N' then argc else 0) = 0 := by
    rw [h0, if_neg hT.2.2]
  have hsel : select_map env sig md (-1) types argc =
      some { count := 1, map := none, s := none } := by
    unfold select_map
    rw [if_neg (by decide)]
    have hc := check_types_valid types argc sig.props.type sig.props.length
      (by omega) (by rw [hargc]; exact Nat.mod_self _) (fun k hk => Or.inl (htypes k hk))
    rw [hc, hargc, Nat.div_self (by omega)]
  have hnn : ∀ k, k < sig.props.length → char_at types k ≠ 'N' := by
    intro k hk
    rw [htypes k (by omega)]
    exact hT.2.2
  have hvals : count_vals types 0 r.st.sig.props.length ≠ 0 := by
    rw [hprops]
    obtain ⟨n, hn⟩ : ∃ n, sig.props.length = n + 1 := ⟨sig.props.length - 1, by omega⟩
    rw [hn]
    unfold count_vals
    rw [if_pos (hnn 0 (by omega))]
    omega
  have heq := handler_signal_eq env w sig md types argv argc tt argc
    { is_instance_update := false, instance_id := 0, slot := -1 }
    { count := 1, map := none, s := none } r hsig hmd hval (fun h => absurd h (Nat.lt_irrefl _))
    (le_refl _) (by omega) (parse_properties_no_suffix _ _ _ _ _) hsel (by decide)
    (by rw [hnulls]; exact hres)
  obtain ⟨l, hl, _, c2, _, c4, c5, c6, c7⟩ := process_samples_plain_single env r.st
    { is_instance_update := false, instance_id := 0, slot := -1 }
    { count := 1, map := none, s := none } types argv 0 argc idx r.events tt a m rfl rfl
    hinst hmap ha hvals
  rw [hidx, hnulls] at heq
  simp only [hl, Option.map_some'] at heq
  have hfl : (instance_at l.sig a).has_value_flags = all_ones_template sig.props.length := by
    rw [c5, hprops]
    exact plain_elements_flags_complete types argv _ _ _ hnn hflags
  have hhv : (instance_at l.sig a).has_value = true := by
    rw [c6, hfl, htempl]
    simp [memcmp_eq]
  refine ⟨l.sig, l.md, (instance_at l.sig a).value, ?_,
    resolve_instance_events env _ _ _ _ _ tt r hres, hhv, rfl, ?_⟩
  · rw [heq, c7, hhv, hprops, hhandler]
    simp [hdir]
  · intro j b hj hb
    rw [c4, hprops]
    simp only
    have h := plain_elements_value_copied types argv (env.mapper_type_size sig.props.type)
      sig.props.length 0 0 (instance_at r.st.sig a) 0 j b (Nat.zero_le _) (by omega) hb
      (by simpa using hnn j hj)
      (by
        rw [hvalue]
        have : (j + 1) * env.mapper_type_size sig.props.type ≤
            sig.props.length * env.mapper_type_size sig.props.type :=
          Nat.mul_le_mul_right _ hj
        have e : (j + 1) * env.mapper_type_size sig.props.type =
            j * env.mapper_type_size sig.props.type + env.mapper_type_size sig.props.type := by
          ring
        omega)
    simpa using h

/-! ### Examples -/

/-- Witness for C2: three `i` values sent to a signal of vector length 2. -/
theorem handler_signal_rejects_bad_length_witness :
    handler_signal example_env
        { sig := some (example_signal 'i' 2), md := some example_device }
        ['i', 'i', 'i'] [example_int32 1, example_int32 2, example_int32 3] 3 example_tt =
      some ({ sig := some (example_signal 'i' 2), md := some example_device }, []) :=
  handler_signal_rejects_bad_length example_env _ _ _ 3 example_tt 3
    (by decide) (by decide) (by decide)
    (by
      intro sig md p hs hm hp
      cases hs
      cases hm
      cases hp
      decide)

/-- Witness for C3: `@instance` followed by an argument of type `i`. -/
theorem handler_signal_rejects_bad_properties_witness :
    handler_signal example_env
        { sig := some (example_signal 'i' 1), md := some example_device }
        ['i', 's', 'i'] [example_int32 1, example_string "@instance", example_int32 7] 3
        example_tt =
      some ({ sig := some (example_signal 'i' 1), md := some example_device }, []) :=
  handler_signal_rejects_bad_properties example_env _ _ _ 3 example_tt 1
    (by decide) (by decide) (by decide)
    (by
      intro h
      have h2 : ("@instance" = "@instance" ∧ 'i' = 'h') ∨ ("@instance" = "@slot" ∧ 'i' = 'i') :=
        h.2.1
      revert h2
      decide)

/-- Witness for C9: two samples for a signal of vector length 2, the second of
which is all null. -/
theorem handler_signal_rejects_null_sample_witness :
    ∃ w1 ev, handler_signal example_env
        { sig := some (example_signal 'i' 2), md := some example_device }
        ['i', 'i', 'N', 'N'] [example_int32 1, example_int32 2, lo_arg.zero, lo_arg.zero] 4
        example_tt = some (w1, ev) ∧
      ∀ e ∈ ev, e.is_callback = false :=
  handler_signal_rejects_null_sample example_env _ (example_signal 'i' 2) example_device
    ['i', 'i', 'N', 'N'] _ 4 example_tt 4
    { is_instance_update := false, instance_id := 0, slot := -1 }
    { count := 2, map := none, s := none } rfl rfl
    (by decide) (by decide) (by decide) rfl rfl rfl (by decide)
    (by
      intro r idx hr hi
      cases hr
      cases hi
      decide)
    (by
      intro r hr
      cases hr
      exact ⟨1, by decide, by decide⟩)

/-- C4, evaluation at the failing input: two all-null samples (`NN` for a signal
of vector length 1) for the unknown instance 7.  The handler calls
`msig_get_instance_with_global_id(sig, 7, 0, tt)`, because `nulls` is 2 and
`value_len * count` is 4. -/
theorem handler_signal_null_samples_activate :
    ((handler_signal example_env
        { sig := some (example_signal 'i' 1), md := some example_device }
        ['N', 'N', 's', 'h']
        [lo_arg.zero, lo_arg.zero, example_string "@instance", example_int64 7] 4
        example_tt).map fun x => x.2) =
      some [Event.msig_get_instance_with_global_id 7 0 example_tt] := by
  rfl

/-- C5, evaluation at the failing input: the vector `N 5` for the unknown instance
7 of a signal of vector length 2.  The first tag is `N`, so that the prefix scan
leaves `nulls = 2 = value_len`, and the handler returns without calling
`msig_get_instance_with_global_id`. -/
theorem handler_signal_partial_null_discarded :
    handler_signal example_env
        { sig := some (example_signal 'i' 2), md := some example_device }
        ['N', 'i', 's', 'h']
        [lo_arg.zero, example_int32 5, example_string "@instance", example_int64 7] 4
        example_tt =
      some ({ sig := some (example_signal 'i' 2), md := some example_device }, []) := by
  rfl

/-- C6, evaluation at the failing input: the double 3.14 sent with `@slot 0` to a
signal of type `d`, where slot 0 belongs to a map processed at the source and has
elements of type `i`.  The update is handled on the plain path with the element
size of the slot: only the first 4 bytes of the argument reach the instance
value, which is what the user handler is called with. -/
theorem handler_signal_source_slot_copies_half :
    ((handler_signal example_env
        { sig := some (example_signal 'd' 1), md := some example_device_with_map }
        ['d', 's', 'i'] [example_double, example_string "@slot", example_int32 0] 3
        example_tt).map fun x => x.2) =
      some [Event.mdev_route_signal 0
              [some 0x1f, some 0x85, some 0xeb, some 0x51, some 0, some 0, some 0, some 0] 1
              example_tt,
            Event.handler 0
              (some [some 0x1f, some 0x85, some 0xeb, some 0x51, some 0, some 0, some 0, some 0])
              1 example_tt] := by
  rfl

/-- C7, evaluation at the failing input: the samples (1, 2) and (3, 4) for a
signal of type `i` and vector length 2.  The handler is called once with count
2, but only the first element of each sample has been copied into the
out-buffer (bytes 0-3 and 8-11); the bytes of the second elements, like the
rest of the buffer, are indeterminate. -/
theorem handler_signal_out_buffer_first_elements :
    ((handler_signal example_env
        { sig := some (example_signal 'i' 2), md := some example_device }
        ['i', 'i', 'i', 'i']
        [example_int32 1, example_int32 2, example_int32 3, example_int32 4] 4
        example_tt).map fun x => x.2) =
      some [Event.mdev_route_signal 0
              ([some 1, some 0, some 0, some 0, none, none, none, none,
                some 3, some 0, some 0, some 0, none, none, none, none] ++
                List.replicate 16 none) 2 example_tt,
            Event.handler 0
              (some ([some 1, some 0, some 0, some 0, none, none, none, none,
                      some 3, some 0, some 0, some 0, none, none, none, none] ++
                      List.replicate 16 none)) 2 example_tt] := by
  rfl

/-- C8, counterexample: the float 3.14 sent to an input signal of type `f` and
length 1 whose direction is incoming only.  The handler calls
`mdev_route_signal` before the user handler. -/
theorem handler_signal_routes_incoming :
    ((handler_signal example_env
        { sig := some (example_signal 'f' 1), md := some example_device }
        ['f'] [example_float] 1 example_tt).map fun x => x.2) =
      some [Event.mdev_route_signal 0 [some 0xc3, some 0xf5, some 0x48, some 0x40] 1
              example_tt,
            Event.handler 0 (some [some 0xc3, some 0xf5, some 0x48, some 0x40]) 1
              example_tt] := by
  rfl

/-- Witness for C8 (amended): the float 3.14 sent to an input signal of type `f`
and length 1 whose direction is incoming only. -/
theorem handler_signal_plain_update_witness :
    ∃ sig1 md1 v, handler_signal example_env
        { sig := some (example_signal 'f' 1), md := some example_device }
        ['f'] [example_float] 1 example_tt =
        some ({ sig := some sig1, md := some md1 },
          [] ++ [Event.mdev_route_signal 0 v 1 example_tt,
            Event.handler (node_at example_device.id_map.heap 0).local_ (some v) 1
              example_tt]) ∧
      (∀ e ∈ ([] : List Event), e.is_callback = false) ∧
      (instance_at sig1 0).has_value = true ∧
      (instance_at sig1 0).value = v ∧
      ∀ j b, j < (example_signal 'f' 1).props.length →
        b < example_env.mapper_type_size (example_signal 'f' 1).props.type →
        v.getD (j * example_env.mapper_type_size (example_signal 'f' 1).props.type + b) none =
          (arg_data [example_float] j).getD b none :=
  handler_signal_plain_update example_env _ (example_signal 'f' 1) example_device
    ['f'] [example_float] 1 example_tt
    { st := { sig := example_signal 'f' 1, md := example_device }, events := []
      id_map_index := some 0 } 0 0 0
    rfl rfl (by decide) rfl (by decide) (by decide) rfl rfl rfl rfl (by decide) rfl rfl rfl rfl
    ⟨rfl, by
      intro b i h
      cases b with
      | zero => simp [example_signal, instance_at] at h
      | succ b => simp [example_signal, instance_at] at h⟩
    rfl


/-! ### Removal from and lookup in the ID-map lists -/

theorem node_at_fields_set_next (heap : List mapper_id_map) (a b : Nat) (v : Option Nat) :
    { node_at (heap.set a { node_at heap a with next := v }) b with next := none } =
      { node_at heap b with next := none } := by
  rw [node_at_set]
  split_ifs with h
  · obtain ⟨rfl, _⟩ := h
    rfl
  · rfl

theorem nodup_bounded_length (l : List Nat) (n : Nat) (hnd : l.Nodup)
    (hlt : ∀ a ∈ l, a < n) : l.length ≤ n := by
  have h1 : l.toFinset ⊆ Finset.range n := by
    intro a ha
    rw [List.mem_toFinset] at ha
    exact Finset.mem_range.mpr (hlt a ha)
  have h2 := Finset.card_le_card h1
  rw [List.toFinset_card_of_nodup hnd, Finset.card_range] at h2
  exact h2

theorem is_list_length_le (heap : List mapper_id_map) (l : List Nat) (p : Option Nat)
    (h : is_list heap p l) : l.length ≤ heap.length :=
  nodup_bounded_length l heap.length (is_list_nodup heap l p h) (is_list_lt heap l p h)

theorem remove_loop_absent (dev : id_map_lists) (map : Option Nat) (rest : List Nat)
    (loc : Option Nat) (fuel : Nat)
    (hlist : is_list dev.heap (read_link dev loc) rest) (hfuel : rest.length < fuel)
    (habs : ∀ c ∈ rest, some c ≠ map) :
    mdev_remove_instance_id_map_loop map fuel dev loc = some dev := by
  induction rest generalizing loc fuel with
  | nil =>
    obtain ⟨f, rfl⟩ : ∃ f, fuel = f + 1 := ⟨fuel - 1, by simp at hfuel; omega⟩
    have hnone : read_link dev loc = none := hlist
    simp [mdev_remove_instance_id_map_loop, hnone]
  | cons c rest ih =>
    obtain ⟨f, rfl⟩ : ∃ f, fuel = f + 1 := ⟨fuel - 1, by simp at hfuel; omega⟩
    obtain ⟨h1, _, h3⟩ := hlist
    have hne : some c ≠ map := habs c (List.mem_cons_self c rest)
    simp only [mdev_remove_instance_id_map_loop, h1, if_neg hne]
    exact ih (some c) f h3 (by simp at hfuel; omega)
      (fun d hd => habs d (List.mem_cons_of_mem c hd))

theorem remove_loop_found (dev : id_map_lists) (a : Nat) (rest : List Nat)
    (loc : Option Nat) (fuel : Nat)
    (hlist : is_list dev.heap (read_link dev loc) rest) (hfuel : rest.length < fuel)
    (hmem : a ∈ rest)
    (hloc : ∀ p, loc = some p → p ∉ rest ∧ p < dev.heap.length) :
    ∃ dev1, mdev_remove_instance_id_map_loop (some a) fuel dev loc = some dev1 ∧
      dev1.reserve_id_map = some a ∧ dev1.heap.length = dev.heap.length ∧
      (node_at dev1.heap a).next = dev.reserve_id_map ∧
      is_list dev1.heap (read_link dev1 loc) (rest.erase a) ∧
      (∀ b, b ∉ rest → loc ≠ some b → node_at dev1.heap b = node_at dev.heap b) ∧
      (∀ b, { node_at dev1.heap b with next := none } =
        { node_at dev.heap b with next := none }) ∧
      (loc ≠ none → dev1.active_id_map = dev.active_id_map) := by
  induction rest generalizing loc fuel with
  | nil => cases hmem
  | cons c rest ih =>
    obtain ⟨f, rfl⟩ : ∃ f, fuel = f + 1 := ⟨fuel - 1, by simp at hfuel; omega⟩
    have hnd := is_list_nodup dev.heap (c :: rest) _ hlist
    have hcrest : c ∉ rest := (List.nodup_cons.mp hnd).1
    obtain ⟨h1, h2, h3⟩ := hlist
    by_cases hca : c = a
    · subst hca
      simp only [mdev_remove_instance_id_map_loop, h1, if_true]
      rw [List.erase_cons_head]
      cases loc with
      | none =>
        refine ⟨_, rfl, rfl, by simp [write_link], ?_, ?_, ?_, ?_, ?_⟩
        · simp [write_link, node_at_set, h2]
        · simp only [read_link, write_link]
          refine is_list_frame dev.heap _ rest _ h3 (by simp) ?_
          intro b hb
          rw [node_at_set, if_neg]
          rintro ⟨rfl, _⟩
          exact hcrest hb
        · intro b hb _
          simp only [write_link]
          rw [node_at_set, if_neg]
          rintro ⟨rfl, _⟩
          exact hb (List.mem_cons_self _ _)
        · intro b
          simp only [write_link]
          exact node_at_fields_set_next dev.heap c b _
        · intro h
          exact absurd rfl h
      | some p =>
        obtain ⟨hp1, hp2⟩ := hloc p rfl
        have hpc : p ≠ c := fun h => hp1 (h ▸ List.mem_cons_self _ _)
        have hprest : p ∉ rest := fun h => hp1 (List.mem_cons_of_mem c h)
        refine ⟨_, rfl, rfl, by simp [write_link], ?_, ?_, ?_, ?_, ?_⟩
        · simp [write_link, node_at_set, h2]
        · simp only [read_link, write_link]
          have hnext : (node_at ((dev.heap.set p
              { node_at dev.heap p with next := (node_at dev.heap c).next }).set c
              { node_at (dev.heap.set p
                  { node_at dev.heap p with next := (node_at dev.heap c).next }) c with
                next := dev.reserve_id_map }) p).next = (node_at dev.heap c).next := by
            rw [node_at_set, if_neg (by rintro ⟨h, _⟩; exact hpc h.symm), node_at_set,
              if_pos ⟨rfl, hp2⟩]
          rw [hnext]
          refine is_list_frame dev.heap _ rest _ h3 (by simp) ?_
          intro b hb
          rw [node_at_set, if_neg (by rintro ⟨rfl, _⟩; exact hcrest hb), node_at_set,
            if_neg (by rintro ⟨rfl, _⟩; exact hprest hb)]
        · intro b hb hbp
          simp only [write_link]
          rw [node_at_set, if_neg (by
            rintro ⟨rfl, _⟩
            exact hb (List.mem_cons_self _ _)), node_at_set, if_neg (by
            rintro ⟨rfl, _⟩
            exact hbp rfl)]
        · intro b
          simp only [write_link]
          rw [node_at_fields_set_next]
          exact node_at_fields_set_next dev.heap p b _
        · intro _
          rfl
    · have hne : some c ≠ some a := fun h => hca (Option.some.inj h)
      have hmem1 : a ∈ rest := by
        rcases List.mem_cons.mp hmem with h | h
        · exact absurd h.symm hca
        · exact h
      simp only [mdev_remove_instance_id_map_loop, h1, if_neg hne]
      obtain ⟨dev1, e1, e2, e3, e4, e5, e6, e7, e8⟩ := ih (some c) f h3
        (by simp at hfuel; omega) hmem1 (fun p hp => by
          cases hp
          exact ⟨hcrest, h2⟩)
      have hlink : read_link dev1 loc = some c := by
        cases loc with
        | none =>
          simp only [read_link]
          rw [e8 (by simp)]
          exact h1
        | some p =>
          obtain ⟨hp1, _⟩ := hloc p rfl
          simp only [read_link]
          rw [e6 p (fun h => hp1 (List.mem_cons_of_mem c h)) (by
            intro h
            cases h
            exact hp1 (List.mem_cons_self _ _))]
          exact h1
      refine ⟨dev1, e1, e2, e3, e4, ?_, ?_, e7, ?_⟩
      · rw [List.erase_cons_tail (by simpa using hca)]
        exact ⟨hlink, by rw [e3]; exact h2, e5⟩
      · intro b hb hbl
        apply e6 b (fun h => hb (List.mem_cons_of_mem c h))
        intro h
        cases h
        exact hb (List.mem_cons_self _ _)
      · intro _
        exact e8 (by simp)

theorem mdev_remove_instance_id_map_found (dev : id_map_lists) (a : Nat) (la lr : List Nat)
    (hact : is_list dev.heap dev.active_id_map la)
    (hres : is_list dev.heap dev.reserve_id_map lr)
    (hdisj : ∀ b ∈ la, b ∉ lr) (hmem : a ∈ la) :
    ∃ dev1, mdev_remove_instance_id_map dev (some a) = some dev1 ∧
      is_list dev1.heap dev1.active_id_map (la.erase a) ∧
      is_list dev1.heap dev1.reserve_id_map (a :: lr) ∧
      (∀ b, { node_at dev1.heap b with next := none } =
        { node_at dev.heap b with next := none }) := by
  obtain ⟨dev1, e1, e2, e3, e4, e5, e6, e7, _⟩ := remove_loop_found dev a la none
    (dev.heap.length + 2) hact (by
      have := is_list_length_le dev.heap la _ hact
      omega) hmem (fun p hp => by cases hp)
  refine ⟨dev1, e1, e5, ⟨e2, ?_, ?_⟩, e7⟩
  · rw [e3]
    exact is_list_lt dev.heap la _ hact a hmem
  · rw [e4]
    refine is_list_frame dev.heap _ lr _ hres (by omega) ?_
    intro b hb
    exact e6 b (fun h => hdisj b h hb) (by simp)

theorem mdev_remove_instance_id_map_absent (dev : id_map_lists) (map : Option Nat)
    (la : List Nat) (hact : is_list dev.heap dev.active_id_map la)
    (habs : ∀ a, map = some a → a ∉ la) :
    mdev_remove_instance_id_map dev map = some dev :=
  remove_loop_absent dev map la none (dev.heap.length + 2) hact (by
    have := is_list_length_le dev.heap la _ hact
    omega) (fun c hc h => habs c h.symm hc)

/-- C11: for well-formed, disjoint lists, `mdev_remove_instance_id_map(dev, node)`
with a node of the active list leaves the active list without that node, in
the same order, and the free-list with the node in front of the previous
free-list; with a node that is not on the active list (or a null pointer) it
changes nothing.  In both cases the two lists together hold the same nodes as
before, and no field of a node other than `next` is changed. -/
theorem mdev_remove_instance_id_map_spec (dev : id_map_lists) (map : Option Nat)
    (la lr : List Nat)
    (hact : is_list dev.heap dev.active_id_map la)
    (hres : is_list dev.heap dev.reserve_id_map lr)
    (hdisj : ∀ b ∈ la, b ∉ lr) :
    (∀ a, map = some a → a ∈ la →
      ∃ dev1, mdev_remove_instance_id_map dev map = some dev1 ∧
        is_list dev1.heap dev1.active_id_map (la.erase a) ∧
        is_list dev1.heap dev1.reserve_id_map (a :: lr) ∧
        (∀ b, b ∈ la.erase a ++ a :: lr ↔ b ∈ la ++ lr) ∧
        (∀ b, { node_at dev1.heap b with next := none } =
          { node_at dev.heap b with next := none })) ∧
    ((∀ a, map = some a → a ∉ la) → mdev_remove_instance_id_map dev map = some dev) := by
  constructor
  · intro a hmap hmem
    subst hmap
    obtain ⟨dev1, h1, h2, h3, h4⟩ :=
      mdev_remove_instance_id_map_found dev a la lr hact hres hdisj hmem
    refine ⟨dev1, h1, h2, h3, ?_, h4⟩
    intro b
    have hnd := is_list_nodup dev.heap la _ hact
    simp only [List.mem_append, List.mem_cons, hnd.mem_erase_iff]
    constructor
    · rintro (⟨_, h⟩ | rfl | h)
      · exact Or.inl h
      · exact Or.inl hmem
      · exact Or.inr h
    · rintro (h | h)
      · by_cases hb : b = a
        · exact Or.inr (Or.inl hb)
        · exact Or.inl ⟨hb, h⟩
      · exact Or.inr (Or.inr h)
  · intro habs
    exact mdev_remove_instance_id_map_absent dev map la hact habs

/-- Witness for C11: the node at address 1 is removed from the active list
0, 1, 2 of a device whose free-list is the node at address 3. -/
theorem mdev_remove_instance_id_map_spec_witness :
    (∀ a, some 1 = some a → a ∈ [0, 1, 2] →
      ∃ dev1, mdev_remove_instance_id_map
          { heap := [{ mapper_id_map.zero with next := some 1 },
                     { mapper_id_map.zero with next := some 2 },
                     mapper_id_map.zero, mapper_id_map.zero]
            active_id_map := some 0
            reserve_id_map := some 3 } (some 1) = some dev1 ∧
        is_list dev1.heap dev1.active_id_map ([0, 1, 2].erase a) ∧
        is_list dev1.heap dev1.reserve_id_map (a :: [3]) ∧
        (∀ b, b ∈ [0, 1, 2].erase a ++ a :: [3] ↔ b ∈ [0, 1, 2] ++ [3]) ∧
        (∀ b, { node_at dev1.heap b with next := none } =
          { node_at [{ mapper_id_map.zero with next := some 1 },
                     { mapper_id_map.zero with next := some 2 },
                     mapper_id_map.zero, mapper_id_map.zero] b with next := none })) ∧
    ((∀ a, some 1 = some a → a ∉ [0, 1, 2]) →
      mdev_remove_instance_id_map
          { heap := [{ mapper_id_map.zero with next := some 1 },
                     { mapper_id_map.zero with next := some 2 },
                     mapper_id_map.zero, mapper_id_map.zero]
            active_id_map := some 0
            reserve_id_map := some 3 } (some 1) =
        some { heap := [{ mapper_id_map.zero with next := some 1 },
                        { mapper_id_map.zero with next := some 2 },
                        mapper_id_map.zero, mapper_id_map.zero]
               active_id_map := some 0
               reserve_id_map := some 3 }) :=
  mdev_remove_instance_id_map_spec _ (some 1) [0, 1, 2] [3]
    ⟨rfl, by decide, rfl, by decide, rfl, by decide, rfl⟩ ⟨rfl, by decide, rfl⟩ (by decide)

theorem find_by_local_loop_eq (heap : List mapper_id_map) (local_id : Int) (l : List Nat)
    (p : Option Nat) (fuel : Nat) (h : is_list heap p l) (hfuel : l.length < fuel) :
    mdev_find_instance_id_map_by_local_loop heap local_id fuel p =
      some (l.find? fun a => decide ((node_at heap a).local_ = local_id)) := by
  induction l generalizing p fuel with
  | nil =>
    obtain ⟨f, rfl⟩ : ∃ f, fuel = f + 1 := ⟨fuel - 1, by simp at hfuel; omega⟩
    have hp : p = none := h
    subst hp
    rfl
  | cons a l ih =>
    obtain ⟨f, rfl⟩ : ∃ f, fuel = f + 1 := ⟨fuel - 1, by simp at hfuel; omega⟩
    obtain ⟨h1, _, h3⟩ := h
    subst h1
    unfold mdev_find_instance_id_map_by_local_loop
    by_cases hid : (node_at heap a).local_ = local_id
    · simp [hid]
    · rw [if_neg hid, ih _ f h3 (by simp at hfuel; omega)]
      simp [hid]

theorem find_by_global_loop_eq (heap : List mapper_id_map) (global_id : Nat) (l : List Nat)
    (p : Option Nat) (fuel : Nat) (h : is_list heap p l) (hfuel : l.length < fuel) :
    mdev_find_instance_id_map_by_global_loop heap global_id fuel p =
      some (l.find? fun a => decide ((node_at heap a).global = global_id)) := by
  induction l generalizing p fuel with
  | nil =>
    obtain ⟨f, rfl⟩ : ∃ f, fuel = f + 1 := ⟨fuel - 1, by simp at hfuel; omega⟩
    have hp : p = none := h
    subst hp
    rfl
  | cons a l ih =>
    obtain ⟨f, rfl⟩ : ∃ f, fuel = f + 1 := ⟨fuel - 1, by simp at hfuel; omega⟩
    obtain ⟨h1, _, h3⟩ := h
    subst h1
    unfold mdev_find_instance_id_map_by_global_loop
    by_cases hid : (node_at heap a).global = global_id
    · simp [hid]
    · rw [if_neg hid, ih _ f h3 (by simp at hfuel; omega)]
      simp [hid]

theorem mdev_find_instance_id_map_by_local_eq (dev : id_map_lists) (la : List Nat)
    (local_id : Int) (hact : is_list dev.heap dev.active_id_map la) :
    mdev_find_instance_id_map_by_local dev local_id =
      some (la.find? fun a => decide ((node_at dev.heap a).local_ = local_id)) :=
  find_by_local_loop_eq dev.heap local_id la _ _ hact (by
    have := is_list_length_le dev.heap la _ hact
    omega)

theorem mdev_find_instance_id_map_by_global_eq (dev : id_map_lists) (la : List Nat)
    (global_id : Nat) (hact : is_list dev.heap dev.active_id_map la) :
    mdev_find_instance_id_map_by_global dev global_id =
      some (la.find? fun a => decide ((node_at dev.heap a).global = global_id)) :=
  find_by_global_loop_eq dev.heap global_id la _ _ hact (by
    have := is_list_length_le dev.heap la _ hact
    omega)

/-- C12: on a well-formed active list `la`, `mdev_find_instance_id_map_by_local`
(resp. `_by_global`) returns the first node in list order whose `local` (resp.
`global`) field is the given id; it returns null iff no node of the active list
has that id, and every node it returns is on the active list.  Right after
`mdev_add_instance_id_map(dev, l, g)` both lookups, for `l` and for `g`, return
the node just activated. -/
theorem mdev_find_instance_id_map_spec (dev : id_map_lists) (la lr : List Nat)
    (local_id : Int) (global_id : Nat)
    (hact : is_list dev.heap dev.active_id_map la)
    (hres : is_list dev.heap dev.reserve_id_map lr)
    (hdisj : ∀ a ∈ la, a ∉ lr) :
    mdev_find_instance_id_map_by_local dev local_id =
      some (la.find? fun a => decide ((node_at dev.heap a).local_ = local_id)) ∧
    mdev_find_instance_id_map_by_global dev global_id =
      some (la.find? fun a => decide ((node_at dev.heap a).global = global_id)) ∧
    (mdev_find_instance_id_map_by_local dev local_id = some none ↔
      ∀ a ∈ la, (node_at dev.heap a).local_ ≠ local_id) ∧
    (mdev_find_instance_id_map_by_global dev global_id = some none ↔
      ∀ a ∈ la, (node_at dev.heap a).global ≠ global_id) ∧
    (∀ a, mdev_find_instance_id_map_by_local dev local_id = some (some a) →
      a ∈ la ∧ (node_at dev.heap a).local_ = local_id) ∧
    (∀ a, mdev_find_instance_id_map_by_global dev global_id = some (some a) →
      a ∈ la ∧ (node_at dev.heap a).global = global_id) ∧
    ∃ dev1 map, mdev_add_instance_id_map dev local_id global_id = some (dev1, map) ∧
      mdev_find_instance_id_map_by_local dev1 local_id = some (some map) ∧
      mdev_find_instance_id_map_by_global dev1 global_id = some (some map) := by
  have hl := mdev_find_instance_id_map_by_local_eq dev la local_id hact
  have hg := mdev_find_instance_id_map_by_global_eq dev la global_id hact
  refine ⟨hl, hg, ?_, ?_, ?_, ?_, ?_⟩
  · rw [hl]
    simp [List.find?_eq_none]
  · rw [hg]
    simp [List.find?_eq_none]
  · intro a ha
    rw [hl] at ha
    have h := Option.some.inj ha
    exact ⟨List.mem_of_find?_eq_some h, by simpa using List.find?_some h⟩
  · intro a ha
    rw [hg] at ha
    have h := Option.some.inj ha
    exact ⟨List.mem_of_find?_eq_some h, by simpa using List.find?_some h⟩
  · obtain ⟨dev1, map, h1, h2, h3, _, _, h6, _⟩ :=
      mdev_add_instance_id_map_props dev local_id global_id la lr hact hres hdisj
    refine ⟨dev1, map, h1, ?_, ?_⟩
    · rw [mdev_find_instance_id_map_by_local_eq dev1 (map :: la) local_id h6]
      simp [h2]
    · rw [mdev_find_instance_id_map_by_global_eq dev1 (map :: la) global_id h6]
      simp [h3]

/-- Witness for C12: the active list 0, 1 with local ids 3 and 5 and global ids 9
and 11, and the free-list 2. -/
theorem mdev_find_instance_id_map_spec_witness :
    mdev_find_instance_id_map_by_local
        { heap := [{ mapper_id_map.zero with local_ := 3, global := 9, next := some 1 },
                   { mapper_id_map.zero with local_ := 5, global := 11 },
                   { mapper_id_map.zero with local_ := 5, global := 11 }]
          active_id_map := some 0
          reserve_id_map := some 2 } 5 = some (some 1) ∧
    mdev_find_instance_id_map_by_global
        { heap := [{ mapper_id_map.zero with local_ := 3, global := 9, next := some 1 },
                   { mapper_id_map.zero with local_ := 5, global := 11 },
                   { mapper_id_map.zero with local_ := 5, global := 11 }]
          active_id_map := some 0
          reserve_id_map := some 2 } 11 = some (some 1) :=
  have h := mdev_find_instance_id_map_spec
    { heap := [{ mapper_id_map.zero with local_ := 3, global := 9, next := some 1 },
               { mapper_id_map.zero with local_ := 5, global := 11 },
               { mapper_id_map.zero with local_ := 5, global := 11 }]
      active_id_map := some 0
      reserve_id_map := some 2 } [0, 1] [2] 5 11
    ⟨rfl, by decide, rfl, by decide, rfl⟩ ⟨rfl, by decide, rfl⟩ (by decide)
  ⟨h.1, h.2.1⟩


/-! ### Release paths: evaluations -/

/-- C14, evaluation at the failing input: the vector `N 5` with `@instance 7` for an
entry in state `IN_RELEASED_LOCALLY` (status 1) of a signal of vector length 2.
The message has a non-null element, but the prefix scan leaves
`nulls = 2 = value_len`, so the handler treats it as a release: it clears the
node pointer of the entry, decrements `refcount_global` and removes the node
from the active list. -/
theorem handler_signal_released_locally_partial_null :
    node_summary (handler_signal example_env
        { sig := some (example_signal_status 'i' 2 1), md := some (example_device_node 0 1) }
        ['N', 'i', 's', 'h']
        [lo_arg.zero, example_int32 5, example_string "@instance", example_int64 7] 4
        example_tt) =
      some (none, 1, none, 0, 0) := by
  rfl

/-! ### Reference counts of the active nodes -/

theorem is_list_congr_next (heap heap1 : List mapper_id_map) (l : List Nat) (p : Option Nat)
    (h : is_list heap p l) (hlen : heap1.length = heap.length)
    (hnext : ∀ a, (node_at heap1 a).next = (node_at heap a).next) : is_list heap1 p l := by
  induction l generalizing p with
  | nil => exact h
  | cons a l ih =>
    obtain ⟨h1, h2, h3⟩ := h
    refine ⟨h1, by omega, ?_⟩
    rw [hnext a]
    exact ih _ h3

theorem node_at_decrement (dev : id_map_lists) (m b : Nat) :
    node_at (decrement_refcount_global dev m).heap b =
      if m = b ∧ m < dev.heap.length then
        { node_at dev.heap m with refcount_global := (node_at dev.heap m).refcount_global - 1 }
      else node_at dev.heap b := by
  simp only [decrement_refcount_global]
  exact node_at_set dev.heap m b _

theorem id_maps_nonneg_decrement (dev : id_map_lists) (m : Nat) (h : id_maps_nonneg dev)
    (hm : 1 ≤ (node_at dev.heap m).refcount_global) :
    id_maps_nonneg (decrement_refcount_global dev m) := by
  obtain ⟨la, lr, h1, h2, h3, h4⟩ := h
  have hnext : ∀ a, (node_at (decrement_refcount_global dev m).heap a).next =
      (node_at dev.heap a).next := by
    intro a
    rw [node_at_decrement]
    split_ifs with hc
    · obtain ⟨rfl, _⟩ := hc
      rfl
    · rfl
  have hlen : (decrement_refcount_global dev m).heap.length = dev.heap.length := by
    simp [decrement_refcount_global]
  refine ⟨la, lr, is_list_congr_next _ _ _ _ h1 hlen hnext,
    is_list_congr_next _ _ _ _ h2 hlen hnext, h3, ?_⟩
  intro a ha
  rw [node_at_decrement]
  split_ifs with hc
  · obtain ⟨rfl, _⟩ := hc
    exact ⟨(h4 m ha).1, by simp only; omega⟩
  · exact h4 a ha

theorem id_maps_nonneg_remove (dev : id_map_lists) (map : Option Nat)
    (h : id_maps_nonneg dev) :
    ∃ dev1, mdev_remove_instance_id_map dev map = some dev1 ∧ id_maps_nonneg dev1 := by
  obtain ⟨la, lr, h1, h2, h3, h4⟩ := h
  by_cases hmem : ∃ a, map = some a ∧ a ∈ la
  · obtain ⟨a, rfl, ha⟩ := hmem
    obtain ⟨dev1, e1, e2, e3, e4⟩ :=
      mdev_remove_instance_id_map_found dev a la lr h1 h2 h3 ha
    have hnd := is_list_nodup dev.heap la _ h1
    refine ⟨dev1, e1, la.erase a, a :: lr, e2, e3, ?_, ?_⟩
    · intro b hb
      rw [hnd.mem_erase_iff] at hb
      simp only [List.mem_cons, not_or]
      exact ⟨hb.1, h3 b hb.2⟩
    · intro b hb
      rw [hnd.mem_erase_iff] at hb
      have hf := e4 b
      have hl : (node_at dev1.heap b).refcount_local = (node_at dev.heap b).refcount_local := by
        have := congrArg mapper_id_map.refcount_local hf
        simpa using this
      have hg : (node_at dev1.heap b).refcount_global = (node_at dev.heap b).refcount_global := by
        have := congrArg mapper_id_map.refcount_global hf
        simpa using this
      rw [hl, hg]
      exact h4 b hb.2
  · have habs : ∀ a, map = some a → a ∉ la := fun a ha hm => hmem ⟨a, ha, hm⟩
    exact ⟨dev, mdev_remove_instance_id_map_absent dev map la h1 habs, la, lr, h1, h2, h3, h4⟩

theorem id_maps_nonneg_remove_if_unreferenced (dev : id_map_lists) (a : Nat)
    (h : id_maps_nonneg dev) :
    ∃ dev1, remove_if_unreferenced dev a = some dev1 ∧ id_maps_nonneg dev1 := by
  unfold remove_if_unreferenced
  split_ifs
  · exact id_maps_nonneg_remove dev (some a) h
  · exact ⟨dev, rfl, h⟩

theorem id_maps_nonneg_add (dev : id_map_lists) (local_id : Int) (global_id : Nat)
    (h : id_maps_nonneg dev) :
    ∃ dev1 map, mdev_add_instance_id_map dev local_id global_id = some (dev1, map) ∧
      id_maps_nonneg dev1 := by
  obtain ⟨la, lr, h1, h2, h3, h4⟩ := h
  obtain ⟨dev1, map, e1, _, _, e4, e5, e6, e7, e8, e9, e10⟩ :=
    mdev_add_instance_id_map_props dev local_id global_id la lr h1 h2 h3
  have hmapla : map ∉ la := by
    intro hm
    cases lr with
    | nil =>
      have := is_list_lt dev.heap la _ h1 map hm
      have := e9 rfl
      omega
    | cons c lr =>
      have hc : c = map := by simpa using e8 (by simp)
      subst hc
      exact h3 c hm (List.mem_cons_self _ _)
  refine ⟨dev1, map, e1, map :: la, lr.tail, e6, e7, ?_, ?_⟩
  · intro b hb htail
    rcases List.mem_cons.mp hb with rfl | hb
    · cases lr with
      | nil => simp at htail
      | cons c lr =>
        have hc : c = b := by simpa using e8 (by simp)
        subst hc
        have hnd := is_list_nodup dev.heap (c :: lr) _ h2
        exact (List.nodup_cons.mp hnd).1 (by simpa using htail)
    · exact h3 b hb (List.mem_of_mem_tail htail)
  · intro b hb
    rcases List.mem_cons.mp hb with rfl | hb
    · rw [e4, e5]
      decide
    · rw [e10 b (fun hbm => hmapla (hbm ▸ hb))]
      exact h4 b hb

/-! ### The outcomes of the handler -/

theorem handler_signal_some (env : Env) (w : World) (types : List Char) (argv : List lo_arg)
    (argc : Nat) (tt : mapper_timetag_t) (w1 : World) (ev : List Event)
    (h : handler_signal env w types argv argc tt = some (w1, ev)) :
    (w1 = w ∧ ev = []) ∨
    ∃ sig md p sel r, w.sig = some sig ∧ w.md = some md ∧
      parse_properties types argv argc argc (scan_values types argc 0 argc 0 0).1
        { is_instance_update := false, instance_id := 0, slot := -1 } = some p ∧
      select_map env sig md p.slot types (scan_values types argc 0 argc 0 0).1 = some sel ∧
      sel.count ≠ 0 ∧
      resolve_instance env { sig := sig, md := md } p (scan_values types argc 0 argc 0 0).2
        (scan_values types argc 0 argc 0 0).1 sel.count tt = some r ∧
      ((r.id_map_index = none ∧ w1 = { sig := some r.st.sig, md := some r.st.md } ∧
          ev = r.events) ∨
        ∃ idx l, r.id_map_index = some idx ∧
          process_samples env r.st p sel types argv (scan_values types argc 0 argc 0 0).2
            (scan_values types argc 0 argc 0 0).1 idx r.events tt = some l ∧
          w1 = { sig := some l.sig, md := some l.md } ∧ ev = l.events) := by
  unfold handler_signal at h
  cases hsig : w.sig with
  | none =>
    simp only [hsig] at h
    cases h
    exact Or.inl ⟨rfl, rfl⟩
  | some sig =>
    cases hmd : w.md with
    | none =>
      simp only [hsig, hmd] at h
      cases h
      exact Or.inl ⟨rfl, rfl⟩
    | some md =>
      simp only [hsig, hmd] at h
      by_cases hargc : argc = 0
      · rw [if_pos hargc] at h
        cases h
        exact Or.inl ⟨rfl, rfl⟩
      · rw [if_neg hargc] at h
        cases hp : parse_properties types argv argc argc (scan_values types argc 0 argc 0 0).1
            { is_instance_update := false, instance_id := 0, slot := -1 } with
        | none =>
          simp only [hp] at h
          cases h
          exact Or.inl ⟨rfl, rfl⟩
        | some p =>
          simp only [hp] at h
          cases hsel : select_map env sig md p.slot types
              (scan_values types argc 0 argc 0 0).1 with
          | none =>
            simp only [hsel] at h
            cases h
            exact Or.inl ⟨rfl, rfl⟩
          | some sel =>
            simp only [hsel] at h
            by_cases hc : sel.count = 0
            · rw [if_pos hc] at h
              cases h
              exact Or.inl ⟨rfl, rfl⟩
            · rw [if_neg hc] at h
              cases hres : resolve_instance env { sig := sig, md := md } p
                  (scan_values types argc 0 argc 0 0).2 (scan_values types argc 0 argc 0 0).1
                  sel.count tt with
              | none =>
                simp only [hres] at h
                cases h
              | some r =>
                simp only [hres] at h
                right
                refine ⟨sig, md, p, sel, r, rfl, rfl, rfl, hsel,
                  hc, hres, ?_⟩
                cases hidx : r.id_map_index with
                | none =>
                  simp only [hidx] at h
                  cases h
                  exact Or.inl ⟨rfl, rfl, rfl⟩
                | some idx =>
                  simp only [hidx] at h
                  cases hps : process_samples env r.st p sel types argv
                      (scan_values types argc 0 argc 0 0).2
                      (scan_values types argc 0 argc 0 0).1 idx r.events tt with
                  | none =>
                    simp only [hps] at h
                    cases h
                  | some l =>
                    simp only [hps] at h
                    cases h
                    exact Or.inr ⟨idx, l, rfl, hps, rfl, rfl⟩

/-! ### The device on the plain path -/

theorem call_handler_md (l l1 : Loop) (value : Option (List (Option Nat))) (count : Nat)
    (tt : mapper_timetag_t) (h : call_handler l value count tt = some l1) :
    l1.md = l.md ∧ l1.id_map = l.id_map ∧ l1.sig = l.sig := by
  unfold call_handler at h
  split_ifs at h
  · cases hm : l.id_map with
    | none =>
      rw [hm] at h
      cases h
    | some a =>
      rw [hm] at h
      cases h
      exact ⟨rfl, hm.symm ▸ rfl, rfl⟩
  · cases h
    exact ⟨rfl, rfl, rfl⟩

theorem call_route_md (env : Env) (l : Loop) (value : List (Option Nat)) (count : Nat)
    (tt : mapper_timetag_t) :
    (call_route env l value count tt).md = l.md ∧
    (call_route env l value count tt).id_map = l.id_map ∧
    (call_route env l value count tt).sig = l.sig := by
  unfold call_route
  split_ifs
  all_goals exact ⟨rfl, rfl, rfl⟩

theorem flush_out_buffer_md (env : Env) (l l1 : Loop) (tt : mapper_timetag_t)
    (h : flush_out_buffer env l tt = some l1) :
    l1.md = l.md ∧ l1.id_map = l.id_map ∧ l1.sig = l.sig := by
  unfold flush_out_buffer at h
  split_ifs at h
  · obtain ⟨h1, h2, h3⟩ := call_handler_md _ _ _ _ _ h
    obtain ⟨h4, h5, h6⟩ := call_route_md env l l.out_buffer l.out_count tt
    exact ⟨h1.trans h4, h2.trans h5, h3.trans h6⟩
  · cases h
    exact ⟨rfl, rfl, rfl⟩

theorem commit_value_md (env : Env) (l l1 : Loop) (a count size : Nat) (tt : mapper_timetag_t)
    (h : commit_value env l a count size tt = some l1) :
    l1.md = l.md ∧ l1.id_map = l.id_map := by
  unfold commit_value at h
  dsimp only at h
  generalize (if memcmp_eq (instance_at l.sig a).has_value_flags l.sig.has_complete_value
      (l.sig.props.length / 8 + 1) = true then
    ({ instance_at l.sig a with has_value := true } : mapper_signal_instance)
    else instance_at l.sig a) = si1 at h
  by_cases hv : si1.has_value = true
  · rw [if_pos hv] at h
    by_cases hc : count > 1
    · rw [if_pos hc] at h
      cases h
      exact ⟨rfl, rfl⟩
    · rw [if_neg hc] at h
      obtain ⟨h1, h2, _⟩ := call_handler_md _ _ _ _ _ h
      exact ⟨h1.trans (call_route_md _ _ _ _ _).1, h2.trans (call_route_md _ _ _ _ _).2.1⟩
  · rw [if_neg hv] at h
    cases h
    exact ⟨rfl, rfl⟩

theorem release_remotely_md (env : Env) (l l1 : Loop) (tt : mapper_timetag_t)
    (h : release_remotely env l false tt = some l1) :
    ∃ a, l.id_map = some a ∧
      l1.md = { l.md with id_map := decrement_refcount_global l.md.id_map a } := by
  unfold release_remotely at h
  dsimp only at h
  cases hm : l.id_map with
  | none =>
    rw [hm] at h
    cases h
  | some a =>
    rw [hm] at h
    simp only [Bool.false_eq_true, if_false] at h
    split_ifs at h
    all_goals
      cases h
      exact ⟨a, rfl, rfl⟩

theorem plain_sample_md (env : Env) (p : Properties) (types : List Char) (argv : List lo_arg)
    (count size : Nat) (tt : mapper_timetag_t) (l : Loop) (s : Step)
    (h : plain_sample env p types argv count size tt l = some s) :
    (∃ l1, s = Step.next l1 ∧ l1.md = l.md ∧ l1.id_map = l.id_map) ∨
    (∃ l1, s = Step.ret l1 ∧ (l1.md = l.md ∨ ∃ a, l.id_map = some a ∧
      l1.md = { l.md with id_map := decrement_refcount_global l.md.id_map a })) := by
  unfold plain_sample at h
  dsimp only at h
  have key : ∀ (l1 : Loop) (vals : Nat), l1.md = l.md → l1.id_map = l.id_map →
      (match (some (l1, vals) : Option (Loop × Nat)) with
        | none => none
        | some (l1, vals) =>
          if vals = 0 then
            if count > 1 then some (Step.ret l1)
            else
              match (if p.is_instance_update then release_remotely env l1 false tt
                  else some l1) with
              | none => none
              | some l2 => (call_handler l2 none 1 tt).map Step.ret
          else
            match l1.si with
            | none => none
            | some a => (commit_value env l1 a count size tt).map Step.next) = some s →
      (∃ l1, s = Step.next l1 ∧ l1.md = l.md ∧ l1.id_map = l.id_map) ∨
      (∃ l1, s = Step.ret l1 ∧ (l1.md = l.md ∨ ∃ a, l.id_map = some a ∧
        l1.md = { l.md with id_map := decrement_refcount_global l.md.id_map a })) := by
    intro l1 vals hmd hid h
    dsimp only at h
    by_cases hv : vals = 0
    · rw [if_pos hv] at h
      by_cases hc : count > 1
      · rw [if_pos hc] at h
        cases h
        exact Or.inr ⟨l1, rfl, Or.inl hmd⟩
      · rw [if_neg hc] at h
        by_cases hi : p.is_instance_update = true
        · rw [if_pos hi] at h
          cases hr : release_remotely env l1 false tt with
          | none =>
            rw [hr] at h
            cases h
          | some l2 =>
            rw [hr] at h
            dsimp only at h
            cases hh : call_handler l2 none 1 tt with
            | none =>
              rw [hh] at h
              cases h
            | some l3 =>
              rw [hh] at h
              cases h
              obtain ⟨a, ha, hmd2⟩ := release_remotely_md env l1 l2 tt hr
              obtain ⟨h1, _, _⟩ := call_handler_md _ _ _ _ _ hh
              refine Or.inr ⟨l3, rfl, Or.inr ⟨a, hid ▸ ha, ?_⟩⟩
              rw [h1, hmd2, hmd]
        · rw [if_neg hi] at h
          dsimp only at h
          cases hh : call_handler l1 none 1 tt with
          | none =>
            rw [hh] at h
            cases h
          | some l3 =>
            rw [hh] at h
            cases h
            obtain ⟨h1, _, _⟩ := call_handler_md _ _ _ _ _ hh
            exact Or.inr ⟨l3, rfl, Or.inl (h1.trans hmd)⟩
    · rw [if_neg hv] at h
      cases hsi : l1.si with
      | none =>
        rw [hsi] at h
        cases h
      | some a =>
        rw [hsi] at h
        dsimp only at h
        cases hcv : commit_value env l1 a count size tt with
        | none =>
          rw [hcv] at h
          cases h
        | some l2 =>
          rw [hcv] at h
          cases h
          obtain ⟨h1, h2⟩ := commit_value_md _ _ _ _ _ _ _ hcv
          exact Or.inl ⟨l2, rfl, h1.trans hmd, h2.trans hid⟩
  cases hsi : l.si with
  | none =>
    rw [hsi] at h
    dsimp only at h
    by_cases hcv : count_vals types l.k l.sig.props.length = 0
    · rw [if_pos hcv] at h
      refine key _ _ ?_ ?_ h <;> rfl
    · rw [if_neg hcv] at h
      cases h
  | some a =>
    rw [hsi] at h
    dsimp only at h
    refine key _ _ ?_ ?_ h <;> rfl

theorem plain_loop_md (env : Env) (p : Properties) (types : List Char) (argv : List lo_arg)
    (count size : Nat) (tt : mapper_timetag_t) (n : Nat) (l : Loop) (s : Step)
    (h : plain_loop env p types argv count size tt n l = some s) :
    (∃ l1, s = Step.next l1 ∧ l1.md = l.md ∧ l1.id_map = l.id_map) ∨
    (∃ l1, s = Step.ret l1 ∧ (l1.md = l.md ∨ ∃ a, l.id_map = some a ∧
      l1.md = { l.md with id_map := decrement_refcount_global l.md.id_map a })) := by
  induction n generalizing l with
  | zero =>
    simp only [plain_loop] at h
    cases h
    exact Or.inl ⟨l, rfl, rfl, rfl⟩
  | succ n ih =>
    simp only [plain_loop] at h
    cases hs : plain_sample env p types argv count size tt l with
    | none =>
      rw [hs] at h
      cases h
    | some s1 =>
      rw [hs] at h
      rcases plain_sample_md env p types argv count size tt l s1 hs with
        ⟨l1, rfl, h1, h2⟩ | ⟨l1, rfl, h1⟩
      · dsimp only at h
        rcases ih l1 h with ⟨l2, rfl, h3, h4⟩ | ⟨l2, rfl, h3⟩
        · exact Or.inl ⟨l2, rfl, h3.trans h1, h4.trans h2⟩
        · refine Or.inr ⟨l2, rfl, ?_⟩
          rcases h3 with h3 | ⟨a, ha, h3⟩
          · exact Or.inl (h3.trans h1)
          · refine Or.inr ⟨a, h2 ▸ ha, ?_⟩
            rw [h3, h1]
      · dsimp only at h
        cases h
        exact Or.inr ⟨l1, rfl, h1⟩

theorem process_samples_plain_md (env : Env) (st : State) (p : Properties) (sel : Selected)
    (types : List Char) (argv : List lo_arg) (nulls value_len : Nat) (idx : Int)
    (events : List Event) (tt : mapper_timetag_t) (l : Loop) (hmap : sel.map = none)
    (h : process_samples env st p sel types argv nulls value_len idx events tt = some l) :
    l.md = st.md ∨ ∃ a, (id_map_entry st.sig idx).map = some a ∧
      l.md = { st.md with id_map := decrement_refcount_global st.md.id_map a } := by
  unfold process_samples at h
  simp only [hmap] at h
  split at h
  · cases h
  · next l1 hl =>
    cases h
    rcases plain_loop_md _ _ _ _ _ _ _ _ _ _ hl with ⟨l2, h1, _⟩ | ⟨l2, h1, h2⟩
    · cases h1
    · cases h1
      exact h2
  · next l1 hl =>
    rcases plain_loop_md _ _ _ _ _ _ _ _ _ _ hl with ⟨l2, h1, h2, _⟩ | ⟨l2, h1, _⟩
    · cases h1
      obtain ⟨h3, _, _⟩ := flush_out_buffer_md env _ _ tt h
      exact Or.inl (h3.trans h2)
    · cases h1

/-! ### The device on the map path, for a single sample -/

theorem release_remotely_removed (env : Env) (l l1 : Loop) (tt : mapper_timetag_t)
    (h : release_remotely env l true tt = some l1) :
    ∃ a dev2, l.id_map = some a ∧
      remove_if_unreferenced (decrement_refcount_global l.md.id_map a) a = some dev2 ∧
      l1.md.id_map = dev2 := by
  unfold release_remotely at h
  dsimp only at h
  cases hm : l.id_map with
  | none =>
    rw [hm] at h
    cases h
  | some a =>
    rw [hm] at h
    simp only [if_true] at h
    cases hr : remove_if_unreferenced (decrement_refcount_global l.md.id_map a) a with
    | none =>
      rw [hr] at h
      cases h
    | some dev2 =>
      rw [hr] at h
      dsimp only at h
      split_ifs at h
      all_goals
        cases h
        exact ⟨a, dev2, rfl, hr, rfl⟩

theorem evaluate_sample_id_map (env : Env) (p : Properties) (count size : Nat)
    (tt : mapper_timetag_t) (map a : Nat) (l : Loop) (s : Step)
    (h : evaluate_sample env p count size tt map a l = some s) :
    ∃ l1, (s = Step.next l1 ∨ s = Step.ret l1) ∧
      (l1.md.id_map = l.md.id_map ∨ ∃ m, l.id_map = some m ∧
        l1.md.id_map = decrement_refcount_global l.md.id_map m) := by
  unfold evaluate_sample at h
  lift_lets at h
  extract_lets idx m sources r router1 src1 m1 router2 src2 l1 b router3 src3 l2 dest result e
    l3 at h
  by_cases h1 : r.1 = 0
  · rw [if_pos h1] at h
    cases h
    exact ⟨_, Or.inl rfl, Or.inl rfl⟩
  rw [if_neg h1] at h
  by_cases h2 : b.1 ≠ 0
  · rw [if_pos h2] at h
    cases h
    exact ⟨_, Or.inl rfl, Or.inl rfl⟩
  rw [if_neg h2] at h
  by_cases h3 : e.2 = 0
  · rw [if_pos h3] at h
    have hl4 : ∀ l4, (if l3.out_count ≠ 0 then
          (flush_out_buffer env l3 tt).map fun x => { x with out_count := 0 }
        else some l3) = some l4 → l4.md.id_map = l.md.id_map ∧ l4.id_map = l.id_map := by
      intro l4 h4
      by_cases hc : l3.out_count ≠ 0
      · rw [if_pos hc] at h4
        obtain ⟨x, hx, rfl⟩ := Option.map_eq_some'.mp h4
        obtain ⟨e1, e2, _⟩ := flush_out_buffer_md env l3 x tt hx
        refine ⟨?_, e2⟩
        show x.md.id_map = l.md.id_map
        rw [e1]
      · rw [if_neg hc] at h4
        cases h4
        exact ⟨rfl, rfl⟩
    cases hf : (if l3.out_count ≠ 0 then
          (flush_out_buffer env l3 tt).map fun x => { x with out_count := 0 }
        else some l3) with
    | none =>
      rw [hf] at h
      cases h
    | some l4 =>
      rw [hf] at h
      dsimp only at h
      obtain ⟨e4, e5⟩ := hl4 l4 hf
      cases hr : (if p.is_instance_update = true then release_remotely env l4 false tt
          else some l4) with
      | none =>
        rw [hr] at h
        cases h
      | some l5 =>
        rw [hr] at h
        dsimp only at h
        obtain ⟨x, hx, rfl⟩ := Option.map_eq_some'.mp h
        refine ⟨_, Or.inl rfl, ?_⟩
        have hx1 := (call_handler_md _ _ _ _ _ hx).1
        show x.md.id_map = l.md.id_map ∨ _
        rw [hx1]
        by_cases hi : p.is_instance_update = true
        · rw [if_pos hi] at hr
          obtain ⟨m0, hm0, hmd⟩ := release_remotely_md env l4 l5 tt hr
          refine Or.inr ⟨m0, e5 ▸ hm0, ?_⟩
          rw [hmd]
          show decrement_refcount_global l4.md.id_map m0 = _
          rw [e4]
        · rw [if_neg hi] at hr
          cases hr
          exact Or.inl e4
  · rw [if_neg h3] at h
    obtain ⟨x, hx, rfl⟩ := Option.map_eq_some'.mp h
    obtain ⟨e1, _⟩ := commit_value_md env l3 x a count size tt hx
    refine ⟨x, Or.inl rfl, Or.inl ?_⟩
    rw [e1]

theorem map_sample_id_map (env : Env) (p : Properties) (types : List Char)
    (argv : List lo_arg) (nulls value_len count size : Nat) (tt : mapper_timetag_t)
    (map s i : Nat) (l : Loop) (st : Step) (hactive : l.active = true)
    (h : map_sample env p types argv nulls value_len count size tt map s i l = some st) :
    ∃ l1, (st = Step.next l1 ∨ st = Step.ret l1) ∧
      (l1.md.id_map = l.md.id_map ∨ ∃ m, l.id_map = some m ∧
        (l1.md.id_map = decrement_refcount_global l.md.id_map m ∨
          remove_if_unreferenced (decrement_refcount_global l.md.id_map m) m =
            some l1.md.id_map)) := by
  unfold map_sample at h
  lift_lets at h
  extract_lets len vals l0 resolved at h
  by_cases hv : vals = 0
  · rw [if_pos hv] at h
    by_cases hc : count > 1
    · rw [if_pos hc] at h
      cases h
      exact ⟨_, Or.inr rfl, Or.inl rfl⟩
    · rw [if_neg hc] at h
      cases hr : (if p.is_instance_update = true then release_remotely env l0 true tt
          else some l0) with
      | none =>
        rw [hr] at h
        cases h
      | some l1 =>
        rw [hr] at h
        dsimp only at h
        obtain ⟨x, hx, rfl⟩ := Option.map_eq_some'.mp h
        refine ⟨x, Or.inl rfl, ?_⟩
        rw [(call_handler_md _ _ _ _ _ hx).1]
        by_cases hi : p.is_instance_update = true
        · rw [if_pos hi] at hr
          obtain ⟨m0, dev2, hm0, hrem, hmd⟩ := release_remotely_removed env l0 l1 tt hr
          exact Or.inr ⟨m0, hm0, Or.inr (hmd ▸ hrem)⟩
        · rw [if_neg hi] at hr
          cases hr
          exact Or.inl rfl
  rw [if_neg hv] at h
  by_cases hv2 : vals ≠ len
  · rw [if_pos hv2] at h
    cases h
    exact ⟨_, Or.inr rfl, Or.inl rfl⟩
  rw [if_neg hv2] at h
  have ha : ¬ (p.is_instance_update = true ∧ l0.active = false) := by
    rintro ⟨_, h2⟩
    have : l.active = false := h2
    rw [hactive] at this
    cases this
  have e : resolved = Sum.inl l0 := if_neg ha
  rw [e] at h
  dsimp only at h
  cases hsi : l0.si with
  | none =>
    rw [hsi] at h
    cases h
  | some a =>
    rw [hsi] at h
    dsimp only at h
    split_ifs at h
    · obtain ⟨l1, hl1, hm⟩ := evaluate_sample_id_map env p count size tt map a _ st h
      refine ⟨l1, hl1, ?_⟩
      rcases hm with hm | ⟨m0, hm0, hm⟩
      · exact Or.inl hm
      · exact Or.inr ⟨m0, hm0, Or.inl hm⟩
    · cases h
      exact ⟨_, Or.inl rfl, Or.inl rfl⟩

theorem process_samples_single_id_map (env : Env) (st : State) (p : Properties)
    (sel : Selected) (types : List Char) (argv : List lo_arg) (nulls value_len : Nat)
    (idx : Int) (events : List Event) (tt : mapper_timetag_t) (l : Loop)
    (hcount : sel.count = 1) (hmap : sel.map ≠ none)
    (h : process_samples env st p sel types argv nulls value_len idx events tt = some l) :
    l.md.id_map = st.md.id_map ∨ ∃ m, (id_map_entry st.sig idx).map = some m ∧
      (l.md.id_map = decrement_refcount_global st.md.id_map m ∨
        remove_if_unreferenced (decrement_refcount_global st.md.id_map m) m =
          some l.md.id_map) := by
  unfold process_samples at h
  lift_lets at h
  extract_lets size l0 looped at h
  cases hm : sel.map with
  | none => exact absurd hm hmap
  | some map =>
    cases hs : sel.s with
    | none =>
      have e : looped = none := by
        show (match sel.map, sel.s with
          | some map, some s =>
            map_loop env p types argv nulls value_len sel.count size tt map s sel.count 0 l0
          | some _, none => none
          | none, _ => plain_loop env p types argv sel.count size tt sel.count l0) = _
        rw [hm, hs]
      rw [e] at h
      cases h
    | some s =>
      have e : looped =
          map_loop env p types argv nulls value_len 1 size tt map s 1 0 l0 := by
        show (match sel.map, sel.s with
          | some map, some s =>
            map_loop env p types argv nulls value_len sel.count size tt map s sel.count 0 l0
          | some _, none => none
          | none, _ => plain_loop env p types argv sel.count size tt sel.count l0) = _
        rw [hm, hs, hcount]
      rw [e] at h
      simp only [map_loop] at h
      cases hms : map_sample env p types argv nulls value_len 1 size tt map s 0 l0 with
      | none =>
        rw [hms] at h
        cases h
      | some s1 =>
        rw [hms] at h
        obtain ⟨l1, hl1, hid⟩ := map_sample_id_map env p types argv nulls value_len 1 size tt
          map s 0 l0 s1 rfl hms
        rcases hl1 with rfl | rfl
        · dsimp only at h
          obtain ⟨e1, _, _⟩ := flush_out_buffer_md env l1 l tt h
          rw [e1]
          exact hid
        · dsimp only at h
          cases h
          exact hid

/-! ### Messages without an instance id -/

theorem plain_sample_local (env : Env) (p : Properties) (types : List Char) (argv : List lo_arg)
    (count size : Nat) (tt : mapper_timetag_t) (l : Loop) (s : Step)
    (hi : p.is_instance_update = false)
    (h : plain_sample env p types argv count size tt l = some s) :
    ∃ l1, (s = Step.next l1 ∨ s = Step.ret l1) ∧ l1.md = l.md := by
  unfold plain_sample at h
  dsimp only at h
  have key : ∀ (l1 : Loop) (vals : Nat), l1.md = l.md →
      (match (some (l1, vals) : Option (Loop × Nat)) with
        | none => none
        | some (l1, vals) =>
          if vals = 0 then
            if count > 1 then some (Step.ret l1)
            else
              match (if p.is_instance_update then release_remotely env l1 false tt
                  else some l1) with
              | none => none
              | some l2 => (call_handler l2 none 1 tt).map Step.ret
          else
            match l1.si with
            | none => none
            | some a => (commit_value env l1 a count size tt).map Step.next) = some s →
      ∃ l1, (s = Step.next l1 ∨ s = Step.ret l1) ∧ l1.md = l.md := by
    intro l1 vals hmd h
    dsimp only at h
    by_cases hv : vals = 0
    · rw [if_pos hv] at h
      by_cases hc : count > 1
      · rw [if_pos hc] at h
        cases h
        exact ⟨l1, Or.inr rfl, hmd⟩
      · rw [if_neg hc] at h
        have hn : ¬ (p.is_instance_update = true) := by simp [hi]
        rw [if_neg hn] at h
        dsimp only at h
        obtain ⟨x, hx, rfl⟩ := Option.map_eq_some'.mp h
        exact ⟨x, Or.inr rfl, (call_handler_md _ _ _ _ _ hx).1.trans hmd⟩
    · rw [if_neg hv] at h
      cases hsi : l1.si with
      | none =>
        rw [hsi] at h
        cases h
      | some a =>
        rw [hsi] at h
        dsimp only at h
        obtain ⟨x, hx, rfl⟩ := Option.map_eq_some'.mp h
        exact ⟨x, Or.inl rfl, (commit_value_md _ _ _ _ _ _ _ hx).1.trans hmd⟩
  cases hsi : l.si with
  | none =>
    rw [hsi] at h
    dsimp only at h
    by_cases hcv : count_vals types l.k l.sig.props.length = 0
    · rw [if_pos hcv] at h
      refine key _ _ ?_ h
      rfl
    · rw [if_neg hcv] at h
      cases h
  | some a =>
    rw [hsi] at h
    dsimp only at h
    refine key _ _ ?_ h
    rfl

theorem plain_loop_local (env : Env) (p : Properties) (types : List Char) (argv : List lo_arg)
    (count size : Nat) (tt : mapper_timetag_t) (n : Nat) (l : Loop) (s : Step)
    (hi : p.is_instance_update = false)
    (h : plain_loop env p types argv count size tt n l = some s) :
    ∃ l1, (s = Step.next l1 ∨ s = Step.ret l1) ∧ l1.md = l.md := by
  induction n generalizing l with
  | zero =>
    simp only [plain_loop] at h
    cases h
    exact ⟨l, Or.inl rfl, rfl⟩
  | succ n ih =>
    simp only [plain_loop] at h
    cases hs : plain_sample env p types argv count size tt l with
    | none =>
      rw [hs] at h
      cases h
    | some s1 =>
      rw [hs] at h
      obtain ⟨l1, hl1, h1⟩ := plain_sample_local env p types argv count size tt l s1 hi hs
      rcases hl1 with rfl | rfl
      · dsimp only at h
        obtain ⟨l2, hl2, h2⟩ := ih l1 h
        exact ⟨l2, hl2, h2.trans h1⟩
      · dsimp only at h
        cases h
        exact ⟨l1, Or.inr rfl, h1⟩

theorem evaluate_sample_local (env : Env) (p : Properties) (count size : Nat)
    (tt : mapper_timetag_t) (map a : Nat) (l : Loop) (s : Step)
    (hi : p.is_instance_update = false)
    (h : evaluate_sample env p count size tt map a l = some s) :
    ∃ l1, (s = Step.next l1 ∨ s = Step.ret l1) ∧ l1.md.id_map = l.md.id_map := by
  unfold evaluate_sample at h
  lift_lets at h
  extract_lets idx m sources r router1 src1 m1 router2 src2 l1 b router3 src3 l2 dest result e
    l3 at h
  by_cases h1 : r.1 = 0
  · rw [if_pos h1] at h
    cases h
    exact ⟨_, Or.inl rfl, rfl⟩
  rw [if_neg h1] at h
  by_cases h2 : b.1 ≠ 0
  · rw [if_pos h2] at h
    cases h
    exact ⟨_, Or.inl rfl, rfl⟩
  rw [if_neg h2] at h
  by_cases h3 : e.2 = 0
  · rw [if_pos h3] at h
    have hl4 : ∀ l4, (if l3.out_count ≠ 0 then
          (flush_out_buffer env l3 tt).map fun x => { x with out_count := 0 }
        else some l3) = some l4 → l4.md.id_map = l.md.id_map := by
      intro l4 h4
      by_cases hc : l3.out_count ≠ 0
      · rw [if_pos hc] at h4
        obtain ⟨x, hx, rfl⟩ := Option.map_eq_some'.mp h4
        obtain ⟨e1, _, _⟩ := flush_out_buffer_md env l3 x tt hx
        show x.md.id_map = l.md.id_map
        rw [e1]
      · rw [if_neg hc] at h4
        cases h4
        rfl
    cases hf : (if l3.out_count ≠ 0 then
          (flush_out_buffer env l3 tt).map fun x => { x with out_count := 0 }
        else some l3) with
    | none =>
      rw [hf] at h
      cases h
    | some l4 =>
      rw [hf] at h
      dsimp only at h
      have e4 := hl4 l4 hf
      have hn : ¬ (p.is_instance_update = true) := by simp [hi]
      rw [if_neg hn] at h
      dsimp only at h
      obtain ⟨x, hx, rfl⟩ := Option.map_eq_some'.mp h
      refine ⟨_, Or.inl rfl, ?_⟩
      have hx1 := (call_handler_md _ _ _ _ _ hx).1
      show x.md.id_map = l.md.id_map
      rw [hx1]
      exact e4
  · rw [if_neg h3] at h
    obtain ⟨x, hx, rfl⟩ := Option.map_eq_some'.mp h
    obtain ⟨e1, _⟩ := commit_value_md env l3 x a count size tt hx
    refine ⟨x, Or.inl rfl, ?_⟩
    rw [e1]

theorem map_sample_local (env : Env) (p : Properties) (types : List Char)
    (argv : List lo_arg) (nulls value_len count size : Nat) (tt : mapper_timetag_t)
    (map s i : Nat) (l : Loop) (st : Step) (hi : p.is_instance_update = false)
    (h : map_sample env p types argv nulls value_len count size tt map s i l = some st) :
    ∃ l1, (st = Step.next l1 ∨ st = Step.ret l1) ∧ l1.md.id_map = l.md.id_map := by
  unfold map_sample at h
  lift_lets at h
  extract_lets len vals l0 resolved at h
  have hn : ¬ (p.is_instance_update = true) := by simp [hi]
  by_cases hv : vals = 0
  · rw [if_pos hv] at h
    by_cases hc : count > 1
    · rw [if_pos hc] at h
      cases h
      exact ⟨_, Or.inr rfl, rfl⟩
    · rw [if_neg hc, if_neg hn] at h
      dsimp only at h
      obtain ⟨x, hx, rfl⟩ := Option.map_eq_some'.mp h
      refine ⟨x, Or.inl rfl, ?_⟩
      rw [(call_handler_md _ _ _ _ _ hx).1]
  rw [if_neg hv] at h
  by_cases hv2 : vals ≠ len
  · rw [if_pos hv2] at h
    cases h
    exact ⟨_, Or.inr rfl, rfl⟩
  rw [if_neg hv2] at h
  have ha : ¬ (p.is_instance_update = true ∧ l0.active = false) := fun hx => hn hx.1
  have e : resolved = Sum.inl l0 := if_neg ha
  rw [e] at h
  dsimp only at h
  cases hsi : l0.si with
  | none =>
    rw [hsi] at h
    cases h
  | some a =>
    rw [hsi] at h
    dsimp only at h
    split_ifs at h
    · obtain ⟨l1, hl1, hm⟩ := evaluate_sample_local env p count size tt map a _ st hi h
      exact ⟨l1, hl1, hm⟩
    · cases h
      exact ⟨_, Or.inl rfl, rfl⟩

theorem map_loop_local (env : Env) (p : Properties) (types : List Char) (argv : List lo_arg)
    (nulls value_len count size : Nat) (tt : mapper_timetag_t) (map s : Nat) (n i : Nat)
    (l : Loop) (st : Step) (hi : p.is_instance_update = false)
    (h : map_loop env p types argv nulls value_len count size tt map s n i l = some st) :
    ∃ l1, (st = Step.next l1 ∨ st = Step.ret l1) ∧ l1.md.id_map = l.md.id_map := by
  induction n generalizing i l with
  | zero =>
    simp only [map_loop] at h
    cases h
    exact ⟨l, Or.inl rfl, rfl⟩
  | succ n ih =>
    simp only [map_loop] at h
    cases hs : map_sample env p types argv nulls value_len count size tt map s i l with
    | none =>
      rw [hs] at h
      cases h
    | some s1 =>
      rw [hs] at h
      obtain ⟨l1, hl1, h1⟩ :=
        map_sample_local env p types argv nulls value_len count size tt map s i l s1 hi hs
      rcases hl1 with rfl | rfl
      · dsimp only at h
        obtain ⟨l2, hl2, h2⟩ := ih (i + 1) l1 h
        exact ⟨l2, hl2, h2.trans h1⟩
      · dsimp only at h
        cases h
        exact ⟨l1, Or.inr rfl, h1⟩

theorem process_samples_local (env : Env) (st : State) (p : Properties) (sel : Selected)
    (types : List Char) (argv : List lo_arg) (nulls value_len : Nat) (idx : Int)
    (events : List Event) (tt : mapper_timetag_t) (l : Loop)
    (hi : p.is_instance_update = false)
    (h : process_samples env st p sel types argv nulls value_len idx events tt = some l) :
    l.md.id_map = st.md.id_map := by
  unfold process_samples at h
  lift_lets at h
  extract_lets size l0 looped at h
  have hloop : ∀ s1, looped = some s1 →
      ∃ l1, (s1 = Step.next l1 ∨ s1 = Step.ret l1) ∧ l1.md.id_map = st.md.id_map := by
    intro s1 hs1
    cases hm : sel.map with
    | none =>
      have e : looped = plain_loop env p types argv sel.count size tt sel.count l0 := by
        show (match sel.map, sel.s with
          | some map, some s =>
            map_loop env p types argv nulls value_len sel.count size tt map s sel.count 0 l0
          | some _, none => none
          | none, _ => plain_loop env p types argv sel.count size tt sel.count l0) = _
        rw [hm]
      rw [e] at hs1
      obtain ⟨l1, hl1, h1⟩ := plain_loop_local env p types argv sel.count size tt sel.count l0
        s1 hi hs1
      exact ⟨l1, hl1, by rw [h1]⟩
    | some map =>
      cases hs : sel.s with
      | none =>
        have e : looped = none := by
          show (match sel.map, sel.s with
            | some map, some s =>
              map_loop env p types argv nulls value_len sel.count size tt map s sel.count 0 l0
            | some _, none => none
            | none, _ => plain_loop env p types argv sel.count size tt sel.count l0) = _
          rw [hm, hs]
        rw [e] at hs1
        cases hs1
      | some s =>
        have e : looped =
            map_loop env p types argv nulls value_len sel.count size tt map s sel.count 0
              l0 := by
          show (match sel.map, sel.s with
            | some map, some s =>
              map_loop env p types argv nulls value_len sel.count size tt map s sel.count 0 l0
            | some _, none => none
            | none, _ => plain_loop env p types argv sel.count size tt sel.count l0) = _
          rw [hm, hs]
        rw [e] at hs1
        exact map_loop_local env p types argv nulls value_len sel.count size tt map s
          sel.count 0 l0 s1 hi hs1
  cases hl : looped with
  | none =>
    rw [hl] at h
    cases h
  | some s1 =>
    rw [hl] at h
    obtain ⟨l1, hl1, h1⟩ := hloop s1 hl
    rcases hl1 with rfl | rfl
    · dsimp only at h
      obtain ⟨e1, _, _⟩ := flush_out_buffer_md env l1 l tt h
      rw [e1]
      exact h1
    · dsimp only at h
      cases h
      exact h1

theorem find_or_activate_found (env : Env) (st : State) (instance_id mask : Nat)
    (nulls value_len count : Nat) (tt : mapper_timetag_t) (idx : Int)
    (h : find_or_activate env st instance_id mask nulls value_len count tt = Sum.inr idx) :
    idx = env.msig_find_instance_with_global_id st instance_id mask ∧ 0 ≤ idx := by
  unfold find_or_activate at h
  simp only at h
  split_ifs at h with h1
  cases h
  exact ⟨rfl, by omega⟩

theorem resolve_instance_keeps_nonneg (env : Env) (st : State) (p : Properties)
    (nulls value_len count : Nat) (tt : mapper_timetag_t) (r : Resolved)
    (hglobal : ∀ st1 g f t, id_maps_nonneg st1.md.id_map →
      id_maps_nonneg (env.msig_get_instance_with_global_id st1 g f t).1.md.id_map)
    (hlocal : ∀ st1 i f t, id_maps_nonneg st1.md.id_map →
      id_maps_nonneg (env.msig_get_instance_with_local_id st1 i f t).1.md.id_map)
    (hclaimed : p.is_instance_update = true →
      ∀ m, 0 ≤ env.msig_find_instance_with_global_id st p.instance_id env.IN_RELEASED_LOCALLY →
        (id_map_entry st.sig (env.msig_find_instance_with_global_id st p.instance_id
          env.IN_RELEASED_LOCALLY)).map = some m →
        1 ≤ (node_at st.md.id_map.heap m).refcount_global)
    (hn : id_maps_nonneg st.md.id_map)
    (h : resolve_instance env st p nulls value_len count tt = some r) :
    id_maps_nonneg r.st.md.id_map := by
  unfold resolve_instance at h
  by_cases hi : p.is_instance_update = true
  · rw [if_pos hi] at h
    cases hf : find_or_activate env st p.instance_id env.IN_RELEASED_LOCALLY nulls value_len
        count tt with
    | inl r1 =>
      rw [hf] at h
      cases h
      unfold find_or_activate at hf
      simp only at hf
      split_ifs at hf
      all_goals cases hf
      · exact hn
      · exact hglobal st _ _ _ hn
      · exact hglobal st _ _ _ hn
    | inr idx =>
      rw [hf] at h
      obtain ⟨hidx, hpos⟩ := find_or_activate_found _ _ _ _ _ _ _ _ _ hf
      simp only at h
      split_ifs at h
      · cases hm : (id_map_entry st.sig idx).map with
        | none =>
          rw [hm] at h
          cases h
        | some a =>
          rw [hm] at h
          simp only at h
          have hc : 1 ≤ (node_at st.md.id_map.heap a).refcount_global := by
            apply hclaimed hi a
            · rw [← hidx]
              exact hpos
            · rw [← hidx]
              exact hm
          obtain ⟨d, hd, hd2⟩ := id_maps_nonneg_remove_if_unreferenced _ a
            (id_maps_nonneg_decrement st.md.id_map a hn hc)
          rw [hd] at h
          cases h
          exact hd2
      all_goals
        cases h
        exact hn
  · rw [if_neg hi] at h
    dsimp only at h
    split_ifs at h
    all_goals cases h
    · exact hlocal st _ _ _ hn
    · exact hlocal st _ _ _ hn
    · exact hn

/-! ### Reference counts stay non-negative -/

/-- C15 (amended): the invariant "the active and the reserve list are well formed
and every node of the active list has `refcount_local ≥ 0` and
`refcount_global ≥ 0`" is kept by `mdev_add_instance_id_map` and by
`mdev_remove_instance_id_map`, which both return.  `handler_signal` keeps it,
whenever it returns, for every message without `@instance`, and for a message
with `@instance` that is handled on the plain path or has a single sample and
addresses a node that a peer has claimed (`refcount_global ≥ 1`); the two
activation functions are taken to keep the invariant. -/
theorem id_maps_nonneg_preserved :
    (∀ (dev : id_map_lists) (local_id : Int) (global_id : Nat), id_maps_nonneg dev →
      ∃ dev1 map, mdev_add_instance_id_map dev local_id global_id = some (dev1, map) ∧
        id_maps_nonneg dev1) ∧
    (∀ (dev : id_map_lists) (map : Option Nat), id_maps_nonneg dev →
      ∃ dev1, mdev_remove_instance_id_map dev map = some dev1 ∧ id_maps_nonneg dev1) ∧
    (∀ (env : Env) (sig : mapper_signal) (md : mapper_device) (types : List Char)
      (argv : List lo_arg) (argc : Nat) (tt : mapper_timetag_t) (w1 : World) (ev : List Event)
      (md1 : mapper_device),
      (∀ st g f t, id_maps_nonneg st.md.id_map →
        id_maps_nonneg (env.msig_get_instance_with_global_id st g f t).1.md.id_map) →
      (∀ st i f t, id_maps_nonneg st.md.id_map →
        id_maps_nonneg (env.msig_get_instance_with_local_id st i f t).1.md.id_map) →
      (∀ p sel,
        parse_properties types argv argc argc (scan_values types argc 0 argc 0 0).1
          { is_instance_update := false, instance_id := 0, slot := -1 } = some p →
        select_map env sig md p.slot types (scan_values types argc 0 argc 0 0).1 = some sel →
        p.is_instance_update = true →
        (sel.map = none ∨ sel.count = 1) ∧
        addressed_node_claimed env { sig := sig, md := md } p
          (scan_values types argc 0 argc 0 0).2 (scan_values types argc 0 argc 0 0).1
          sel.count tt) →
      id_maps_nonneg md.id_map →
      handler_signal env { sig := some sig, md := some md } types argv argc tt = some (w1, ev) →
      w1.md = some md1 → id_maps_nonneg md1.id_map) := by
  refine ⟨id_maps_nonneg_add, id_maps_nonneg_remove, ?_⟩
  intro env sig md types argv argc tt w1 ev md1 hglobal hlocal hmsg hn h hmd1
  rcases handler_signal_some env _ types argv argc tt w1 ev h with
    ⟨rfl, _⟩ | ⟨sig0, md0, p, sel, r, hs, hm, hp, hsel, _, hres, hrest⟩
  · cases hmd1
    exact hn
  · cases hs
    cases hm
    have hn1 : id_maps_nonneg r.st.md.id_map :=
      resolve_instance_keeps_nonneg env _ p _ _ _ tt r hglobal hlocal
        (fun hi => (hmsg p sel hp hsel hi).2.1) hn hres
    rcases hrest with ⟨_, rfl, _⟩ | ⟨idx, l, hidx, hps, rfl, _⟩
    · cases hmd1
      exact hn1
    · cases hmd1
      by_cases hi : p.is_instance_update = true
      · obtain ⟨hpath, _, hclaimed⟩ := hmsg p sel hp hsel hi
        have hb2 : ∀ a, (id_map_entry r.st.sig idx).map = some a →
            1 ≤ (node_at r.st.md.id_map.heap a).refcount_global :=
          fun a ha => hclaimed r idx a hres hidx ha
        by_cases hmap : sel.map = none
        · rcases process_samples_plain_md env r.st p sel types argv _ _ idx r.events tt l
            hmap hps with h1 | ⟨a, ha, h1⟩
          · rw [h1]
            exact hn1
          · rw [h1]
            exact id_maps_nonneg_decrement r.st.md.id_map a hn1 (hb2 a ha)
        · have hcount : sel.count = 1 := by
            rcases hpath with h1 | h1
            · exact absurd h1 hmap
            · exact h1
          rcases process_samples_single_id_map env r.st p sel types argv _ _ idx r.events tt l
            hcount hmap hps with h1 | ⟨a, ha, h1 | h1⟩
          · rw [h1]
            exact hn1
          · rw [h1]
            exact id_maps_nonneg_decrement r.st.md.id_map a hn1 (hb2 a ha)
          · obtain ⟨dev1, hd1, hd2⟩ := id_maps_nonneg_remove_if_unreferenced _ a
              (id_maps_nonneg_decrement r.st.md.id_map a hn1 (hb2 a ha))
            rw [hd1] at h1
            cases h1
            exact hd2
      · have hf : p.is_instance_update = false := by
          cases hb : p.is_instance_update with
          | true => exact absurd hb hi
          | false => rfl
        rw [process_samples_local env r.st p sel types argv _ _ idx r.events tt l hf hps]
        exact hn1

/-- C15, counterexample: a device whose only active node (global id 7) has
`refcount_local = 1`, a signal whose entry 0 is bound to it, and a map whose
expression gives a result without a value, which releases the instance.  With
`refcount_global = 0`, as `mdev_add_instance_id_map` leaves it, the sample
`3.14 @instance 7 @slot 0` brings `refcount_global` to -1; with
`refcount_global = 1` the two samples `3.14 1.0 @instance 7 @slot 0` release
the instance twice and bring it to -1 as well.  Both times the node is still
the head of the active list. -/
theorem handler_signal_release_negative_refcount :
    id_maps_nonneg (example_device_node_map 1 0).id_map ∧
    node_summary (handler_signal example_env_release
        { sig := some (example_signal 'f' 1), md := some (example_device_node_map 1 0) }
        ['f', 's', 'h', 's', 'i']
        [example_float, example_string "@instance", example_int64 7, example_slot_string,
          example_int32 0] 5 example_tt) =
      some (some 0, 2, some 0, 1, -1) ∧
    id_maps_nonneg (example_device_node_map 1 1).id_map ∧
    node_summary (handler_signal example_env_release
        { sig := some (example_signal 'f' 1), md := some (example_device_node_map 1 1) }
        ['f', 'f', 's', 'h', 's', 'i']
        [example_float, example_float_one, example_string "@instance", example_int64 7,
          example_slot_string, example_int32 0] 6 example_tt) =
      some (some 0, 2, some 0, 1, -1) := by
  have hn : ∀ g : Int, 0 ≤ g → id_maps_nonneg (example_device_node_map 1 g).id_map := by
    intro g hg
    refine ⟨[0], [], ⟨rfl, Nat.zero_lt_one, rfl⟩, rfl, by decide, ?_⟩
    intro a ha
    simp only [List.mem_singleton] at ha
    subst ha
    exact ⟨Int.zero_le_ofNat 1, hg⟩
  exact ⟨hn 0 (by decide), rfl, hn 1 (by decide), rfl⟩

theorem example_device_node_nonneg (refcount_local refcount_global : Int)
    (h1 : 0 ≤ refcount_local) (h2 : 0 ≤ refcount_global) :
    id_maps_nonneg (example_device_node refcount_local refcount_global).id_map := by
  refine ⟨[0], [], ⟨rfl, Nat.zero_lt_one, rfl⟩, rfl, by decide, ?_⟩
  intro a ha
  simp only [List.mem_singleton] at ha
  subst ha
  exact ⟨h1, h2⟩

/-- C15 (amended), at concrete inputs: a node is added to and removed from the
lists of a device; the value 3.14 without `@instance` is written to an
instance whose node was activated locally (`refcount_global = 0`); and the
release `N @instance 7` of an instance that has been released locally and
whose node a peer has claimed (reference counts 0 and 1) brings
`refcount_global` to 0 and takes the node off the active list. -/
theorem id_maps_nonneg_preserved_witness :
    id_maps_nonneg (example_device_node 0 1).id_map ∧
    (∃ dev1 map, mdev_add_instance_id_map (example_device_node 0 1).id_map 3 9 =
      some (dev1, map) ∧ id_maps_nonneg dev1) ∧
    (∃ dev1, mdev_remove_instance_id_map (example_device_node 0 1).id_map (some 0) = some dev1 ∧
      id_maps_nonneg dev1) ∧
    (∃ w1 ev md1, handler_signal example_env
        { sig := some (example_signal 'f' 1), md := some (example_device_node 1 0) }
        ['f'] [example_float] 1 example_tt = some (w1, ev) ∧
      w1.md = some md1 ∧ id_maps_nonneg md1.id_map) ∧
    node_summary (handler_signal example_env
        { sig := some (example_signal_status 'f' 1 1), md := some (example_device_node 0 1) }
        ['N', 's', 'h'] [lo_arg.zero, example_string "@instance", example_int64 7] 3
        example_tt) = some (none, 1, none, 0, 0) ∧
    ∃ w1 ev md1, handler_signal example_env
        { sig := some (example_signal_status 'f' 1 1), md := some (example_device_node 0 1) }
        ['N', 's', 'h'] [lo_arg.zero, example_string "@instance", example_int64 7] 3
        example_tt = some (w1, ev) ∧
      w1.md = some md1 ∧ id_maps_nonneg md1.id_map := by
  have hn := example_device_node_nonneg 0 1 (by decide) (by decide)
  have hg : ∀ st g f t, id_maps_nonneg st.md.id_map →
      id_maps_nonneg (example_env.msig_get_instance_with_global_id st g f t).1.md.id_map :=
    fun st g f t h => h
  have hl : ∀ st i f t, id_maps_nonneg st.md.id_map →
      id_maps_nonneg (example_env.msig_get_instance_with_local_id st i f t).1.md.id_map :=
    fun st i f t h => h
  refine ⟨hn, id_maps_nonneg_preserved.1 _ 3 9 hn, id_maps_nonneg_preserved.2.1 _ (some 0) hn,
    ?_, rfl, ?_⟩
  · have hrun : handler_signal example_env
        { sig := some (example_signal 'f' 1), md := some (example_device_node 1 0) }
        ['f'] [example_float] 1 example_tt =
        some ((handler_signal example_env
          { sig := some (example_signal 'f' 1), md := some (example_device_node 1 0) }
          ['f'] [example_float] 1 example_tt).getD ({ sig := none, md := none }, [])) := by
      rfl
    refine ⟨_, _, example_device_node 1 0, hrun, rfl, ?_⟩
    refine id_maps_nonneg_preserved.2.2 example_env (example_signal 'f' 1)
      (example_device_node 1 0) ['f'] [example_float] 1 example_tt _ _ _ hg hl ?_
      (example_device_node_nonneg 1 0 (by decide) (by decide)) hrun rfl
    intro p sel hp hsel hi
    have hp1 : parse_properties ['f'] [example_float] 1 1
        (scan_values ['f'] 1 0 1 0 0).1
        { is_instance_update := false, instance_id := 0, slot := -1 } =
        some { is_instance_update := false, instance_id := 0, slot := -1 } := by
      rfl
    rw [hp1] at hp
    cases hp
    cases hi
  · have hrun : handler_signal example_env
        { sig := some (example_signal_status 'f' 1 1), md := some (example_device_node 0 1) }
        ['N', 's', 'h'] [lo_arg.zero, example_string "@instance", example_int64 7] 3
        example_tt =
        some ((handler_signal example_env
          { sig := some (example_signal_status 'f' 1 1), md := some (example_device_node 0 1) }
          ['N', 's', 'h'] [lo_arg.zero, example_string "@instance", example_int64 7] 3
          example_tt).getD ({ sig := none, md := none }, [])) := by
      rfl
    refine ⟨_, _, _, hrun, rfl, ?_⟩
    refine id_maps_nonneg_preserved.2.2 example_env (example_signal_status 'f' 1 1)
      (example_device_node 0 1) ['N', 's', 'h']
      [lo_arg.zero, example_string "@instance", example_int64 7] 3 example_tt _ _ _ hg hl ?_
      hn hrun rfl
    intro p sel hp hsel hi
    have hp1 : parse_properties ['N', 's', 'h']
        [lo_arg.zero, example_string "@instance", example_int64 7] 3 3
        (scan_values ['N', 's', 'h'] 3 0 3 0 0).1
        { is_instance_update := false, instance_id := 0, slot := -1 } =
        some { is_instance_update := true, instance_id := 7, slot := -1 } := by
      rfl
    rw [hp1] at hp
    cases hp
    simp only [select_map] at hsel
    rw [if_neg (by decide)] at hsel
    cases hsel
    refine ⟨Or.inl rfl, ?_, ?_⟩
    · intro m _ hm
      have e : (id_map_entry (example_signal_status 'f' 1 1)
          (example_env.msig_find_instance_with_global_id
            { sig := example_signal_status 'f' 1 1, md := example_device_node 0 1 } 7
            example_env.IN_RELEASED_LOCALLY)).map = some 0 := rfl
      rw [e] at hm
      cases hm
      decide
    · intro r idx m hr hidx _
      have e := congrArg (Option.map fun r : Resolved => r.id_map_index) hr
      have e2 : Option.map (fun r : Resolved => r.id_map_index)
          (resolve_instance example_env
            { sig := example_signal_status 'f' 1 1, md := example_device_node 0 1 }
            { is_instance_update := true, instance_id := 7, slot := -1 } 1 1 1 example_tt) =
          some none := rfl
      have e3 : some none = some r.id_map_index := e2.symm.trans e
      rw [hidx] at e3
      cases e3

/-! ### The release of an instance by a peer -/

theorem has_value_invariant_congr (sig sig1 : mapper_signal) (h1 : sig1.props = sig.props)
    (h2 : sig1.has_complete_value = sig.has_complete_value)
    (h3 : sig1.instances = sig.instances) (h : has_value_invariant sig) :
    has_value_invariant sig1 := by
  obtain ⟨ht, hv⟩ := h
  constructor
  · intro j hj
    rw [h2]
    exact ht j (h1 ▸ hj)
  · intro a ha j hj
    have e : instance_at sig1 a = instance_at sig a := by
      unfold instance_at
      rw [h3]
    rw [e] at ha ⊢
    exact hv a ha j (h1 ▸ hj)

theorem has_value_invariant_set_instance (sig : mapper_signal) (a : Nat)
    (si : mapper_signal_instance) (h : has_value_invariant sig)
    (hsi : si.has_value = true → ∀ j, j < sig.props.length →
      bit_set si.has_value_flags j = true) :
    has_value_invariant (set_instance sig a si) := by
  obtain ⟨ht, hv⟩ := h
  refine ⟨ht, ?_⟩
  intro b hb j hj
  have e : instance_at (set_instance sig a si) b =
      if a = b ∧ a < sig.instances.length then si else instance_at sig b := by
    unfold instance_at set_instance
    simp only [List.getD_eq_getElem?_getD, List.getElem?_set]
    by_cases hab : a = b
    · subst hab
      by_cases hlt : a < sig.instances.length
      · simp [hlt]
      · simp [hlt, List.getElem?_eq_none (Nat.le_of_not_lt hlt)]
    · simp [hab]
  rw [e] at hb ⊢
  split_ifs at hb ⊢
  · exact hsi hb j hj
  · exact hv b hb j hj

theorem bit_set_set_flag_mono (flags : List Nat) (j j1 : Nat)
    (h : bit_set flags j1 = true) : bit_set (set_flag flags j) j1 = true := by
  by_cases hj : j / 8 < flags.length
  · rw [bit_set_set_flag flags j j1 hj, h]
    rfl
  · have e : set_flag flags j = flags := by
      unfold set_flag
      exact List.set_eq_of_length_le (by omega)
    rw [e]
    exact h

theorem plain_elements_bits (types : List Char) (argv : List lo_arg) (size n j k : Nat)
    (si : mapper_signal_instance) (vals j1 : Nat)
    (h : bit_set si.has_value_flags j1 = true) :
    bit_set (plain_elements types argv size n j k si vals).1.has_value_flags j1 = true := by
  induction n generalizing j k si vals with
  | zero => exact h
  | succ n ih =>
    unfold plain_elements
    split_ifs
    · exact ih _ _ _ _ h
    · exact ih _ _ _ _ (bit_set_set_flag_mono _ _ _ h)

theorem result_elements_bits (typestring : List Char) (result : List (Option Nat))
    (size n j : Nat) (si : mapper_signal_instance) (vals j1 : Nat)
    (h : bit_set si.has_value_flags j1 = true) :
    bit_set (result_elements typestring result size n j si vals).1.has_value_flags j1 = true := by
  induction n generalizing j si vals with
  | zero => exact h
  | succ n ih =>
    unfold result_elements
    split_ifs
    · exact ih _ _ _ h
    · exact ih _ _ _ (bit_set_set_flag_mono _ _ _ h)

theorem result_elements_has_value (typestring : List Char) (result : List (Option Nat))
    (size n j : Nat) (si : mapper_signal_instance) (vals : Nat) :
    (result_elements typestring result size n j si vals).1.has_value = si.has_value := by
  induction n generalizing j si vals with
  | zero => rfl
  | succ n ih =>
    unfold result_elements
    split_ifs
    · exact ih _ _ _
    · rw [ih]

theorem memcmp_eq_bit_set (a b : List Nat) (n j : Nat) (h : memcmp_eq a b n = true)
    (hj : j / 8 < n) : bit_set a j = bit_set b j := by
  unfold memcmp_eq at h
  have h1 : a.take n = b.take n := of_decide_eq_true h
  have h2 : (a.take n)[j / 8]? = (b.take n)[j / 8]? := by rw [h1]
  rw [List.getElem?_take_of_lt hj, List.getElem?_take_of_lt hj] at h2
  unfold bit_set
  rw [List.getD_eq_getElem?_getD, List.getD_eq_getElem?_getD, h2]

theorem commit_value_invariant (env : Env) (l l1 : Loop) (a count size : Nat)
    (tt : mapper_timetag_t) (hinv : has_value_invariant l.sig)
    (h : commit_value env l a count size tt = some l1) : has_value_invariant l1.sig := by
  unfold commit_value at h
  dsimp only at h
  have hsi1 : ∀ si1 : mapper_signal_instance,
      si1 = (if memcmp_eq (instance_at l.sig a).has_value_flags l.sig.has_complete_value
        (l.sig.props.length / 8 + 1) = true then
        ({ instance_at l.sig a with has_value := true } : mapper_signal_instance)
        else instance_at l.sig a) →
      si1.has_value = true → ∀ j, j < l.sig.props.length →
        bit_set si1.has_value_flags j = true := by
    intro si1 e hv j hj
    by_cases hm : memcmp_eq (instance_at l.sig a).has_value_flags l.sig.has_complete_value
        (l.sig.props.length / 8 + 1) = true
    · rw [if_pos hm] at e
      subst e
      have hj8 : j / 8 < l.sig.props.length / 8 + 1 := by
        have := Nat.div_le_div_right (c := 8) (Nat.le_of_lt hj)
        omega
      have := memcmp_eq_bit_set _ _ _ j hm hj8
      simp only
      rw [this]
      exact hinv.1 j hj
    · rw [if_neg hm] at e
      subst e
      exact hinv.2 a hv j hj
  generalize hg : (if memcmp_eq (instance_at l.sig a).has_value_flags l.sig.has_complete_value
      (l.sig.props.length / 8 + 1) = true then
    ({ instance_at l.sig a with has_value := true } : mapper_signal_instance)
    else instance_at l.sig a) = si1 at h
  have hb := hsi1 si1 hg.symm
  by_cases hv : si1.has_value = true
  · rw [if_pos hv] at h
    have hset : has_value_invariant (set_instance l.sig a { si1 with timetag := tt }) :=
      has_value_invariant_set_instance l.sig a _ hinv (fun _ => hb hv)
    by_cases hc : count > 1
    · rw [if_pos hc] at h
      cases h
      exact hset
    · rw [if_neg hc] at h
      obtain ⟨_, _, h3⟩ := call_handler_md _ _ _ _ _ h
      rw [h3, (call_route_md _ _ _ _ _).2.2]
      exact hset
  · rw [if_neg hv] at h
    cases h
    exact has_value_invariant_set_instance l.sig a _ hinv hb

theorem release_remotely_invariant (env : Env) (l l1 : Loop) (remove : Bool)
    (tt : mapper_timetag_t) (hinv : has_value_invariant l.sig)
    (h : release_remotely env l remove tt = some l1) : has_value_invariant l1.sig := by
  unfold release_remotely at h
  dsimp only at h
  cases hm : l.id_map with
  | none =>
    rw [hm] at h
    cases h
  | some a =>
    rw [hm] at h
    dsimp only at h
    cases hr : (if remove = true then
        remove_if_unreferenced (decrement_refcount_global l.md.id_map a) a
        else some (decrement_refcount_global l.md.id_map a)) with
    | none =>
      rw [hr] at h
      cases h
    | some d =>
      rw [hr] at h
      dsimp only at h
      split_ifs at h
      all_goals
        cases h
        exact has_value_invariant_congr l.sig _ rfl rfl rfl hinv

theorem plain_sample_invariant (env : Env) (p : Properties) (types : List Char)
    (argv : List lo_arg) (count size : Nat) (tt : mapper_timetag_t) (l : Loop) (s : Step)
    (hinv : has_value_invariant l.sig)
    (h : plain_sample env p types argv count size tt l = some s) :
    ∃ l1, (s = Step.next l1 ∨ s = Step.ret l1) ∧ has_value_invariant l1.sig := by
  unfold plain_sample at h
  dsimp only at h
  have key : ∀ (l1 : Loop) (vals : Nat), has_value_invariant l1.sig →
      (match (some (l1, vals) : Option (Loop × Nat)) with
        | none => none
        | some (l1, vals) =>
          if vals = 0 then
            if count > 1 then some (Step.ret l1)
            else
              match (if p.is_instance_update then release_remotely env l1 false tt
                  else some l1) with
              | none => none
              | some l2 => (call_handler l2 none 1 tt).map Step.ret
          else
            match l1.si with
            | none => none
            | some a => (commit_value env l1 a count size tt).map Step.next) = some s →
      ∃ l1, (s = Step.next l1 ∨ s = Step.ret l1) ∧ has_value_invariant l1.sig := by
    intro l1 vals hinv1 h
    dsimp only at h
    by_cases hv : vals = 0
    · rw [if_pos hv] at h
      by_cases hc : count > 1
      · rw [if_pos hc] at h
        cases h
        exact ⟨l1, Or.inr rfl, hinv1⟩
      · rw [if_neg hc] at h
        by_cases hi : p.is_instance_update = true
        · rw [if_pos hi] at h
          cases hr : release_remotely env l1 false tt with
          | none =>
            rw [hr] at h
            cases h
          | some l2 =>
            rw [hr] at h
            dsimp only at h
            cases hh : call_handler l2 none 1 tt with
            | none =>
              rw [hh] at h
              cases h
            | some l3 =>
              rw [hh] at h
              cases h
              obtain ⟨_, _, h3⟩ := call_handler_md _ _ _ _ _ hh
              refine ⟨l3, Or.inr rfl, ?_⟩
              rw [h3]
              exact release_remotely_invariant env l1 l2 false tt hinv1 hr
        · rw [if_neg hi] at h
          dsimp only at h
          cases hh : call_handler l1 none 1 tt with
          | none =>
            rw [hh] at h
            cases h
          | some l3 =>
            rw [hh] at h
            cases h
            obtain ⟨_, _, h3⟩ := call_handler_md _ _ _ _ _ hh
            refine ⟨l3, Or.inr rfl, ?_⟩
            rw [h3]
            exact hinv1
    · rw [if_neg hv] at h
      cases hsi : l1.si with
      | none =>
        rw [hsi] at h
        cases h
      | some a =>
        rw [hsi] at h
        dsimp only at h
        cases hcv : commit_value env l1 a count size tt with
        | none =>
          rw [hcv] at h
          cases h
        | some l2 =>
          rw [hcv] at h
          cases h
          exact ⟨l2, Or.inl rfl, commit_value_invariant env l1 l2 a count size tt hinv1 hcv⟩
  cases hsi : l.si with
  | none =>
    rw [hsi] at h
    dsimp only at h
    by_cases hcv : count_vals types l.k l.sig.props.length = 0
    · rw [if_pos hcv] at h
      exact key _ _ (by exact hinv) h
    · rw [if_neg hcv] at h
      cases h
  | some a =>
    rw [hsi] at h
    dsimp only at h
    refine key _ _ ?_ h
    refine has_value_invariant_set_instance l.sig a _ hinv ?_
    intro hv j hj
    rw [(plain_elements_frame types argv size l.sig.props.length 0 l.k
      (instance_at l.sig a) 0).2.1] at hv
    exact plain_elements_bits _ _ _ _ _ _ _ _ _ (hinv.2 a hv j hj)

theorem plain_loop_invariant (env : Env) (p : Properties) (types : List Char)
    (argv : List lo_arg) (count size : Nat) (tt : mapper_timetag_t) (n : Nat) (l : Loop)
    (s : Step) (hinv : has_value_invariant l.sig)
    (h : plain_loop env p types argv count size tt n l = some s) :
    ∃ l1, (s = Step.next l1 ∨ s = Step.ret l1) ∧ has_value_invariant l1.sig := by
  induction n generalizing l with
  | zero =>
    simp only [plain_loop] at h
    cases h
    exact ⟨l, Or.inl rfl, hinv⟩
  | succ n ih =>
    simp only [plain_loop] at h
    cases hs : plain_sample env p types argv count size tt l with
    | none =>
      rw [hs] at h
      cases h
    | some s1 =>
      rw [hs] at h
      obtain ⟨l1, hl1, hinv1⟩ := plain_sample_invariant env p types argv count size tt l s1
        hinv hs
      rcases hl1 with rfl | rfl
      · exact ih l1 hinv1 h
      · dsimp only at h
        cases h
        exact ⟨l1, Or.inr rfl, hinv1⟩

theorem find_or_activate_invariant (env : Env) (st : State) (instance_id mask : Nat)
    (nulls value_len count : Nat) (tt : mapper_timetag_t) (r : Resolved)
    (hglobal : ∀ st1 g f t, has_value_invariant st1.sig →
      has_value_invariant (env.msig_get_instance_with_global_id st1 g f t).1.sig)
    (hinv : has_value_invariant st.sig)
    (h : find_or_activate env st instance_id mask nulls value_len count tt = Sum.inl r) :
    has_value_invariant r.st.sig := by
  unfold find_or_activate at h
  simp only at h
  split_ifs at h
  all_goals cases h
  · exact hinv
  · exact hglobal st _ _ _ hinv
  · exact hglobal st _ _ _ hinv

theorem resolve_instance_invariant (env : Env) (st : State) (p : Properties)
    (nulls value_len count : Nat) (tt : mapper_timetag_t) (r : Resolved)
    (hglobal : ∀ st1 g f t, has_value_invariant st1.sig →
      has_value_invariant (env.msig_get_instance_with_global_id st1 g f t).1.sig)
    (hlocal : ∀ st1 i f t, has_value_invariant st1.sig →
      has_value_invariant (env.msig_get_instance_with_local_id st1 i f t).1.sig)
    (hinv : has_value_invariant st.sig)
    (h : resolve_instance env st p nulls value_len count tt = some r) :
    has_value_invariant r.st.sig := by
  unfold resolve_instance at h
  by_cases hi : p.is_instance_update = true
  · rw [if_pos hi] at h
    cases hf : find_or_activate env st p.instance_id env.IN_RELEASED_LOCALLY nulls value_len
        count tt with
    | inl r1 =>
      rw [hf] at h
      cases h
      exact find_or_activate_invariant env st _ _ _ _ _ tt _ hglobal hinv hf
    | inr idx =>
      rw [hf] at h
      simp only at h
      split_ifs at h
      · cases hm : (id_map_entry st.sig idx).map with
        | none =>
          rw [hm] at h
          cases h
        | some a =>
          rw [hm] at h
          simp only at h
          cases hr : remove_if_unreferenced (decrement_refcount_global st.md.id_map a) a with
          | none =>
            rw [hr] at h
            cases h
          | some d =>
            rw [hr] at h
            cases h
            exact has_value_invariant_congr st.sig _ rfl rfl rfl hinv
      all_goals
        cases h
        exact hinv
  · rw [if_neg hi] at h
    dsimp only at h
    split_ifs at h
    all_goals cases h
    · exact hlocal st _ _ _ hinv
    · exact hlocal st _ _ _ hinv
    · exact hinv

theorem flush_out_buffer_invariant (env : Env) (l l1 : Loop) (tt : mapper_timetag_t)
    (hinv : has_value_invariant l.sig) (h : flush_out_buffer env l tt = some l1) :
    has_value_invariant l1.sig := by
  rw [(flush_out_buffer_md env l l1 tt h).2.2]
  exact hinv

theorem evaluate_sample_invariant (env : Env) (p : Properties) (count size : Nat)
    (tt : mapper_timetag_t) (map a : Nat) (l : Loop) (s : Step)
    (hinv : has_value_invariant l.sig)
    (h : evaluate_sample env p count size tt map a l = some s) :
    ∃ l1, (s = Step.next l1 ∨ s = Step.ret l1) ∧ has_value_invariant l1.sig := by
  unfold evaluate_sample at h
  lift_lets at h
  extract_lets idx m sources r router1 src1 m1 router2 src2 l1 b router3 src3 l2 dest result e
    l3 at h
  by_cases h1 : r.1 = 0
  · rw [if_pos h1] at h
    cases h
    exact ⟨_, Or.inl rfl, hinv⟩
  rw [if_neg h1] at h
  by_cases h2 : b.1 ≠ 0
  · rw [if_pos h2] at h
    cases h
    exact ⟨_, Or.inl rfl, hinv⟩
  rw [if_neg h2] at h
  have hl3 : has_value_invariant l3.sig := by
    refine has_value_invariant_set_instance l.sig a _ hinv ?_
    intro hv j hj
    rw [result_elements_has_value] at hv
    exact result_elements_bits _ _ _ _ _ _ _ _ (hinv.2 a hv j hj)
  by_cases h3 : e.2 = 0
  · rw [if_pos h3] at h
    have hl4 : ∀ l4, (if l3.out_count ≠ 0 then
          (flush_out_buffer env l3 tt).map fun x => { x with out_count := 0 }
        else some l3) = some l4 → has_value_invariant l4.sig := by
      intro l4 h4
      by_cases hc : l3.out_count ≠ 0
      · rw [if_pos hc] at h4
        obtain ⟨x, hx, rfl⟩ := Option.map_eq_some'.mp h4
        exact flush_out_buffer_invariant env l3 x tt hl3 hx
      · rw [if_neg hc] at h4
        cases h4
        exact hl3
    cases hf : (if l3.out_count ≠ 0 then
          (flush_out_buffer env l3 tt).map fun x => { x with out_count := 0 }
        else some l3) with
    | none =>
      rw [hf] at h
      cases h
    | some l4 =>
      rw [hf] at h
      dsimp only at h
      have hinv4 := hl4 l4 hf
      have hl5 : ∀ l5, (if p.is_instance_update = true then release_remotely env l4 false tt
          else some l4) = some l5 → has_value_invariant l5.sig := by
        intro l5 h5
        by_cases hi : p.is_instance_update = true
        · rw [if_pos hi] at h5
          exact release_remotely_invariant env l4 l5 false tt hinv4 h5
        · rw [if_neg hi] at h5
          cases h5
          exact hinv4
      cases hr : (if p.is_instance_update = true then release_remotely env l4 false tt
          else some l4) with
      | none =>
        rw [hr] at h
        cases h
      | some l5 =>
        rw [hr] at h
        dsimp only at h
        obtain ⟨x, hx, rfl⟩ := Option.map_eq_some'.mp h
        refine ⟨_, Or.inl rfl, ?_⟩
        have := (call_handler_md _ _ _ _ _ hx).2.2
        show has_value_invariant x.sig
        rw [this]
        exact hl5 l5 hr
  · rw [if_neg h3] at h
    obtain ⟨x, hx, rfl⟩ := Option.map_eq_some'.mp h
    exact ⟨x, Or.inl rfl, commit_value_invariant env l3 x a count size tt hl3 hx⟩

theorem map_sample_invariant (env : Env) (p : Properties) (types : List Char)
    (argv : List lo_arg) (nulls value_len count size : Nat) (tt : mapper_timetag_t)
    (map s i : Nat) (l : Loop) (st : Step)
    (hglobal : ∀ st1 g f t, has_value_invariant st1.sig →
      has_value_invariant (env.msig_get_instance_with_global_id st1 g f t).1.sig)
    (hinv : has_value_invariant l.sig)
    (h : map_sample env p types argv nulls value_len count size tt map s i l = some st) :
    ∃ l1, (st = Step.next l1 ∨ st = Step.ret l1) ∧ has_value_invariant l1.sig := by
  unfold map_sample at h
  lift_lets at h
  extract_lets len vals l0 resolved at h
  by_cases hv : vals = 0
  · rw [if_pos hv] at h
    by_cases hc : count > 1
    · rw [if_pos hc] at h
      cases h
      exact ⟨_, Or.inr rfl, hinv⟩
    · rw [if_neg hc] at h
      cases hr : (if p.is_instance_update = true then release_remotely env l0 true tt
          else some l0) with
      | none =>
        rw [hr] at h
        cases h
      | some l1 =>
        rw [hr] at h
        dsimp only at h
        obtain ⟨x, hx, rfl⟩ := Option.map_eq_some'.mp h
        refine ⟨x, Or.inl rfl, ?_⟩
        rw [(call_handler_md _ _ _ _ _ hx).2.2]
        by_cases hi : p.is_instance_update = true
        · rw [if_pos hi] at hr
          exact release_remotely_invariant env l0 l1 true tt hinv hr
        · rw [if_neg hi] at hr
          cases hr
          exact hinv
  rw [if_neg hv] at h
  by_cases hv2 : vals ≠ len
  · rw [if_pos hv2] at h
    cases h
    exact ⟨_, Or.inr rfl, hinv⟩
  rw [if_neg hv2] at h
  have hres : ∀ l1, (resolved = Sum.inl l1 ∨ resolved = Sum.inr l1) →
      has_value_invariant l1.sig := by
    intro l1 hl1
    by_cases ha : p.is_instance_update = true ∧ l0.active = false
    · have e : resolved =
          match find_or_activate env { sig := l0.sig, md := l0.md } p.instance_id
              env.IN_RELEASED_REMOTELY nulls value_len count tt with
          | Sum.inl r =>
            match r.id_map_index with
            | none => Sum.inr { l0 with sig := r.st.sig, md := r.st.md,
                                        events := l0.events ++ r.events }
            | some idx =>
              Sum.inl { l0 with sig := r.st.sig, md := r.st.md
                                events := l0.events ++ r.events, id_map_index := idx
                                si := (id_map_entry r.st.sig idx).inst
                                id_map := (id_map_entry r.st.sig idx).map }
          | Sum.inr idx =>
            Sum.inl { l0 with id_map_index := idx, si := (id_map_entry l0.sig idx).inst
                              id_map := (id_map_entry l0.sig idx).map } := if_pos ha
      rw [e] at hl1
      cases hf : find_or_activate env { sig := l0.sig, md := l0.md } p.instance_id
          env.IN_RELEASED_REMOTELY nulls value_len count tt with
      | inl r =>
        have hr := find_or_activate_invariant env _ _ _ _ _ _ tt r hglobal hinv hf
        rw [hf] at hl1
        dsimp only at hl1
        cases hidx : r.id_map_index with
        | none =>
          rw [hidx] at hl1
          rcases hl1 with hl1 | hl1
          · cases hl1
          · cases hl1
            exact hr
        | some idx =>
          rw [hidx] at hl1
          rcases hl1 with hl1 | hl1
          · cases hl1
            exact hr
          · cases hl1
      | inr idx =>
        rw [hf] at hl1
        rcases hl1 with hl1 | hl1
        · cases hl1
          exact hinv
        · cases hl1
    · have e : resolved = Sum.inl l0 := if_neg ha
      rw [e] at hl1
      rcases hl1 with hl1 | hl1
      · cases hl1
        exact hinv
      · cases hl1
  cases hr : resolved with
  | inr l1 =>
    rw [hr] at h
    cases h
    exact ⟨l1, Or.inr rfl, hres l1 (Or.inr hr)⟩
  | inl l1 =>
    rw [hr] at h
    dsimp only at h
    have hinv1 := hres l1 (Or.inl hr)
    cases hsi : l1.si with
    | none =>
      rw [hsi] at h
      cases h
    | some a =>
      rw [hsi] at h
      dsimp only at h
      split_ifs at h
      · exact evaluate_sample_invariant env p count size tt map a _ st (by exact hinv1) h
      · cases h
        exact ⟨_, Or.inl rfl, hinv1⟩

theorem map_loop_invariant (env : Env) (p : Properties) (types : List Char)
    (argv : List lo_arg) (nulls value_len count size : Nat) (tt : mapper_timetag_t)
    (map s n i : Nat) (l : Loop) (st : Step)
    (hglobal : ∀ st1 g f t, has_value_invariant st1.sig →
      has_value_invariant (env.msig_get_instance_with_global_id st1 g f t).1.sig)
    (hinv : has_value_invariant l.sig)
    (h : map_loop env p types argv nulls value_len count size tt map s n i l = some st) :
    ∃ l1, (st = Step.next l1 ∨ st = Step.ret l1) ∧ has_value_invariant l1.sig := by
  induction n generalizing i l with
  | zero =>
    simp only [map_loop] at h
    cases h
    exact ⟨l, Or.inl rfl, hinv⟩
  | succ n ih =>
    simp only [map_loop] at h
    cases hs : map_sample env p types argv nulls value_len count size tt map s i l with
    | none =>
      rw [hs] at h
      cases h
    | some s1 =>
      rw [hs] at h
      obtain ⟨l1, hl1, hinv1⟩ := map_sample_invariant env p types argv nulls value_len count
        size tt map s i l s1 hglobal hinv hs
      rcases hl1 with rfl | rfl
      · exact ih _ l1 hinv1 h
      · dsimp only at h
        cases h
        exact ⟨l1, Or.inr rfl, hinv1⟩

theorem process_samples_invariant (env : Env) (st : State) (p : Properties) (sel : Selected)
    (types : List Char) (argv : List lo_arg) (nulls value_len : Nat) (idx : Int)
    (events : List Event) (tt : mapper_timetag_t) (l : Loop)
    (hglobal : ∀ st1 g f t, has_value_invariant st1.sig →
      has_value_invariant (env.msig_get_instance_with_global_id st1 g f t).1.sig)
    (hinv : has_value_invariant st.sig)
    (h : process_samples env st p sel types argv nulls value_len idx events tt = some l) :
    has_value_invariant l.sig := by
  unfold process_samples at h
  lift_lets at h
  extract_lets size l0 looped at h
  have hl : ∀ s1, looped = some s1 →
      ∃ l1, (s1 = Step.next l1 ∨ s1 = Step.ret l1) ∧ has_value_invariant l1.sig := by
    intro s1 hs1
    cases hm : sel.map with
    | none =>
      have e : looped = plain_loop env p types argv sel.count size tt sel.count l0 := by
        show (match sel.map, sel.s with
          | some map, some s =>
            map_loop env p types argv nulls value_len sel.count size tt map s sel.count 0 l0
          | some _, none => none
          | none, _ => plain_loop env p types argv sel.count size tt sel.count l0) = _
        rw [hm]
      rw [e] at hs1
      exact plain_loop_invariant env p types argv sel.count size tt sel.count l0 s1 hinv hs1
    | some map =>
      cases hs : sel.s with
      | none =>
        have e : looped = none := by
          show (match sel.map, sel.s with
            | some map, some s =>
              map_loop env p types argv nulls value_len sel.count size tt map s sel.count 0 l0
            | some _, none => none
            | none, _ => plain_loop env p types argv sel.count size tt sel.count l0) = _
          rw [hm, hs]
        rw [e] at hs1
        cases hs1
      | some s =>
        have e : looped =
            map_loop env p types argv nulls value_len sel.count size tt map s sel.count 0 l0 := by
          show (match sel.map, sel.s with
            | some map, some s =>
              map_loop env p types argv nulls value_len sel.count size tt map s sel.count 0 l0
            | some _, none => none
            | none, _ => plain_loop env p types argv sel.count size tt sel.count l0) = _
          rw [hm, hs]
        rw [e] at hs1
        exact map_loop_invariant env p types argv nulls value_len sel.count size tt map s
          sel.count 0 l0 s1 hglobal hinv hs1
  cases hlo : looped with
  | none =>
    rw [hlo] at h
    cases h
  | some s1 =>
    rw [hlo] at h
    obtain ⟨l1, hl1, hinv1⟩ := hl s1 hlo
    rcases hl1 with rfl | rfl
    · dsimp only at h
      exact flush_out_buffer_invariant env l1 l tt hinv1 h
    · dsimp only at h
      cases h
      exact hinv1

/-- C16: `handler_signal` keeps the invariant "every instance with `has_value`
set has the bits of all `length` elements set in `has_value_flags`", on the plain
path and on the map path, for a signal whose template `has_complete_value` has
the bits of the elements `0 .. length - 1` set, provided the two activation
functions keep the invariant and the template. -/
theorem handler_signal_has_value_invariant (env : Env) (sig : mapper_signal)
    (md : mapper_device) (types : List Char) (argv : List lo_arg) (argc : Nat)
    (tt : mapper_timetag_t) (w1 : World) (ev : List Event) (sig1 : mapper_signal)
    (hglobal : ∀ st g f t, has_value_invariant st.sig →
      has_value_invariant (env.msig_get_instance_with_global_id st g f t).1.sig)
    (hlocal : ∀ st i f t, has_value_invariant st.sig →
      has_value_invariant (env.msig_get_instance_with_local_id st i f t).1.sig)
    (htemplate : template_complete sig) (hvalue : has_value_complete sig)
    (h : handler_signal env { sig := some sig, md := some md } types argv argc tt =
      some (w1, ev))
    (hsig : w1.sig = some sig1) :
    template_complete sig1 ∧ has_value_complete sig1 := by
  have hinv : has_value_invariant sig := ⟨htemplate, hvalue⟩
  rcases handler_signal_some env _ types argv argc tt w1 ev h with
    ⟨rfl, _⟩ | ⟨sig0, md0, p, sel, r, hs, hm, hp, hsel, _, hres, hrest⟩
  · cases hsig
    exact hinv
  · cases hs
    cases hm
    have hinv1 := resolve_instance_invariant env _ p _ _ _ tt r hglobal hlocal
      (by exact hinv) hres
    rcases hrest with ⟨_, rfl, _⟩ | ⟨idx, l, hidx, hps, rfl, _⟩
    · cases hsig
      exact hinv1
    · cases hsig
      exact process_samples_invariant env r.st p sel types argv _ _ idx r.events tt l hglobal
        hinv1 hps

/-- C16 at a concrete input: the float 3.14 sent to a signal of type `f` and
length 1 whose instance has no value yet; afterwards the instance has a value
and its flag is set. -/
theorem handler_signal_has_value_invariant_witness :
    template_complete (example_signal 'f' 1) ∧ has_value_complete (example_signal 'f' 1) ∧
    ∃ w1 ev sig1, handler_signal example_env
        { sig := some (example_signal 'f' 1), md := some example_device }
        ['f'] [example_float] 1 example_tt = some (w1, ev) ∧
      w1.sig = some sig1 ∧ (instance_at sig1 0).has_value = true ∧
      template_complete sig1 ∧ has_value_complete sig1 := by
  have ht : template_complete (example_signal 'f' 1) := by
    intro j hj
    have hj0 : j = 0 := by
      have : j < 1 := hj
      omega
    subst hj0
    decide
  have hv : has_value_complete (example_signal 'f' 1) := by
    intro a ha
    cases a with
    | zero => simp [example_signal, instance_at] at ha
    | succ a => simp [example_signal, instance_at, mapper_signal_instance.zero] at ha
  refine ⟨ht, hv, _, _, _, rfl, rfl, by decide, ?_⟩
  exact handler_signal_has_value_invariant example_env (example_signal 'f' 1) example_device
    ['f'] [example_float] 1 example_tt _ _ _ (fun _ _ _ _ h => h) (fun _ _ _ _ h => h) ht hv
    rfl rfl


/-! ### Registration -/

/-- C17, evaluation at the failing input: the node at address 0 is bound to an
entry of the input signal and to an entry of the output signal, and its global
id `0x00000001_00000000` has a non-zero high word.  The loop over the inputs
leaves it alone, and the loop over the outputs, which tests `global << 32`,
ORs the device id into it. -/
theorem mdev_registered_shared_node :
    (mdev_registered (example_registry 0x0000000100000000 5 0)).map
        (fun md => (md.registered, (node_at md.id_map_heap 0).global)) =
      some (true, 0xABCDEF0100000000) := by
  decide

/-- C18, evaluation at the failing input: the node at address 1 is bound to an
entry of the output signal only and its global id `0x00000000_00000001` has a
zero high word; `mdev_registered` leaves it as it is, while the node of the
input signal with the same global id gets the device id. -/
theorem mdev_registered_output_unchanged :
    (mdev_registered (example_registry 0x0000000000000001 0x0000000000000001 1)).map
        (fun md => (md.registered, (node_at md.id_map_heap 0).global,
          (node_at md.id_map_heap 1).global)) =
      some (true, 0xABCDEF0000000001, 0x0000000000000001) := by
  decide

/-! ### Lookup of a signal by name -/

theorem find_signal_by_name_found (signals : List device_signal) (array : List (Option Nat))
    (key : List Char) (n i : Nat)
    (hvalid : ∀ j, i ≤ j → j < i + n → ∃ sig, signal_of signals array j = some sig)
    (hex : ∃ j sig, i ≤ j ∧ j < i + n ∧ signal_of signals array j = some sig ∧ sig.name = key) :
    ∃ j s sig, i ≤ j ∧ j < i + n ∧ array.getD j none = some s ∧ signals[s]? = some sig ∧
      sig.name = key ∧ find_signal_by_name signals array key n i = some (some (j, s)) := by
  induction n generalizing i with
  | zero =>
    obtain ⟨j, _, h1, h2, _⟩ := hex
    omega
  | succ n ih =>
    obtain ⟨sig, hsig⟩ := hvalid i (Nat.le_refl i) (by omega)
    unfold signal_of at hsig
    unfold find_signal_by_name
    cases hp : array.getD i none with
    | none =>
      rw [hp] at hsig
      cases hsig
    | some s =>
      rw [hp] at hsig
      simp only at hsig ⊢
      rw [hsig]
      simp only
      by_cases hn : sig.name = key
      · rw [if_pos hn]
        exact ⟨i, s, sig, Nat.le_refl i, by omega, hp, hsig, hn, rfl⟩
      · rw [if_neg hn]
        obtain ⟨j, s1, sig1, h1, h2, h3, h4, h5, h6⟩ := ih (i + 1)
          (fun j hj1 hj2 => hvalid j (by omega) (by omega))
          (by
            obtain ⟨j, sig1, h1, h2, h3, h4⟩ := hex
            refine ⟨j, sig1, ?_, by omega, h3, h4⟩
            by_contra hlt
            have hji : j = i := by omega
            subst hji
            unfold signal_of at h3
            rw [hp] at h3
            simp only at h3
            rw [hsig] at h3
            cases h3
            exact hn h4)
        exact ⟨j, s1, sig1, by omega, by omega, h3, h4, h5, h6⟩

theorem find_signal_by_name_absent (signals : List device_signal) (array : List (Option Nat))
    (key : List Char) (n i : Nat)
    (hvalid : ∀ j, i ≤ j → j < i + n → ∃ sig, signal_of signals array j = some sig)
    (hno : ∀ j sig, i ≤ j → j < i + n → signal_of signals array j = some sig → sig.name ≠ key) :
    find_signal_by_name signals array key n i = some none := by
  induction n generalizing i with
  | zero => rfl
  | succ n ih =>
    obtain ⟨sig, hsig⟩ := hvalid i (Nat.le_refl i) (by omega)
    have hn := hno i sig (Nat.le_refl i) (by omega) hsig
    unfold signal_of at hsig
    unfold find_signal_by_name
    cases hp : array.getD i none with
    | none =>
      rw [hp] at hsig
      cases hsig
    | some s =>
      rw [hp] at hsig
      simp only at hsig ⊢
      rw [hsig]
      simp only
      rw [if_neg hn]
      exact ih (i + 1) (fun j hj1 hj2 => hvalid j (by omega) (by omega))
        (fun j sig1 hj1 hj2 => hno j sig1 (by omega) (by omega))

theorem mdev_get_signal_by_name_found (md : signal_registry) (name : List Char)
    (hvalid : signals_valid md) (hex : name_exists md (skip_slash name)) :
    ∃ j s sig, mdev_get_signal_by_name md (some name) = some (some (j, s)) ∧
      md.signals[s]? = some sig ∧ sig.name = skip_slash name ∧
      ((j < md.props.num_inputs ∧ md.inputs.getD j none = some s) ∨
        (j < md.props.num_outputs ∧ md.outputs.getD j none = some s)) := by
  unfold mdev_get_signal_by_name mdev_get_input_by_name mdev_get_output_by_name
  simp only
  by_cases hin : ∃ i sig, i < md.props.num_inputs ∧
      signal_of md.signals md.inputs i = some sig ∧ sig.name = skip_slash name
  · obtain ⟨j, s, sig, _, h2, h3, h4, h5, h6⟩ := find_signal_by_name_found md.signals md.inputs
      (skip_slash name) md.props.num_inputs 0
      (fun j _ hj => hvalid.1 j (by omega))
      (by
        obtain ⟨i, sig, h1, h2, h3⟩ := hin
        exact ⟨i, sig, Nat.zero_le i, by omega, h2, h3⟩)
    rw [h6]
    exact ⟨j, s, sig, rfl, h4, h5, Or.inl ⟨by omega, h3⟩⟩
  · have hout : ∃ i sig, i < md.props.num_outputs ∧
        signal_of md.signals md.outputs i = some sig ∧ sig.name = skip_slash name := by
      rcases hex with h | h
      · exact absurd h hin
      · exact h
    rw [find_signal_by_name_absent md.signals md.inputs (skip_slash name) md.props.num_inputs 0
      (fun j _ hj => hvalid.1 j (by omega))
      (fun j sig _ hj hs hn => hin ⟨j, sig, by omega, hs, hn⟩)]
    obtain ⟨j, s, sig, _, h2, h3, h4, h5, h6⟩ := find_signal_by_name_found md.signals md.outputs
      (skip_slash name) md.props.num_outputs 0
      (fun j _ hj => hvalid.2 j (by omega))
      (by
        obtain ⟨i, sig, h1, h2, h3⟩ := hout
        exact ⟨i, sig, Nat.zero_le i, by omega, h2, h3⟩)
    simp only
    rw [h6]
    exact ⟨j, s, sig, rfl, h4, h5, Or.inr ⟨by omega, h3⟩⟩

/-- C19: when some input or output signal already has the name, a leading
slash of the argument being skipped, `mdev_add_input` and `mdev_add_output`
return a pointer to a signal of that name that is in one of the arrays, make
no call and leave the device as it is: `num_inputs`, `num_outputs`, both
arrays, `version` and the resource counter keep their values. -/
theorem mdev_add_existing_signal (env : RegistryEnv) (md : signal_registry) (name : List Char)
    (length : Int) (type : Char) (hvalid : signals_valid md)
    (hex : name_exists md (skip_slash name)) :
    ∃ j s sig, mdev_add_input env md (some name) length type = some (md, some s, []) ∧
      mdev_add_output env md (some name) length type = some (md, some s, []) ∧
      md.signals[s]? = some sig ∧ sig.name = skip_slash name ∧
      ((j < md.props.num_inputs ∧ md.inputs.getD j none = some s) ∨
        (j < md.props.num_outputs ∧ md.outputs.getD j none = some s)) := by
  obtain ⟨j, s, sig, h1, h2, h3, h4⟩ := mdev_get_signal_by_name_found md name hvalid hex
  refine ⟨j, s, sig, ?_, ?_, h2, h3, h4⟩
  · unfold mdev_add_input
    rw [h1]
  · unfold mdev_add_output
    rw [h1]

/-- C19 at a concrete input: the name `/out` is that of the output signal of the
example device; both functions return the pointer 1 to that signal. -/
theorem mdev_add_existing_signal_witness :
    signals_valid (example_registry 1 1 1) ∧
    name_exists (example_registry 1 1 1) (skip_slash "/out".toList) ∧
    ∃ j s sig, mdev_add_input example_registry_env (example_registry 1 1 1)
        (some "/out".toList) 1 'f' = some (example_registry 1 1 1, some s, []) ∧
      mdev_add_output example_registry_env (example_registry 1 1 1)
        (some "/out".toList) 1 'f' = some (example_registry 1 1 1, some s, []) ∧
      (example_registry 1 1 1).signals[s]? = some sig ∧ sig.name = skip_slash "/out".toList ∧
      ((j < (example_registry 1 1 1).props.num_inputs ∧
          (example_registry 1 1 1).inputs.getD j none = some s) ∨
        (j < (example_registry 1 1 1).props.num_outputs ∧
          (example_registry 1 1 1).outputs.getD j none = some s)) := by
  have hvalid : signals_valid (example_registry 1 1 1) := by
    constructor
    · intro i hi
      have hi0 : i = 0 := by
        have : i < 1 := hi
        omega
      subst hi0
      exact ⟨_, rfl⟩
    · intro i hi
      have hi0 : i = 0 := by
        have : i < 1 := hi
        omega
      subst hi0
      exact ⟨_, rfl⟩
  have hex : name_exists (example_registry 1 1 1) (skip_slash "/out".toList) :=
    Or.inr ⟨0, _, by decide, rfl, by decide⟩
  exact ⟨hvalid, hex, mdev_add_existing_signal example_registry_env (example_registry 1 1 1)
    "/out".toList 1 'f' hvalid hex⟩

/-! ### Unused signal ids -/

theorem signal_id_exists_true (signals : List device_signal) (array : List (Option Nat))
    (id n i : Nat)
    (hvalid : ∀ j, i ≤ j → j < i + n → ∃ sig, signal_of signals array j = some sig)
    (hex : ∃ j sig, i ≤ j ∧ j < i + n ∧ signal_of signals array j = some sig ∧ sig.id = id) :
    signal_id_exists signals array id n i = some true := by
  induction n generalizing i with
  | zero =>
    obtain ⟨j, _, h1, h2, _⟩ := hex
    omega
  | succ n ih =>
    obtain ⟨sig, hsig⟩ := hvalid i (Nat.le_refl i) (by omega)
    unfold signal_id_exists
    rw [hsig]
    simp only
    by_cases hn : sig.id = id
    · rw [if_pos hn]
    · rw [if_neg hn]
      refine ih (i + 1) (fun j hj1 hj2 => hvalid j (by omega) (by omega)) ?_
      obtain ⟨j, sig1, h1, h2, h3, h4⟩ := hex
      refine ⟨j, sig1, ?_, by omega, h3, h4⟩
      by_contra hlt
      have hji : j = i := by omega
      subst hji
      rw [hsig] at h3
      cases h3
      exact hn h4

theorem signal_id_exists_false (signals : List device_signal) (array : List (Option Nat))
    (id n i : Nat)
    (hvalid : ∀ j, i ≤ j → j < i + n → ∃ sig, signal_of signals array j = some sig)
    (hno : ∀ j sig, i ≤ j → j < i + n → signal_of signals array j = some sig → sig.id ≠ id) :
    signal_id_exists signals array id n i = some false := by
  induction n generalizing i with
  | zero => rfl
  | succ n ih =>
    obtain ⟨sig, hsig⟩ := hvalid i (Nat.le_refl i) (by omega)
    have hn := hno i sig (Nat.le_refl i) (by omega) hsig
    unfold signal_id_exists
    rw [hsig]
    simp only
    rw [if_neg hn]
    exact ih (i + 1) (fun j hj1 hj2 => hvalid j (by omega) (by omega))
      (fun j sig1 hj1 hj2 => hno j sig1 (by omega) (by omega))

theorem get_unused_signal_id_loop_some (fuel : Nat) (dev : signal_registry)
    (hvalid : signals_valid dev)
    (hfree : ∃ k, k < fuel ∧
      ¬ id_exists dev (((dev.resource_counter + k + 1) % 2 ^ 32) ||| dev.props.id)) :
    ∃ counter id, get_unused_signal_id_loop fuel dev =
        some ({ dev with resource_counter := counter }, id) ∧
      ¬ id_exists dev id := by
  induction fuel generalizing dev with
  | zero =>
    obtain ⟨k, hk, _⟩ := hfree
    omega
  | succ fuel ih =>
    unfold get_unused_signal_id_loop
    simp only [mdev_get_unique_id]
    by_cases hex : id_exists dev (((dev.resource_counter + 1) % 2 ^ 32) ||| dev.props.id)
    · have hrec : ∃ counter id, get_unused_signal_id_loop fuel
          { dev with resource_counter := (dev.resource_counter + 1) % 2 ^ 32 } =
            some ({ dev with resource_counter := counter }, id) ∧ ¬ id_exists dev id := by
        obtain ⟨k, hk, hfreek⟩ := hfree
        have hk0 : k ≠ 0 := by
          rintro rfl
          exact hfreek hex
        obtain ⟨counter, id, h1, h2⟩ := ih
          { dev with resource_counter := (dev.resource_counter + 1) % 2 ^ 32 } hvalid
          ⟨k - 1, by omega, by
            have e : ((dev.resource_counter + 1) % 2 ^ 32 + (k - 1) + 1) % 2 ^ 32 =
                (dev.resource_counter + k + 1) % 2 ^ 32 := by
              omega
            show ¬ id_exists dev
              ((((dev.resource_counter + 1) % 2 ^ 32 + (k - 1) + 1) % 2 ^ 32) ||| dev.props.id)
            rw [e]
            exact hfreek⟩
        exact ⟨counter, id, h1, h2⟩
      by_cases hin : ∃ j sig, j < dev.props.num_inputs ∧
          signal_of dev.signals dev.inputs j = some sig ∧
          sig.id = ((dev.resource_counter + 1) % 2 ^ 32) ||| dev.props.id
      · rw [signal_id_exists_true dev.signals dev.inputs _ dev.props.num_inputs 0
          (fun j _ hj => hvalid.1 j (by omega))
          (by
            obtain ⟨j, sig, h1, h2, h3⟩ := hin
            exact ⟨j, sig, Nat.zero_le j, by omega, h2, h3⟩)]
        exact hrec
      · rw [signal_id_exists_false dev.signals dev.inputs _ dev.props.num_inputs 0
          (fun j _ hj => hvalid.1 j (by omega))
          (fun j sig _ hj hs hn => hin ⟨j, sig, by omega, hs, hn⟩)]
        have hout : ∃ j sig, j < dev.props.num_outputs ∧
            signal_of dev.signals dev.outputs j = some sig ∧
            sig.id = ((dev.resource_counter + 1) % 2 ^ 32) ||| dev.props.id := by
          rcases hex with h | h
          · exact absurd h hin
          · exact h
        simp only
        rw [signal_id_exists_true dev.signals dev.outputs _ dev.props.num_outputs 0
          (fun j _ hj => hvalid.2 j (by omega))
          (by
            obtain ⟨j, sig, h1, h2, h3⟩ := hout
            exact ⟨j, sig, Nat.zero_le j, by omega, h2, h3⟩)]
        exact hrec
    · rw [signal_id_exists_false dev.signals dev.inputs _ dev.props.num_inputs 0
        (fun j _ hj => hvalid.1 j (by omega))
        (fun j sig _ hj hs hn => hex (Or.inl ⟨j, sig, by omega, hs, hn⟩))]
      simp only
      rw [signal_id_exists_false dev.signals dev.outputs _ dev.props.num_outputs 0
        (fun j _ hj => hvalid.2 j (by omega))
        (fun j sig _ hj hs hn => hex (Or.inr ⟨j, sig, by omega, hs, hn⟩))]
      exact ⟨_, _, rfl, hex⟩

/-! ### Growth of the pointer arrays -/

theorem grow_size_spec (length fuel size : Nat) (hsize : 1 ≤ size)
    (hfuel : length ≤ size * 2 ^ fuel) :
    ∃ k, grow_size length fuel size = some (size * 2 ^ k) ∧ length ≤ size * 2 ^ k ∧
      ∀ j, j < k → size * 2 ^ j < length := by
  induction fuel generalizing size with
  | zero =>
    unfold grow_size
    have : ¬ size < length := by
      simp only [pow_zero, mul_one] at hfuel
      omega
    rw [if_neg this]
    exact ⟨0, by simp, by simpa using Nat.le_of_not_lt this, fun j hj => by omega⟩
  | succ fuel ih =>
    unfold grow_size
    by_cases hlt : size < length
    · rw [if_pos hlt]
      obtain ⟨k, h1, h2, h3⟩ := ih (size * 2) (by omega) (by
        rw [pow_succ] at hfuel
        calc length ≤ size * (2 ^ fuel * 2) := hfuel
          _ = size * 2 * 2 ^ fuel := by ring)
      refine ⟨k + 1, ?_, ?_, ?_⟩
      · rw [h1]
        congr 1
        rw [pow_succ]
        ring
      · calc length ≤ size * 2 * 2 ^ k := h2
          _ = size * 2 ^ (k + 1) := by rw [pow_succ]; ring
      · intro j hj
        cases j with
        | zero => simpa using hlt
        | succ j =>
          have := h3 j (by omega)
          calc size * 2 ^ (j + 1) = size * 2 * 2 ^ j := by rw [pow_succ]; ring
            _ < length := this
    · rw [if_neg hlt]
      exact ⟨0, by simp, by simpa using Nat.le_of_not_lt hlt, fun j hj => by omega⟩

theorem grow_ptr_array_spec (array : List (Option Nat)) (length size : Nat)
    (hlength : 1 ≤ length) :
    ∃ size1, grow_ptr_array array length size =
        some (array.take size1 ++ List.replicate (size1 - array.length) none, size1) ∧
      length ≤ size1 ∧
      (size1 = size ∨ ∃ k, size1 = max size 1 * 2 ^ k ∧
        ∀ j, length ≤ max size 1 * 2 ^ j → size1 ≤ max size 1 * 2 ^ j) := by
  unfold grow_ptr_array
  simp only
  have hmax : (if size < length ∧ size = 0 then size + 1 else size) = max size 1 := by
    by_cases h0 : size = 0
    · subst h0
      have : (0 < length ∧ 0 = 0) := ⟨by omega, rfl⟩
      rw [if_pos this]
      rfl
    · have : ¬ (size < length ∧ size = 0) := fun h => h0 h.2
      rw [if_neg this]
      omega
  rw [hmax]
  obtain ⟨k, h1, h2, h3⟩ := grow_size_spec length length (max size 1) (by omega) (by
    have h4 : length < 2 ^ length := Nat.lt_two_pow length
    have h5 : 1 * 2 ^ length ≤ max size 1 * 2 ^ length :=
      Nat.mul_le_mul_right _ (by omega)
    omega)
  rw [h1]
  refine ⟨max size 1 * 2 ^ k, rfl, h2, Or.inr ⟨k, rfl, ?_⟩⟩
  intro j hj
  by_cases hjk : j < k
  · have := h3 j hjk
    omega
  · exact Nat.mul_le_mul_left _ (Nat.pow_le_pow_right (by omega) (by omega))

theorem realloc_length (array : List (Option Nat)) (size : Nat) :
    (array.take size ++ List.replicate (size - array.length) none).length = size := by
  rw [List.length_append, List.length_take, List.length_replicate]
  omega

theorem realloc_getD (array : List (Option Nat)) (size i : Nat) :
    (array.take size ++ List.replicate (size - array.length) none).getD i none =
      if i < size then array.getD i none else none := by
  rw [List.getD_eq_getElem?_getD, List.getD_eq_getElem?_getD]
  by_cases h1 : i < (array.take size).length
  · rw [List.getElem?_append_left h1, List.getElem?_take]
    have : i < size := by
      rw [List.length_take] at h1
      omega
    rw [if_pos this, if_pos this]
  · have h2 : (array.take size).length ≤ i := by omega
    rw [List.getElem?_append_right h2, List.getElem?_replicate]
    rw [List.length_take] at h2
    by_cases h3 : i < size
    · have h4 : array.length ≤ i := by omega
      rw [if_pos h3, List.getElem?_eq_none h4]
      split_ifs <;> rfl
    · rw [if_neg h3]
      split_ifs <;> rfl

/-! ### Addition of a signal -/

theorem signal_id_exists_false_elim (signals : List device_signal) (array : List (Option Nat))
    (id n i : Nat) (h : signal_id_exists signals array id n i = some false) :
    ∀ j, i ≤ j → j < i + n →
      ∃ sig, signal_of signals array j = some sig ∧ sig.id ≠ id := by
  induction n generalizing i with
  | zero =>
    intro j h1 h2
    omega
  | succ n ih =>
    unfold signal_id_exists at h
    cases hs : signal_of signals array i with
    | none =>
      rw [hs] at h
      cases h
    | some sig =>
      rw [hs] at h
      simp only at h
      by_cases hid : sig.id = id
      · rw [if_pos hid] at h
        cases h
      · rw [if_neg hid] at h
        intro j h1 h2
        by_cases hj : j = i
        · subst hj
          exact ⟨sig, hs, hid⟩
        · exact ih (i + 1) h j (by omega) (by omega)

theorem get_unused_signal_id_loop_fresh (fuel : Nat) (dev dev1 : signal_registry) (id : Nat)
    (h : get_unused_signal_id_loop fuel dev = some (dev1, id)) :
    dev1 = { dev with resource_counter := dev1.resource_counter } ∧
    id = dev1.resource_counter ||| dev.props.id ∧
    (∀ j, j < dev.props.num_inputs →
      ∃ sig, signal_of dev.signals dev.inputs j = some sig ∧ sig.id ≠ id) ∧
    (∀ j, j < dev.props.num_outputs →
      ∃ sig, signal_of dev.signals dev.outputs j = some sig ∧ sig.id ≠ id) := by
  induction fuel generalizing dev with
  | zero => cases h
  | succ fuel ih =>
    unfold get_unused_signal_id_loop at h
    simp only [mdev_get_unique_id] at h
    have hrec : get_unused_signal_id_loop fuel
        { dev with resource_counter := (dev.resource_counter + 1) % 2 ^ 32 } = some (dev1, id) →
        dev1 = { dev with resource_counter := dev1.resource_counter } ∧
        id = dev1.resource_counter ||| dev.props.id ∧
        (∀ j, j < dev.props.num_inputs →
          ∃ sig, signal_of dev.signals dev.inputs j = some sig ∧ sig.id ≠ id) ∧
        (∀ j, j < dev.props.num_outputs →
          ∃ sig, signal_of dev.signals dev.outputs j = some sig ∧ sig.id ≠ id) := by
      intro h1
      obtain ⟨e1, e2, e3, e4⟩ := ih _ h1
      refine ⟨?_, e2, e3, e4⟩
      rw [e1]
    cases hin : signal_id_exists dev.signals dev.inputs
        ((dev.resource_counter + 1) % 2 ^ 32 ||| dev.props.id) dev.props.num_inputs 0 with
    | none =>
      rw [hin] at h
      cases h
    | some b =>
      rw [hin] at h
      cases b with
      | true => exact hrec h
      | false =>
        simp only at h
        cases hout : signal_id_exists dev.signals dev.outputs
            ((dev.resource_counter + 1) % 2 ^ 32 ||| dev.props.id) dev.props.num_outputs 0 with
        | none =>
          rw [hout] at h
          cases h
        | some b =>
          rw [hout] at h
          cases b with
          | true => exact hrec h
          | false =>
            simp only at h
            cases h
            refine ⟨rfl, rfl, ?_, ?_⟩
            · intro j hj
              exact signal_id_exists_false_elim _ _ _ _ _ hin j (Nat.zero_le j) (by omega)
            · intro j hj
              exact signal_id_exists_false_elim _ _ _ _ _ hout j (Nat.zero_le j) (by omega)

theorem signal_of_append (signals : List device_signal) (x : device_signal)
    (array : List (Option Nat)) (i : Nat) (sig : device_signal)
    (h : signal_of signals array i = some sig) :
    signal_of (signals ++ [x]) array i = some sig := by
  unfold signal_of at h ⊢
  cases hp : array.getD i none with
  | none =>
    rw [hp] at h
    cases h
  | some s =>
    rw [hp] at h
    simp only at h ⊢
    have hlt : s < signals.length := by
      by_contra hge
      rw [List.getElem?_eq_none (by omega)] at h
      cases h
    rw [List.getElem?_append_left hlt]
    exact h

theorem signal_of_congr (signals : List device_signal) (array1 array2 : List (Option Nat))
    (i : Nat) (h : array1.getD i none = array2.getD i none) :
    signal_of signals array1 i = signal_of signals array2 i := by
  unfold signal_of
  rw [h]

theorem signal_of_new (signals : List device_signal) (x : device_signal)
    (array : List (Option Nat)) (i : Nat) (h : array.getD i none = some signals.length) :
    signal_of (signals ++ [x]) array i = some x := by
  unfold signal_of
  rw [h]
  simp

/-- Appending a signal with an unused id at index `n` keeps the ids of the array
distinct. -/
theorem array_ids_distinct_append (signals : List device_signal) (x : device_signal)
    (array array1 : List (Option Nat)) (n : Nat)
    (hd : array_ids_distinct signals array n)
    (hvalid : ∀ i, i < n → ∃ sig, signal_of signals array i = some sig ∧ sig.id ≠ x.id)
    (hold : ∀ i, i < n → array1.getD i none = array.getD i none)
    (hnew : array1.getD n none = some signals.length) :
    array_ids_distinct (signals ++ [x]) array1 (n + 1) := by
  have hsame : ∀ i, i < n → ∃ sig, signal_of signals array i = some sig ∧
      signal_of (signals ++ [x]) array1 i = some sig ∧ sig.id ≠ x.id := by
    intro i hi
    obtain ⟨sig, h1, h2⟩ := hvalid i hi
    refine ⟨sig, h1, ?_, h2⟩
    rw [signal_of_congr _ _ _ _ (hold i hi)]
    exact signal_of_append _ _ _ _ _ h1
  have hlast := signal_of_new signals x array1 n hnew
  intro i j s1 s2 hi hj hij h1 h2
  by_cases hin : i = n
  · subst hin
    rw [hlast] at h1
    cases h1
    obtain ⟨sig, _, e2, e3⟩ := hsame j (by omega)
    rw [e2] at h2
    cases h2
    exact fun e => e3 e.symm
  · obtain ⟨sig, e1, e2, e3⟩ := hsame i (by omega)
    rw [e2] at h1
    cases h1
    by_cases hjn : j = n
    · subst hjn
      rw [hlast] at h2
      cases h2
      exact e3
    · obtain ⟨sig2, f1, f2, _⟩ := hsame j (by omega)
      rw [f2] at h2
      cases h2
      exact hd i j _ _ (by omega) (by omega) hij e1 f1

theorem array_ids_distinct_frame (signals : List device_signal) (x : device_signal)
    (array : List (Option Nat)) (n : Nat) (hd : array_ids_distinct signals array n)
    (hvalid : ∀ i, i < n → ∃ sig, signal_of signals array i = some sig) :
    array_ids_distinct (signals ++ [x]) array n := by
  intro i j s1 s2 hi hj hij h1 h2
  obtain ⟨t1, e1⟩ := hvalid i hi
  obtain ⟨t2, e2⟩ := hvalid j hj
  rw [signal_of_append _ x _ _ _ e1] at h1
  rw [signal_of_append _ x _ _ _ e2] at h2
  cases h1
  cases h2
  exact hd i j _ _ hi hj hij e1 e2

theorem array_ids_disjoint_symm (signals : List device_signal) (array1 : List (Option Nat))
    (n : Nat) (array2 : List (Option Nat)) (m : Nat)
    (h : array_ids_disjoint signals array1 n array2 m) :
    array_ids_disjoint signals array2 m array1 n :=
  fun i j s1 s2 hi hj h1 h2 e => h j i s2 s1 hj hi h2 h1 e.symm

theorem array_ids_disjoint_append (signals : List device_signal) (x : device_signal)
    (array array1 : List (Option Nat)) (n : Nat) (array2 : List (Option Nat)) (m : Nat)
    (hd : array_ids_disjoint signals array n array2 m)
    (hvalid : ∀ i, i < n → ∃ sig, signal_of signals array i = some sig)
    (hvalid2 : ∀ j, j < m → ∃ sig, signal_of signals array2 j = some sig ∧ sig.id ≠ x.id)
    (hold : ∀ i, i < n → array1.getD i none = array.getD i none)
    (hnew : array1.getD n none = some signals.length) :
    array_ids_disjoint (signals ++ [x]) array1 (n + 1) array2 m := by
  intro i j s1 s2 hi hj h1 h2
  obtain ⟨t2, f1, f2⟩ := hvalid2 j hj
  rw [signal_of_append _ x _ _ _ f1] at h2
  cases h2
  by_cases hin : i = n
  · subst hin
    rw [signal_of_new signals x array1 i hnew] at h1
    cases h1
    exact fun e => f2 e.symm
  · obtain ⟨t1, e1⟩ := hvalid i (by omega)
    rw [signal_of_congr _ _ _ _ (hold i (by omega)), signal_of_append _ x _ _ _ e1] at h1
    cases h1
    exact hd i j _ _ (by omega) hj e1 f1

theorem mdev_add_input_ids_distinct (env : RegistryEnv) (md md1 : signal_registry)
    (name : Option (List Char)) (length : Int) (type : Char) (s : Nat)
    (ev : List RegistryEvent) (hd : ids_distinct md)
    (h : mdev_add_input env md name length type = some (md1, some s, ev)) :
    ids_distinct md1 := by
  unfold mdev_add_input at h
  cases hg : mdev_get_signal_by_name md name with
  | none =>
    rw [hg] at h
    cases h
  | some r =>
    rw [hg] at h
    cases r with
    | some r =>
      cases h
      exact hd
    | none =>
      simp only at h
      cases hnew : env.msig_new name length type env.DI_INCOMING with
      | none =>
        rw [hnew] at h
        cases h
      | some new =>
        rw [hnew] at h
        simp only at h
        cases hid : get_unused_signal_id md with
        | none =>
          rw [hid] at h
          cases h
        | some r =>
          obtain ⟨dev1, id⟩ := r
          rw [hid] at h
          simp only at h
          obtain ⟨e1, _, e3, e4⟩ := get_unused_signal_id_loop_fresh _ md dev1 id hid
          cases hgrow : grow_ptr_array dev1.inputs (dev1.props.num_inputs + 1)
              dev1.n_alloc_inputs with
          | none =>
            rw [hgrow] at h
            cases h
          | some r =>
            obtain ⟨array, size⟩ := r
            rw [hgrow] at h
            simp only [mdev_increment_version, Option.some.injEq, Prod.mk.injEq] at h
            obtain ⟨h1, _, _⟩ := h
            have hin : dev1.inputs = md.inputs := by rw [e1]
            have hnum : dev1.props.num_inputs = md.props.num_inputs := by rw [e1]
            have hsig : dev1.signals = md.signals := by rw [e1]
            have hout : dev1.outputs = md.outputs := by rw [e1]
            have hnout : dev1.props.num_outputs = md.props.num_outputs := by rw [e1]
            rw [hin, hnum] at hgrow
            obtain ⟨size1, hg1, hle, _⟩ := grow_ptr_array_spec md.inputs
              (md.props.num_inputs + 1) dev1.n_alloc_inputs (by omega)
            rw [hg1] at hgrow
            simp only [Option.some.injEq, Prod.mk.injEq] at hgrow
            obtain ⟨harr, hsize⟩ := hgrow
            have hold : ∀ i, i < md.props.num_inputs →
                (array.set md.props.num_inputs (some md.signals.length)).getD i none =
                  md.inputs.getD i none := by
              intro i hi
              rw [← harr, List.getD_eq_getElem?_getD, List.getElem?_set_ne (by omega),
                ← List.getD_eq_getElem?_getD, realloc_getD, if_pos (by omega)]
            have hlast : (array.set md.props.num_inputs (some md.signals.length)).getD
                md.props.num_inputs none = some md.signals.length := by
              have hlt : md.props.num_inputs < array.length := by
                rw [← harr, realloc_length]
                omega
              rw [List.getD_eq_getElem?_getD, List.getElem?_set_self hlt]
              rfl
            subst h1
            simp only [hsig, hnum, hout, hnout, Nat.add_sub_cancel]
            refine ⟨?_, ?_, ?_⟩
            · exact array_ids_distinct_append md.signals { new with id := id } md.inputs _
                md.props.num_inputs hd.1 e3 hold hlast
            · exact array_ids_distinct_frame md.signals _ md.outputs md.props.num_outputs hd.2.1
                (fun i hi => (e4 i hi).imp fun _ h => h.1)
            · exact array_ids_disjoint_append md.signals { new with id := id } md.inputs _
                md.props.num_inputs md.outputs md.props.num_outputs hd.2.2
                (fun i hi => (e3 i hi).imp fun _ h => h.1) e4 hold hlast

theorem mdev_add_output_ids_distinct (env : RegistryEnv) (md md1 : signal_registry)
    (name : Option (List Char)) (length : Int) (type : Char) (s : Nat)
    (ev : List RegistryEvent) (hd : ids_distinct md)
    (h : mdev_add_output env md name length type = some (md1, some s, ev)) :
    ids_distinct md1 := by
  unfold mdev_add_output at h
  cases hg : mdev_get_signal_by_name md name with
  | none =>
    rw [hg] at h
    cases h
  | some r =>
    rw [hg] at h
    cases r with
    | some r =>
      cases h
      exact hd
    | none =>
      simp only at h
      cases hnew : env.msig_new name length type env.DI_OUTGOING with
      | none =>
        rw [hnew] at h
        cases h
      | some new =>
        rw [hnew] at h
        simp only at h
        cases hid : get_unused_signal_id md with
        | none =>
          rw [hid] at h
          cases h
        | some r =>
          obtain ⟨dev1, id⟩ := r
          rw [hid] at h
          simp only at h
          obtain ⟨e1, _, e3, e4⟩ := get_unused_signal_id_loop_fresh _ md dev1 id hid
          cases hgrow : grow_ptr_array dev1.outputs (dev1.props.num_outputs + 1)
              dev1.n_alloc_outputs with
          | none =>
            rw [hgrow] at h
            cases h
          | some r =>
            obtain ⟨array, size⟩ := r
            rw [hgrow] at h
            simp only [mdev_increment_version, Option.some.injEq, Prod.mk.injEq] at h
            obtain ⟨h1, _, _⟩ := h
            have hxin : dev1.outputs = md.outputs := by rw [e1]
            have hnum : dev1.props.num_outputs = md.props.num_outputs := by rw [e1]
            have hsig : dev1.signals = md.signals := by rw [e1]
            have hout : dev1.inputs = md.inputs := by rw [e1]
            have hnout : dev1.props.num_inputs = md.props.num_inputs := by rw [e1]
            rw [hxin, hnum] at hgrow
            obtain ⟨size1, hg1, hle, _⟩ := grow_ptr_array_spec md.outputs
              (md.props.num_outputs + 1) dev1.n_alloc_outputs (by omega)
            rw [hg1] at hgrow
            simp only [Option.some.injEq, Prod.mk.injEq] at hgrow
            obtain ⟨harr, hsize⟩ := hgrow
            have hold : ∀ i, i < md.props.num_outputs →
                (array.set md.props.num_outputs (some md.signals.length)).getD i none =
                  md.outputs.getD i none := by
              intro i hi
              rw [← harr, List.getD_eq_getElem?_getD, List.getElem?_set_ne (by omega),
                ← List.getD_eq_getElem?_getD, realloc_getD, if_pos (by omega)]
            have hlast : (array.set md.props.num_outputs (some md.signals.length)).getD
                md.props.num_outputs none = some md.signals.length := by
              have hlt : md.props.num_outputs < array.length := by
                rw [← harr, realloc_length]
                omega
              rw [List.getD_eq_getElem?_getD, List.getElem?_set_self hlt]
              rfl
            subst h1
            simp only [hsig, hnum, hout, hnout, Nat.add_sub_cancel]
            refine ⟨?_, ?_, ?_⟩
            · exact array_ids_distinct_frame md.signals _ md.inputs md.props.num_inputs hd.1
                (fun i hi => (e3 i hi).imp fun _ h => h.1)
            · exact array_ids_distinct_append md.signals { new with id := id } md.outputs _
                md.props.num_outputs hd.2.1 e4 hold hlast
            · exact array_ids_disjoint_symm _ _ _ _ _
                (array_ids_disjoint_append md.signals { new with id := id } md.outputs _
                  md.props.num_outputs md.inputs md.props.num_inputs
                  (array_ids_disjoint_symm _ _ _ _ _ hd.2.2)
                  (fun i hi => (e4 i hi).imp fun _ h => h.1) e3 hold hlast)

/-- C24: when `get_unused_signal_id` returns, it has only changed the resource
counter, the id is the new counter ORed with the device id, and no signal in
the input or output array has that id; it does return when some value of the
counter gives an unused id.  A call of `mdev_add_input` or `mdev_add_output`
that returns a signal keeps the ids of the signals in the arrays pairwise
distinct. -/
theorem get_unused_signal_id_spec (env : RegistryEnv) (md : signal_registry) :
    (∀ md1 id, get_unused_signal_id md = some (md1, id) →
      md1 = { md with resource_counter := md1.resource_counter } ∧
      id = md1.resource_counter ||| md.props.id ∧ ¬ id_exists md id) ∧
    (signals_valid md →
      (∃ k, k < 2 ^ 32 ∧
        ¬ id_exists md (((md.resource_counter + k + 1) % 2 ^ 32) ||| md.props.id)) →
      ∃ md1 id, get_unused_signal_id md = some (md1, id)) ∧
    (∀ name length type md1 s ev, ids_distinct md →
      mdev_add_input env md name length type = some (md1, some s, ev) → ids_distinct md1) ∧
    (∀ name length type md1 s ev, ids_distinct md →
      mdev_add_output env md name length type = some (md1, some s, ev) → ids_distinct md1) := by
  refine ⟨?_, ?_, ?_, ?_⟩
  · intro md1 id h
    obtain ⟨e1, e2, e3, e4⟩ := get_unused_signal_id_loop_fresh _ md md1 id h
    refine ⟨e1, e2, ?_⟩
    rintro (⟨i, sig, hi, hs, hid⟩ | ⟨i, sig, hi, hs, hid⟩)
    · obtain ⟨sig1, h1, h2⟩ := e3 i hi
      rw [hs] at h1
      cases h1
      exact h2 hid
    · obtain ⟨sig1, h1, h2⟩ := e4 i hi
      rw [hs] at h1
      cases h1
      exact h2 hid
  · intro hvalid hfree
    obtain ⟨counter, id, h, _⟩ := get_unused_signal_id_loop_some (2 ^ 32) md hvalid hfree
    exact ⟨_, id, h⟩
  · intro name length type md1 s ev hd h
    exact mdev_add_input_ids_distinct env md md1 name length type s ev hd h
  · intro name length type md1 s ev hd h
    exact mdev_add_output_ids_distinct env md md1 name length type s ev hd h

/-- C24 at a concrete input: on the example device, whose signals have the ids 1
and 2, `get_unused_signal_id` returns `0xABCDEF00_00000001`, and the ids are
distinct after the input `/freq` has been added. -/
theorem get_unused_signal_id_spec_witness :
    ids_distinct (example_registry 1 1 1) ∧
    get_unused_signal_id (example_registry 1 1 1) =
      some ({ example_registry 1 1 1 with resource_counter := 1 }, 0xABCDEF0000000001) ∧
    ¬ id_exists (example_registry 1 1 1) 0xABCDEF0000000001 ∧
    ∃ md1 s ev, mdev_add_input example_registry_env (example_registry 1 1 1)
        (some "/freq".toList) 1 'f' = some (md1, some s, ev) ∧ ids_distinct md1 := by
  have hsig : ∀ i sig, i < 1 →
      (signal_of (example_registry 1 1 1).signals (example_registry 1 1 1).inputs i = some sig →
        sig.id = 1) ∧
      (signal_of (example_registry 1 1 1).signals (example_registry 1 1 1).outputs i = some sig →
        sig.id = 2) := by
    intro i sig hi
    have hi0 : i = 0 := by omega
    subst hi0
    constructor
    · intro h
      have e : signal_of (example_registry 1 1 1).signals (example_registry 1 1 1).inputs 0 =
          some { name := "in".toList, path := "/in".toList, id := 1
                 id_maps := [{ map := some 0, inst := some 0, status := 0 }] } := rfl
      rw [e] at h
      cases h
      rfl
    · intro h
      have e : signal_of (example_registry 1 1 1).signals (example_registry 1 1 1).outputs 0 =
          some { name := "out".toList, path := "/out".toList, id := 2
                 id_maps := [{ map := some 1, inst := some 0, status := 0 }] } := rfl
      rw [e] at h
      cases h
      rfl
  have hd : ids_distinct (example_registry 1 1 1) := by
    refine ⟨?_, ?_, ?_⟩
    · intro i j s1 s2 hi hj hij
      have h1 : i < 1 := hi
      have h2 : j < 1 := hj
      omega
    · intro i j s1 s2 hi hj hij
      have h1 : i < 1 := hi
      have h2 : j < 1 := hj
      omega
    · intro i j s1 s2 hi hj h1 h2
      rw [(hsig i s1 hi).1 h1, (hsig j s2 hj).2 h2]
      decide
  have hrun : get_unused_signal_id (example_registry 1 1 1) =
      some ({ example_registry 1 1 1 with resource_counter := 1 }, 0xABCDEF0000000001) := by
    rfl
  refine ⟨hd, hrun,
    ((get_unused_signal_id_spec example_registry_env (example_registry 1 1 1)).1 _ _ hrun).2.2,
    _, _, _, rfl, ?_⟩
  exact (get_unused_signal_id_spec example_registry_env (example_registry 1 1 1)).2.2.1
    (some "/freq".toList) 1 'f' _ _ _ hd rfl


/-! ### File descriptors -/

/-- C25, evaluation at the failing input: with `num = 0` (and with `num = -1`)
`mdev_get_fds` writes nothing to `fds` and returns 1. -/
theorem mdev_get_fds_none_requested :
    mdev_get_fds example_device_env (example_device_record 1) [7, 8, 9] 0 =
      some ([7, 8, 9], 1) ∧
    mdev_get_fds example_device_env (example_device_record 1) [7, 8, 9] (-1) =
      some ([7, 8, 9], 1) := by
  constructor <;> rfl

/-! ### Properties of the device -/

/-- C26: for each of the eleven locked keys and every type, value and length,
`mdev_set_property` returns and leaves the whole device as it is. -/
theorem mdev_set_property_locked (env : DeviceEnv) (dev : device_record)
    (property : List Char) (type : Char) (value : Option (List Char)) (length : Int)
    (h : property ∈ locked_properties) :
    mdev_set_property env dev property type value length = some dev := by
  unfold mdev_set_property
  have h1 : property = "host".toList ∨ property = "libversion".toList ∨
      property = "name".toList ∨ property = "num_incoming_maps".toList ∨
      property = "num_outgoing_maps".toList ∨ property = "num_inputs".toList ∨
      property = "num_outputs".toList ∨ property = "port".toList ∨
      property = "synced".toList ∨ property = "user_data".toList ∨
      property = "version".toList := by
    simpa [locked_properties] using h
  rw [if_pos h1]

/-- C26 at a concrete input: an attempt to set `version` to the string `7`. -/
theorem mdev_set_property_locked_witness :
    "version".toList ∈ locked_properties ∧
    mdev_set_property example_device_env (example_device_record 1) "version".toList 's'
      (some "7".toList) 1 = some (example_device_record 1) :=
  ⟨by decide, mdev_set_property_locked example_device_env (example_device_record 1)
    "version".toList 's' (some "7".toList) 1 (by decide)⟩

/-- C27, evaluation at the failing input: the description `old` is cleared with a
null value and length 0.  The block is freed, but `props.description` keeps its
address: it is not null afterwards, and the next call that sets a description
frees the block a second time. -/
theorem mdev_set_property_description_dangling :
    (mdev_set_property example_device_env (example_device_record 1) "description".toList 's'
        none 0).map (fun dev => (dev.description, dev.extra,
          mdev_set_property example_device_env dev "description".toList 's'
            (some "new".toList) 1)) =
      some (heap_string.freed, some [], none) := by
  rfl

/-! ### The name of the device -/

/-- C28, counterexample: a registered device `synth` with the locked ordinal
10000 and no cached name; `mdev_name` returns `synth.1000`, which is not
`synth.10000`. -/
theorem mdev_name_truncated :
    (mdev_name (example_device_record 10000)).map (fun r => r.2) =
      some (some "synth.1000".toList) ∧
    "synth.1000".toList ≠ qualified_name "synth".toList 10000 := by
  constructor
  · rfl
  · decide

/-- C28 (amended): for a device that is not registered or whose ordinal is not
locked `mdev_name` returns null.  For a registered device with a locked ordinal
and no cached name it returns, and caches, the first `strlen(identifier) + 5`
characters of `identifier ++ "." ++ decimal(ordinal)`; that is the whole string
exactly when the ordinal has at most 4 characters in decimal. -/
theorem mdev_name_spec (md : device_record) :
    ((md.reg.registered = false ∨ md.ordinal.locked = 0) → mdev_name md = some (md, none)) ∧
    (∀ identifier, md.reg.registered = true → md.ordinal.locked ≠ 0 →
      md.name = heap_string.null → md.identifier = heap_string.valid identifier →
      mdev_name md =
        some ({ md with
            name := heap_string.valid
              ((qualified_name identifier md.ordinal.value).take (identifier.length + 5)) },
          some ((qualified_name identifier md.ordinal.value).take (identifier.length + 5))) ∧
      ((qualified_name identifier md.ordinal.value).take (identifier.length + 5) =
          qualified_name identifier md.ordinal.value ↔
        (decimal md.ordinal.value).length ≤ 4)) := by
  constructor
  · intro h
    unfold mdev_name
    rw [if_pos h]
  · intro identifier hreg hlock hname hid
    constructor
    · unfold mdev_name
      have h : ¬ (md.reg.registered = false ∨ md.ordinal.locked = 0) := by
        rintro (h | h)
        · rw [hreg] at h
          cases h
        · exact hlock h
      rw [if_neg h, hname, hid]
      rfl
    · rw [List.take_eq_self_iff]
      simp only [qualified_name, List.length_append, List.length_cons]
      omega

/-- C28 (amended) at concrete inputs: the device `synth` with the locked ordinal
1 is named `synth.1`, and has no name before it is registered. -/
theorem mdev_name_spec_witness :
    mdev_name (example_device_record 1) =
      some ({ example_device_record 1 with name := heap_string.valid "synth.1".toList },
        some "synth.1".toList) ∧
    mdev_name { example_device_record 1 with
        reg := { (example_device_record 1).reg with registered := false } } =
      some ({ example_device_record 1 with
        reg := { (example_device_record 1).reg with registered := false } }, none) :=
  ⟨((mdev_name_spec (example_device_record 1)).2 "synth".toList rfl (by decide) rfl rfl).1,
    (mdev_name_spec _).1 (Or.inl rfl)⟩

/-! ### Removal of a signal from its array -/

theorem getD_set (array : List (Option Nat)) (n j : Nat) (v : Option Nat) :
    (array.set n v).getD j none =
      if n = j ∧ n < array.length then v else array.getD j none := by
  rw [List.getD_eq_getElem?_getD, List.getD_eq_getElem?_getD, List.getElem?_set]
  by_cases h : n = j
  · subst h
    by_cases hlt : n < array.length
    · simp [hlt]
    · simp [hlt, List.getElem?_eq_none (Nat.le_of_not_lt hlt)]
  · simp [h]

theorem getD_of_length_le (array : List (Option Nat)) (j : Nat) (h : array.length ≤ j) :
    array.getD j none = none := by
  rw [List.getD_eq_getElem?_getD, List.getElem?_eq_none h]
  rfl

theorem find_signal_index_spec (array : List (Option Nat)) (sig n i : Nat) :
    i ≤ find_signal_index array sig n i ∧ find_signal_index array sig n i ≤ i + n ∧
    (∀ j, i ≤ j → j < find_signal_index array sig n i → array.getD j none ≠ some sig) ∧
    (find_signal_index array sig n i < i + n →
      array.getD (find_signal_index array sig n i) none = some sig) := by
  induction n generalizing i with
  | zero =>
    refine ⟨Nat.le_refl i, Nat.le_refl i, ?_, ?_⟩
    · intro j h1 h2
      simp only [find_signal_index] at h2
      omega
    · intro h
      simp only [find_signal_index] at h
      omega
  | succ n ih =>
    unfold find_signal_index
    by_cases h : array.getD i none = some sig
    · rw [if_pos h]
      exact ⟨Nat.le_refl i, by omega, fun j h1 h2 => by omega, fun _ => h⟩
    · rw [if_neg h]
      obtain ⟨h1, h2, h3, h4⟩ := ih (i + 1)
      refine ⟨by omega, by omega, ?_, fun h5 => h4 (by omega)⟩
      intro j hj1 hj2
      by_cases hji : j = i
      · subst hji
        exact h
      · exact h3 j (by omega) hj2

theorem find_signal_index_eq (array : List (Option Nat)) (sig n i : Nat) (hi : i < n)
    (hat : array.getD i none = some sig)
    (hfirst : ∀ j, j < i → array.getD j none ≠ some sig) :
    find_signal_index array sig n 0 = i := by
  obtain ⟨_, h2, h3, h4⟩ := find_signal_index_spec array sig n 0
  by_contra hne
  rcases Nat.lt_or_gt_of_ne hne with hlt | hgt
  · exact hfirst _ hlt (h4 (by omega))
  · exact h3 i (Nat.zero_le i) hgt hat

theorem find_signal_index_absent (array : List (Option Nat)) (sig n : Nat)
    (hno : ∀ j, j < n → array.getD j none ≠ some sig) :
    find_signal_index array sig n 0 = n := by
  obtain ⟨_, h2, _, h4⟩ := find_signal_index_spec array sig n 0
  by_contra hne
  have hlt : find_signal_index array sig n 0 < n := by omega
  exact hno _ hlt (h4 (by omega))

theorem shift_signals_length (k n : Nat) (array : List (Option Nat)) :
    (shift_signals k n array).length = array.length := by
  induction k generalizing n array with
  | zero => rfl
  | succ k ih =>
    unfold shift_signals
    rw [ih, List.length_set]

theorem shift_signals_getD (k n : Nat) (array : List (Option Nat)) (j : Nat) :
    (shift_signals k n array).getD j none =
      if n ≤ j ∧ j < n + k then array.getD (j + 1) none else array.getD j none := by
  induction k generalizing n array with
  | zero =>
    have : ¬ (n ≤ j ∧ j < n + 0) := by omega
    rw [if_neg this]
    rfl
  | succ k ih =>
    unfold shift_signals
    rw [ih, getD_set, getD_set]
    by_cases h1 : n + 1 ≤ j ∧ j < n + 1 + k
    · have h2 : n ≤ j ∧ j < n + (k + 1) := by omega
      have h3 : ¬ (n = j + 1 ∧ n < array.length) := by omega
      rw [if_pos h1, if_pos h2, if_neg h3]
    · rw [if_neg h1]
      by_cases h4 : n = j
      · subst h4
        have h2 : n ≤ n ∧ n < n + (k + 1) := by omega
        rw [if_pos h2]
        by_cases h5 : n < array.length
        · rw [if_pos ⟨rfl, h5⟩]
        · have h6 : ¬ (n = n ∧ n < array.length) := fun h => h5 h.2
          rw [if_neg h6, getD_of_length_le array n (by omega),
            getD_of_length_le array (n + 1) (by omega)]
      · have h2 : ¬ (n ≤ j ∧ j < n + (k + 1)) := by omega
        have h3 : ¬ (n = j ∧ n < array.length) := fun h => h4 h.1
        rw [if_neg h2, if_neg h3]

theorem mdev_remove_input_found (env : DeviceEnv) (md : device_record) (sig i : Nat)
    (s : device_signal) (router : device_router) (unmapped : List DeviceEvent)
    (hi : i < md.reg.props.num_inputs) (hat : md.reg.inputs.getD i none = some sig)
    (hfirst : ∀ j, j < i → md.reg.inputs.getD j none ≠ some sig)
    (hsig : md.reg.signals[sig]? = some s)
    (hunmap : unmap_signal env md sig = some (router, unmapped)) :
    ∃ md1 events, mdev_remove_input env md sig = some (md1, events) ∧
      md1.reg.props.num_inputs = md.reg.props.num_inputs - 1 ∧
      md1.reg.props.version = int_wrap (md.reg.props.version + 1) ∧
      md1.reg.n_alloc_inputs = md.reg.n_alloc_inputs ∧
      md1.reg.inputs.length = md.reg.inputs.length ∧
      (∀ j, j < md.reg.props.num_inputs - 1 →
        md1.reg.inputs.getD j none =
          if j < i then md.reg.inputs.getD j none else md.reg.inputs.getD (j + 1) none) ∧
      md1.reg.outputs = md.reg.outputs ∧
      md1.reg.props.num_outputs = md.reg.props.num_outputs ∧
      md1.reg.signals = md.reg.signals ∧ md1.router = some router := by
  unfold mdev_remove_input
  simp only
  rw [find_signal_index_eq md.reg.inputs sig md.reg.props.num_inputs i hi hat hfirst,
    if_neg (by omega), hsig]
  simp only
  rw [hunmap]
  simp only [mdev_increment_version]
  refine ⟨_, _, rfl, rfl, rfl, rfl, ?_, ?_, rfl, rfl, rfl, rfl⟩
  · exact shift_signals_length _ _ _
  · intro j hj
    show (shift_signals (md.reg.props.num_inputs - 1 - i) i md.reg.inputs).getD j none = _
    rw [shift_signals_getD]
    by_cases hji : j < i
    · have : ¬ (i ≤ j ∧ j < i + (md.reg.props.num_inputs - 1 - i)) := by omega
      rw [if_neg this, if_pos hji]
    · have : i ≤ j ∧ j < i + (md.reg.props.num_inputs - 1 - i) := by omega
      rw [if_pos this, if_neg hji]

theorem mdev_remove_input_absent (env : DeviceEnv) (md : device_record) (sig : Nat)
    (hno : ∀ j, j < md.reg.props.num_inputs → md.reg.inputs.getD j none ≠ some sig) :
    mdev_remove_input env md sig = some (md, []) := by
  unfold mdev_remove_input
  simp only
  rw [find_signal_index_absent md.reg.inputs sig md.reg.props.num_inputs hno, if_pos rfl]

/-- C22: when `sig` is in the input array, first at index `i`, and the unmapping
of its router signal ends, `mdev_remove_input` returns with `num_inputs`
decreased by 1, `version` increased by 1, the capacity and the length of the
array unchanged, and the first `num_inputs - 1` entries being the earlier
entries without entry `i`, in their order; `version` is the value of an `int`
below `INT_MAX`, so that its increment does not overflow.  When `sig` is not
in the input array it returns without a call and leaves the device, and so
`num_inputs`, the array, `version` and the router, as it is. -/
theorem mdev_remove_input_spec (env : DeviceEnv) (md : device_record) (sig : Nat) :
    (∀ i s router unmapped, i < md.reg.props.num_inputs →
      md.reg.inputs.getD i none = some sig →
      (∀ j, j < i → md.reg.inputs.getD j none ≠ some sig) →
      md.reg.signals[sig]? = some s →
      unmap_signal env md sig = some (router, unmapped) →
      (-2 ^ 31 ≤ md.reg.props.version ∧ md.reg.props.version < 2 ^ 31 - 1) →
      ∃ md1 events, mdev_remove_input env md sig = some (md1, events) ∧
        md1.reg.props.num_inputs = md.reg.props.num_inputs - 1 ∧
        md1.reg.props.version = md.reg.props.version + 1 ∧
        md1.reg.n_alloc_inputs = md.reg.n_alloc_inputs ∧
        md1.reg.inputs.length = md.reg.inputs.length ∧
        ∀ j, j < md.reg.props.num_inputs - 1 →
          md1.reg.inputs.getD j none =
            if j < i then md.reg.inputs.getD j none else md.reg.inputs.getD (j + 1) none) ∧
    ((∀ j, j < md.reg.props.num_inputs → md.reg.inputs.getD j none ≠ some sig) →
      mdev_remove_input env md sig = some (md, [])) := by
  constructor
  · intro i s router unmapped hi hat hfirst hsig hunmap hint
    obtain ⟨md1, events, h1, h2, h3, h4, h5, h6, _⟩ :=
      mdev_remove_input_found env md sig i s router unmapped hi hat hfirst hsig hunmap
    exact ⟨md1, events, h1, h2, h3.trans (int_wrap_succ _ hint), h4, h5, h6⟩
  · exact mdev_remove_input_absent env md sig

/-- C22 at concrete inputs: the input `in` (signal 0) of the example device is
removed, and the removal of a signal that is not an input (signal 1, the
output) changes nothing. -/
theorem mdev_remove_input_spec_witness :
    (∃ md1 events, mdev_remove_input example_device_env (example_device_record 1) 0 =
        some (md1, events) ∧
      md1.reg.props.num_inputs = (example_device_record 1).reg.props.num_inputs - 1 ∧
      md1.reg.props.version = (example_device_record 1).reg.props.version + 1 ∧
      md1.reg.n_alloc_inputs = (example_device_record 1).reg.n_alloc_inputs ∧
      md1.reg.inputs.length = (example_device_record 1).reg.inputs.length ∧
      ∀ j, j < (example_device_record 1).reg.props.num_inputs - 1 →
        md1.reg.inputs.getD j none =
          if j < 0 then (example_device_record 1).reg.inputs.getD j none
          else (example_device_record 1).reg.inputs.getD (j + 1) none) ∧
    mdev_remove_input example_device_env (example_device_record 1) 1 =
      some (example_device_record 1, []) := by
  constructor
  · exact (mdev_remove_input_spec example_device_env (example_device_record 1) 0).1 0 _ _ _
      (by decide) rfl (fun j hj => absurd hj (Nat.not_lt_zero j)) rfl rfl (by decide)
  · refine (mdev_remove_input_spec example_device_env (example_device_record 1) 1).2 ?_
    intro j hj
    have hj0 : j = 0 := by
      have : j < 1 := hj
      omega
    subst hj0
    decide

/-! ### Addition followed by removal -/

theorem mdev_add_input_version (env : RegistryEnv) (md md1 : signal_registry)
    (name : Option (List Char)) (length : Int) (type : Char) (r : Option Nat)
    (ev : List RegistryEvent)
    (h : mdev_add_input env md name length type = some (md1, r, ev)) :
    md1 = md ∨
    (md1.props.version = int_wrap (md.props.version + 1) ∧
      md1.props.num_inputs = md.props.num_inputs + 1 ∧
      md1.props.num_outputs = md.props.num_outputs) := by
  unfold mdev_add_input at h
  cases hg : mdev_get_signal_by_name md name with
  | none =>
    rw [hg] at h
    cases h
  | some r0 =>
    rw [hg] at h
    cases r0 with
    | some r0 =>
      cases h
      exact Or.inl rfl
    | none =>
      simp only at h
      cases hnew : env.msig_new name length type env.DI_INCOMING with
      | none =>
        rw [hnew] at h
        cases h
        exact Or.inl rfl
      | some new =>
        rw [hnew] at h
        simp only at h
        cases hid : get_unused_signal_id md with
        | none =>
          rw [hid] at h
          cases h
        | some r1 =>
          obtain ⟨dev1, id⟩ := r1
          rw [hid] at h
          simp only at h
          obtain ⟨e1, _⟩ := get_unused_signal_id_loop_fresh _ md dev1 id hid
          cases hgrow : grow_ptr_array dev1.inputs (dev1.props.num_inputs + 1)
              dev1.n_alloc_inputs with
          | none =>
            rw [hgrow] at h
            cases h
          | some r2 =>
            obtain ⟨array, size⟩ := r2
            rw [hgrow] at h
            simp only [mdev_increment_version, Option.some.injEq, Prod.mk.injEq] at h
            obtain ⟨h1, _, _⟩ := h
            subst h1
            right
            have hp : dev1.props = md.props := by rw [e1]
            simp only [hp]
            exact ⟨trivial, trivial, trivial⟩

theorem mdev_add_output_version (env : RegistryEnv) (md md1 : signal_registry)
    (name : Option (List Char)) (length : Int) (type : Char) (r : Option Nat)
    (ev : List RegistryEvent)
    (h : mdev_add_output env md name length type = some (md1, r, ev)) :
    md1 = md ∨
    (md1.props.version = int_wrap (md.props.version + 1) ∧
      md1.props.num_outputs = md.props.num_outputs + 1 ∧
      md1.props.num_inputs = md.props.num_inputs) := by
  unfold mdev_add_output at h
  cases hg : mdev_get_signal_by_name md name with
  | none =>
    rw [hg] at h
    cases h
  | some r0 =>
    rw [hg] at h
    cases r0 with
    | some r0 =>
      cases h
      exact Or.inl rfl
    | none =>
      simp only at h
      cases hnew : env.msig_new name length type env.DI_OUTGOING with
      | none =>
        rw [hnew] at h
        cases h
        exact Or.inl rfl
      | some new =>
        rw [hnew] at h
        simp only at h
        cases hid : get_unused_signal_id md with
        | none =>
          rw [hid] at h
          cases h
        | some r1 =>
          obtain ⟨dev1, id⟩ := r1
          rw [hid] at h
          simp only at h
          obtain ⟨e1, _⟩ := get_unused_signal_id_loop_fresh _ md dev1 id hid
          cases hgrow : grow_ptr_array dev1.outputs (dev1.props.num_outputs + 1)
              dev1.n_alloc_outputs with
          | none =>
            rw [hgrow] at h
            cases h
          | some r2 =>
            obtain ⟨array, size⟩ := r2
            rw [hgrow] at h
            simp only [mdev_increment_version, Option.some.injEq, Prod.mk.injEq] at h
            obtain ⟨h1, _, _⟩ := h
            subst h1
            right
            have hp : dev1.props = md.props := by rw [e1]
            simp only [hp]
            exact ⟨trivial, trivial, trivial⟩

theorem mdev_remove_input_version (env : DeviceEnv) (md md1 : device_record) (sig : Nat)
    (ev : List DeviceEvent) (h : mdev_remove_input env md sig = some (md1, ev)) :
    md1 = md ∨
    (md1.reg.props.version = int_wrap (md.reg.props.version + 1) ∧
      md1.reg.props.num_inputs = md.reg.props.num_inputs - 1 ∧
      1 ≤ md.reg.props.num_inputs ∧
      md1.reg.props.num_outputs = md.reg.props.num_outputs) := by
  unfold mdev_remove_input at h
  simp only at h
  have hle := (find_signal_index_spec md.reg.inputs sig md.reg.props.num_inputs 0).2.1
  by_cases hi : find_signal_index md.reg.inputs sig md.reg.props.num_inputs 0 =
      md.reg.props.num_inputs
  · rw [if_pos hi] at h
    cases h
    exact Or.inl rfl
  · rw [if_neg hi] at h
    cases hs : md.reg.signals[sig]? with
    | none =>
      rw [hs] at h
      cases h
    | some s =>
      rw [hs] at h
      simp only at h
      cases hu : unmap_signal env md sig with
      | none =>
        rw [hu] at h
        cases h
      | some r =>
        rw [hu] at h
        simp only [mdev_increment_version, Option.some.injEq, Prod.mk.injEq] at h
        obtain ⟨h1, _⟩ := h
        subst h1
        exact Or.inr ⟨rfl, rfl, by omega, rfl⟩

theorem mdev_remove_output_version (env : DeviceEnv) (md md1 : device_record) (sig : Nat)
    (ev : List DeviceEvent) (h : mdev_remove_output env md sig = some (md1, ev)) :
    md1 = md ∨
    (md1.reg.props.version = int_wrap (md.reg.props.version + 1) ∧
      md1.reg.props.num_outputs = md.reg.props.num_outputs - 1 ∧
      1 ≤ md.reg.props.num_outputs ∧
      md1.reg.props.num_inputs = md.reg.props.num_inputs) := by
  unfold mdev_remove_output at h
  simp only at h
  have hle := (find_signal_index_spec md.reg.outputs sig md.reg.props.num_outputs 0).2.1
  by_cases hi : find_signal_index md.reg.outputs sig md.reg.props.num_outputs 0 =
      md.reg.props.num_outputs
  · rw [if_pos hi] at h
    cases h
    exact Or.inl rfl
  · rw [if_neg hi] at h
    cases hs : md.reg.signals[sig]? with
    | none =>
      rw [hs] at h
      cases h
    | some s =>
      rw [hs] at h
      simp only at h
      cases hu : unmap_signal env md sig with
      | none =>
        rw [hu] at h
        cases h
      | some r =>
        rw [hu] at h
        simp only [mdev_increment_version, Option.some.injEq, Prod.mk.injEq] at h
        obtain ⟨h1, _⟩ := h
        subst h1
        exact Or.inr ⟨rfl, rfl, by omega, rfl⟩

theorem mdev_set_property_reg (env : DeviceEnv) (dev dev1 : device_record)
    (property : List Char) (type : Char) (value : Option (List Char)) (length : Int)
    (h : mdev_set_property env dev property type value length = some dev1) :
    dev1.reg = dev.reg := by
  unfold mdev_set_property at h
  split_ifs at h
  · cases h
    rfl
  · cases hf : free_string dev.description with
    | none =>
      rw [hf] at h
      cases h
    | some d =>
      rw [hf] at h
      cases value with
      | none => cases h
      | some s =>
        cases h
        rfl
  · cases hf : free_string dev.description with
    | none =>
      rw [hf] at h
      cases h
    | some d =>
      rw [hf] at h
      cases h
      rfl
  · cases h
    rfl
  · cases h
    rfl

/-- C23, counterexample: on the example device, `mdev_set_property` adds the key
`color` to the extra property bag and `mdev_remove_property` removes it again;
both leave `version` at 0. -/
theorem mdev_set_property_keeps_version :
    (mdev_set_property example_device_env (example_device_record 1) "color".toList 's'
        (some "red".toList) 1).map (fun dev => (dev.extra, dev.reg.props.version,
          (mdev_remove_property example_device_env dev "color".toList).extra,
          (mdev_remove_property example_device_env dev "color".toList).reg.props.version)) =
      some (some [{ key := "color".toList, type := 's', value := some "red".toList
                    length := 1 }], 0, some [], 0) ∧
    (example_device_record 1).extra = some [] ∧
    (example_device_record 1).reg.props.version = 0 := by
  exact ⟨rfl, rfl, rfl⟩

/-- C23 (amended): `mdev_set_property` and `mdev_remove_property` leave `version`
as it is, also when they change the extra property bag, which
`mdev_set_property` does for every key that is neither locked nor
`description`.  Whenever `mdev_add_input` or `mdev_add_output` returns,
`version` has grown by the number of signals added (0 or 1), and whenever
`mdev_remove_input` or `mdev_remove_output` returns, by the number of signals
removed (0 or 1); here `version` is the value of an `int` below `INT_MAX`, so
that its increment does not overflow. -/
theorem device_version_spec (renv : RegistryEnv) (env : DeviceEnv) (dev : device_record) :
    (∀ property type value length, property ∉ locked_properties →
      property ≠ "description".toList →
      mdev_set_property env dev property type value length =
        some { dev with
          extra := env.mapper_table_add_or_update_typed_value dev.extra property type value
            length }) ∧
    (∀ property type value length dev1,
      mdev_set_property env dev property type value length = some dev1 →
      dev1.reg.props.version = dev.reg.props.version) ∧
    (∀ property,
      (mdev_remove_property env dev property).reg.props.version = dev.reg.props.version) ∧
    (∀ name length type reg1 r ev,
      (-2 ^ 31 ≤ dev.reg.props.version ∧ dev.reg.props.version < 2 ^ 31 - 1) →
      mdev_add_input renv dev.reg name length type = some (reg1, r, ev) →
      (reg1 = dev.reg ∨ reg1.props.num_inputs = dev.reg.props.num_inputs + 1) ∧
      reg1.props.version - dev.reg.props.version =
        (reg1.props.num_inputs : Int) - dev.reg.props.num_inputs) ∧
    (∀ name length type reg1 r ev,
      (-2 ^ 31 ≤ dev.reg.props.version ∧ dev.reg.props.version < 2 ^ 31 - 1) →
      mdev_add_output renv dev.reg name length type = some (reg1, r, ev) →
      (reg1 = dev.reg ∨ reg1.props.num_outputs = dev.reg.props.num_outputs + 1) ∧
      reg1.props.version - dev.reg.props.version =
        (reg1.props.num_outputs : Int) - dev.reg.props.num_outputs) ∧
    (∀ sig dev1 ev,
      (-2 ^ 31 ≤ dev.reg.props.version ∧ dev.reg.props.version < 2 ^ 31 - 1) →
      mdev_remove_input env dev sig = some (dev1, ev) →
      (dev1 = dev ∨ dev1.reg.props.num_inputs + 1 = dev.reg.props.num_inputs) ∧
      dev1.reg.props.version - dev.reg.props.version =
        (dev.reg.props.num_inputs : Int) - dev1.reg.props.num_inputs) ∧
    (∀ sig dev1 ev,
      (-2 ^ 31 ≤ dev.reg.props.version ∧ dev.reg.props.version < 2 ^ 31 - 1) →
      mdev_remove_output env dev sig = some (dev1, ev) →
      (dev1 = dev ∨ dev1.reg.props.num_outputs + 1 = dev.reg.props.num_outputs) ∧
      dev1.reg.props.version - dev.reg.props.version =
        (dev.reg.props.num_outputs : Int) - dev1.reg.props.num_outputs) := by
  refine ⟨?_, ?_, ?_, ?_, ?_, ?_, ?_⟩
  · intro property type value length hl hd
    unfold mdev_set_property
    have h1 : ¬ (property = "host".toList ∨ property = "libversion".toList ∨
        property = "name".toList ∨ property = "num_incoming_maps".toList ∨
        property = "num_outgoing_maps".toList ∨ property = "num_inputs".toList ∨
        property = "num_outputs".toList ∨ property = "port".toList ∨
        property = "synced".toList ∨ property = "user_data".toList ∨
        property = "version".toList) := by
      intro h
      apply hl
      simpa [locked_properties] using h
    rw [if_neg h1, if_neg hd]
  · intro property type value length dev1 h
    rw [mdev_set_property_reg env dev dev1 property type value length h]
  · intro property
    rfl
  · intro name length type reg1 r ev hint h
    rcases mdev_add_input_version renv dev.reg reg1 name length type r ev h with
      h1 | ⟨h1, h2, _⟩
    · rw [h1]
      exact ⟨Or.inl rfl, by omega⟩
    · refine ⟨Or.inr h2, ?_⟩
      rw [h1, h2, int_wrap_succ _ hint]
      push_cast
      ring
  · intro name length type reg1 r ev hint h
    rcases mdev_add_output_version renv dev.reg reg1 name length type r ev h with
      h1 | ⟨h1, h2, _⟩
    · rw [h1]
      exact ⟨Or.inl rfl, by omega⟩
    · refine ⟨Or.inr h2, ?_⟩
      rw [h1, h2, int_wrap_succ _ hint]
      push_cast
      ring
  · intro sig dev1 ev hint h
    rcases mdev_remove_input_version env dev dev1 sig ev h with h1 | ⟨h1, h2, h3, _⟩
    · rw [h1]
      exact ⟨Or.inl rfl, by omega⟩
    · refine ⟨Or.inr (by omega), ?_⟩
      rw [h1, h2, int_wrap_succ _ hint]
      omega
  · intro sig dev1 ev hint h
    rcases mdev_remove_output_version env dev dev1 sig ev h with h1 | ⟨h1, h2, h3, _⟩
    · rw [h1]
      exact ⟨Or.inl rfl, by omega⟩
    · refine ⟨Or.inr (by omega), ?_⟩
      rw [h1, h2, int_wrap_succ _ hint]
      omega

/-- C23 (amended) at concrete inputs: on the example device, the key `color` is
set, the signal 1 is removed from the outputs, and the input `/freq` is added.
-/
theorem device_version_spec_witness :
    "color".toList ∉ locked_properties ∧
    mdev_set_property example_device_env (example_device_record 1) "color".toList 's'
        (some "red".toList) 1 =
      some { example_device_record 1 with
        extra := some [{ key := "color".toList, type := 's', value := some "red".toList
                         length := 1 }] } ∧
    (∃ dev1 ev, mdev_remove_output example_device_env (example_device_record 1) 1 =
        some (dev1, ev) ∧
      (dev1 = example_device_record 1 ∨
        dev1.reg.props.num_outputs + 1 = (example_device_record 1).reg.props.num_outputs) ∧
      dev1.reg.props.version - (example_device_record 1).reg.props.version =
        ((example_device_record 1).reg.props.num_outputs : Int) - dev1.reg.props.num_outputs ∧
      dev1.reg.props.version = 1) ∧
    ∃ reg1 r ev, mdev_add_input example_registry_env (example_device_record 1).reg
        (some "/freq".toList) 1 'f' = some (reg1, r, ev) ∧
      (reg1 = (example_device_record 1).reg ∨
        reg1.props.num_inputs = (example_device_record 1).reg.props.num_inputs + 1) ∧
      reg1.props.version - (example_device_record 1).reg.props.version =
        (reg1.props.num_inputs : Int) - (example_device_record 1).reg.props.num_inputs := by
  refine ⟨by decide,
    (device_version_spec example_registry_env example_device_env (example_device_record 1)).1
      "color".toList 's' (some "red".toList) 1 (by decide) (by decide), ?_, ?_⟩
  · obtain ⟨h1, h2⟩ :=
      (device_version_spec example_registry_env example_device_env
        (example_device_record 1)).2.2.2.2.2.2 1 _ _ (by decide) rfl
    exact ⟨_, _, rfl, h1, h2, rfl⟩
  · obtain ⟨h1, h2⟩ :=
      (device_version_spec example_registry_env example_device_env
        (example_device_record 1)).2.2.2.1 (some "/freq".toList) 1 'f' _ _ _ (by decide) rfl
    exact ⟨_, _, _, rfl, h1, h2⟩

/-! ### Construction of a device -/

theorem mdev_start_server_zero (env : DeviceEnv) (md : device_record) (port : Int)
    (server : Nat) (hserver : md.server = none)
    (hin : md.reg.props.num_inputs = 0) (hout : md.reg.props.num_outputs = 0)
    (hnew : env.lo_server_new (if port ≠ 0 then some (decimal port) else none) = some server ∨
      (env.lo_server_new (if port ≠ 0 then some (decimal port) else none) = none ∧
        port ≠ 0 ∧ env.lo_server_new none = some server)) :
    ∃ events, mdev_start_server env md port =
      some ({ md with server := some server, port := env.lo_server_get_port server }, events) := by
  unfold mdev_start_server
  rw [if_pos hserver]
  simp only [hin, hout]
  rcases hnew with h | ⟨h1, h2, h3⟩
  · rw [h]
    exact ⟨_, rfl⟩
  · rw [h1]
    have hp : ¬ ((if port ≠ 0 then some (decimal port) else none) = none) := by
      rw [if_pos h2]
      exact Option.some_ne_none _
    simp only [if_neg hp, h3]
    exact ⟨_, rfl⟩

/-- C29 (amended): `mdev_new` returns null for a missing name.  With an admin
context (given, or created) and a server that can be created (at the port
asked for, or at any port after that failed), it returns a device for every
name that has no `/` after an optional leading one: the device has ordinal 1,
the name without its leading slash as identifier, version 0, `registered`
false and no signals.  It returns a device for no other name. -/
theorem mdev_new_spec (env : DeviceEnv) (port : Int) (admin : Option mapper_admin_t) :
    mdev_new env none port admin = some (none, []) ∧
    (∀ name server, '/' ∉ skip_slash name →
      (admin ≠ none ∨ env.mapper_admin_new ≠ none) →
      (env.lo_server_new (if port ≠ 0 then some (decimal port) else none) = some server ∨
        (env.lo_server_new (if port ≠ 0 then some (decimal port) else none) = none ∧
          port ≠ 0 ∧ env.lo_server_new none = some server)) →
      ∃ md events, mdev_new env (some name) port admin = some (some md, events) ∧
        md.ordinal.value = 1 ∧ md.identifier = heap_string.valid (skip_slash name) ∧
        md.reg.props.version = 0 ∧ md.reg.registered = false ∧
        md.reg.props.num_inputs = 0 ∧ md.reg.props.num_outputs = 0 ∧
        md.reg.inputs = [] ∧ md.reg.outputs = [] ∧ md.server = some server) ∧
    (∀ name md events, mdev_new env name port admin = some (some md, events) →
      ∃ n, name = some n ∧ '/' ∉ skip_slash n) := by
  refine ⟨rfl, ?_, ?_⟩
  · intro name server hslash hadmin hserver
    cases admin with
    | none =>
      have had : env.mapper_admin_new ≠ none := by
        rcases hadmin with h | h
        · exact absurd rfl h
        · exact h
      unfold mdev_new
      simp only
      obtain ⟨events, hstart⟩ := mdev_start_server_zero env
        { device_record.zero with admin := env.mapper_admin_new, own_admin := 1 }
        port server rfl rfl rfl hserver
      rw [hstart]
      simp only
      have hok : ¬ (env.mapper_admin_new = none ∨ (some server : Option Nat) = none) := by
        rintro (h | h)
        · exact had h
        · cases h
      rw [if_neg hok, if_neg hslash]
      exact ⟨_, _, rfl, rfl, rfl, rfl, rfl, rfl, rfl, rfl, rfl, rfl⟩
    | some a =>
      unfold mdev_new
      simp only
      obtain ⟨events, hstart⟩ := mdev_start_server_zero env
        { device_record.zero with admin := some a, own_admin := 0 }
        port server rfl rfl rfl hserver
      rw [hstart]
      simp only
      have hok : ¬ ((some a : Option mapper_admin_t) = none ∨
          (some server : Option Nat) = none) := by
        rintro (h | h)
        · cases h
        · cases h
      rw [if_neg hok, if_neg hslash]
      exact ⟨_, _, rfl, rfl, rfl, rfl, rfl, rfl, rfl, rfl, rfl, rfl⟩
  · intro name md events h
    cases name with
    | none => cases h
    | some n =>
      refine ⟨n, rfl, ?_⟩
      unfold mdev_new at h
      simp only at h
      split at h
      · cases h
      · next md2 events2 _ =>
        intro hs
        by_cases hc : md2.admin = none ∨ md2.server = none
        · rw [if_pos hc] at h
          obtain ⟨x, _, hx⟩ := Option.map_eq_some'.mp h
          cases hx
        · rw [if_neg hc, if_pos hs] at h
          obtain ⟨x, _, hx⟩ := Option.map_eq_some'.mp h
          cases hx

/-- C29, counterexample: the name `/synth` contains a `/`; `mdev_new` returns a
device, whose identifier `synth` is not the name. -/
theorem mdev_new_leading_slash :
    '/' ∈ "/synth".toList ∧
    (mdev_new example_device_env (some "/synth".toList) 9000 none).map
        (fun r => r.1.map fun md => (md.identifier, md.ordinal.value, md.reg.props.version)) =
      some (some (heap_string.valid "synth".toList, 1, 0)) := by
  constructor
  · decide
  · rfl

/-- C29 (amended) at a concrete input: the device `synth` at port 9000, with an
admin context of its own. -/
theorem mdev_new_spec_witness :
    ∃ md events, mdev_new example_device_env (some "synth".toList) 9000 none =
        some (some md, events) ∧
      md.ordinal.value = 1 ∧ md.identifier = heap_string.valid (skip_slash "synth".toList) ∧
      md.reg.props.version = 0 ∧ md.reg.registered = false ∧
      md.reg.props.num_inputs = 0 ∧ md.reg.props.num_outputs = 0 ∧
      md.reg.inputs = [] ∧ md.reg.outputs = [] ∧ md.server = some 3 :=
  (mdev_new_spec example_device_env 9000 none).2.1 "synth".toList 3 (by decide)
    (Or.inr (by decide)) (Or.inl rfl)

/-- C30, evaluation at the failing inputs: for the name `a/b`, with an admin
context given, and for the name `ab` when no admin context can be created,
`mdev_new` does not return: `mdev_free` reads `md->router->links` of a device
that has no router yet, and `md->admin->bundle` of a device that has no admin
context.  With a router, the teardown of the first device completes. -/
theorem mdev_new_teardown_null_dereference :
    mdev_new example_device_env (some "a/b".toList) 9000
      (some { bundle := some 5, bus_server := some 1, mesh_server := some 2,
              device := false }) = none ∧
    mdev_new { example_device_env with mapper_admin_new := none } (some "ab".toList) 9000
      none = none ∧
    mdev_free example_device_env
      (some { device_record.zero with
        admin := some { bundle := some 5, bus_server := some 1, mesh_server := some 2
                        device := false }
        server := some 3, port := 9000 }) = none ∧
    (mdev_free example_device_env
      (some { device_record.zero with
        admin := some { bundle := some 5, bus_server := some 1, mesh_server := some 2
                        device := false }
        server := some 3, port := 9000
        router := some device_router.zero })).isSome = true := by
  exact ⟨rfl, rfl, rfl, rfl⟩


/-! ### The unmap message -/

theorem snprintf_of_lt (size : Nat) (s : List Char) (h : s.length < size) :
    snprintf size s = s := by
  unfold snprintf
  exact List.take_of_length_le (by omega)

/-- The source loop of `send_unmap` adds the names of the sources
`i .. i + n - 1` in full when they fit with their NULs in the bytes of
`source_names` that are left, one byte remaining free. -/
theorem send_unmap_sources_fit (map : router_map) (n : Nat) :
    ∀ (i len : Nat) (args : List (List Char)), i + n ≤ map.sources.length →
      len + (((map.sources.drop i).take n).map fun s =>
        (s.device_name ++ s.signal_path).length + 1).sum < 1024 →
      send_unmap_sources map n i len args =
        some (some (args ++ ((map.sources.drop i).take n).map fun s =>
          s.device_name ++ s.signal_path)) := by
  induction n with
  | zero =>
    intro i len args _ _
    simp [send_unmap_sources]
  | succ n ih =>
    intro i len args hlen hfit
    have hi : i < map.sources.length := by omega
    have hdrop : map.sources.drop i = map.sources[i] :: map.sources.drop (i + 1) :=
      List.drop_eq_getElem_cons hi
    rw [hdrop, List.take_succ_cons, List.map_cons, List.sum_cons] at hfit
    unfold send_unmap_sources
    rw [List.getElem?_eq_getElem hi]
    simp only
    have hno : ¬ (len + (map.sources[i].device_name ++ map.sources[i].signal_path).length + 1 ≥
        1024) := by omega
    rw [if_neg hno, ih (i + 1) _ _ (by omega) (by omega), hdrop, List.take_succ_cons,
      List.map_cons, snprintf_of_lt _ _ (by omega)]
    simp

/-- When the names of the sources take fewer than 1024 bytes with their NULs and
the name of the destination has fewer than 1024 characters, `send_unmap` adds
one message with the source names in their order, `->` and the destination
name in full, and sends the bundle. -/
theorem send_unmap_fits (env : DeviceEnv) (admin : mapper_admin_t) (map : router_map)
    (hstatus : map.status ≠ 0) (hmsg : env.lo_message_new = true)
    (hnum : map.num_sources ≤ map.sources.length)
    (hsrc : (((map.sources.take map.num_sources).map fun s =>
      (s.device_name ++ s.signal_path).length + 1).sum) < 1024)
    (hdst : (map.destination.device_name ++ map.destination.signal_path).length < 1024) :
    send_unmap env (some admin) (some map) =
      some [DeviceEvent.mapper_admin_set_bundle_dest_bus,
        DeviceEvent.lo_bundle_add_message admin.bundle env.ADM_UNMAP
          (((map.sources.take map.num_sources).map fun s => s.device_name ++ s.signal_path) ++
            ["->".toList, map.destination.device_name ++ map.destination.signal_path]),
        DeviceEvent.mapper_admin_send_bundle] := by
  unfold send_unmap
  have hm : ¬ (env.lo_message_new = false) := by simp [hmsg]
  simp only
  rw [if_neg hstatus, if_neg hm,
    send_unmap_sources_fit map map.num_sources 0 0 [] (by omega) (by simpa using hsrc)]
  simp [snprintf_of_lt _ _ hdst]


set_option maxRecDepth 20000 in
/-- C31, evaluation at the failing inputs.  A destination whose device name has
1020 characters and whose signal path is `/in1`: the name has 1024 characters
and does not fit in the 1024 bytes of `dest_name`, and the message is sent with
the name cut to 1023 characters.  A single source whose name has 1023
characters: it fits in the 1024 bytes of `source_names` with its NUL, and no
message is sent. -/
theorem send_unmap_buffer_limits :
    send_unmap example_device_env (example_device_record 1).admin
        (some (example_router_map
          { device_name := "/src.1".toList, signal_path := "/out".toList }
          { device_name := List.replicate 1020 'd', signal_path := "/in1".toList })) =
      some [DeviceEvent.mapper_admin_set_bundle_dest_bus,
        DeviceEvent.lo_bundle_add_message (some 5) "/unmap".toList
          ["/src.1/out".toList, "->".toList, List.replicate 1020 'd' ++ "/in".toList],
        DeviceEvent.mapper_admin_send_bundle] ∧
    send_unmap example_device_env (example_device_record 1).admin
        (some (example_router_map
          { device_name := List.replicate 1019 's', signal_path := "/out".toList }
          { device_name := "/dst.1".toList, signal_path := "/in1".toList })) =
      some [DeviceEvent.mapper_admin_set_bundle_dest_bus] := by
  constructor <;> rfl

/-! ### The count of null tags -/

/-- C32, evaluation at the failing input: the prefix scan, as `handler_signal`
runs it, on the three value tags `f N f` and on `N f f`.  One tag of each
prefix is `N`, but the scan leaves `nulls = 0` for the first and `nulls = 3`
for the second: every iteration tests the first tag. -/
theorem scan_values_nulls_first_tag :
    scan_values ['f', 'N', 'f'] 3 0 3 0 0 = (3, 0) ∧
    (['f', 'N', 'f'].take 3).count 'N' = 1 ∧
    scan_values ['N', 'f', 'f'] 3 0 3 0 0 = (3, 3) ∧
    (['N', 'f', 'f'].take 3).count 'N' = 1 := by
  refine ⟨?_, ?_, ?_, ?_⟩ <;> rfl

/-! ### Messages rejected after their first samples -/

/-- C33, evaluation at the failing input: the two samples `3.14` and null for a
signal of type `f` and vector length 1 whose instance value is zeroed.  The
message is rejected at the second sample without a call, but the first sample
has been written to the instance: its value, its flags, `has_value` and its
time tag have changed. -/
theorem handler_signal_rejected_sample_written :
    ((handler_signal example_env
        { sig := some (example_signal 'f' 1), md := some example_device }
        ['f', 'N'] [example_float, lo_arg.zero] 2 example_tt).map fun x =>
          (x.1.sig.map fun sig => instance_at sig 0, x.2)) =
      some (some { index := 0
                   value := [some 0xc3, some 0xf5, some 0x48, some 0x40]
                   has_value_flags := [1]
                   has_value := true
                   timetag := example_tt }, []) ∧
    instance_at (example_signal 'f' 1) 0 =
      { index := 0
        value := [some 0, some 0, some 0, some 0]
        has_value_flags := [0]
        has_value := false
        timetag := { sec := 0, frac := 0 } } := by
  constructor <;> rfl

/-! ### The history of a slot -/

/-- C34, evaluation at the failing input: the samples `3.14` and `1.0` sent with
`@slot 0` to a slot of type `f` and vector length 1 of a map processed at the
destination.  The ring is advanced twice, from position 0 to 1 and back to 0;
the first head receives argument 0, and the second head the bytes found at
`argv[1 * count] = argv[2]`, the first four characters of the string `@slot`,
instead of argument 1. -/
theorem handler_signal_history_argument_index :
    ((handler_signal example_env
        { sig := some (example_signal 'f' 1), md := some (example_device_with_destination_map 1) }
        ['f', 'f', 's', 'i']
        [example_float, example_float_one, example_slot_string, example_int32 0] 4
        example_tt).map fun x => (x.1.md.map fun md => history_at md.router 0 0, x.2)) =
      some (some { type := 'f', length := 1, size := 2, position := 0
                   value := [some 0x40, some 0x73, some 0x6c, some 0x6f,
                             some 0xc3, some 0xf5, some 0x48, some 0x40]
                   timetag := [example_tt, example_tt] }, []) := by
  rfl

/-- C35, evaluation at the failing input: the samples `(3.14, 1.0)` and
`(3.14, null)` sent with `@slot 0` to a slot of type `f` and vector length 2 of
a map processed at the destination.  The message is rejected at its second
sample, which is partial, without a call; the first sample has been pushed
into the history of the slot, which was zeroed at position 0. -/
theorem handler_signal_partial_sample_history :
    ((handler_signal example_env
        { sig := some (example_signal 'f' 2), md := some (example_device_with_destination_map 2) }
        ['f', 'f', 'f', 'N', 's', 'i']
        [example_float, example_float_one, example_float, lo_arg.zero, example_slot_string,
          example_int32 0] 6
        example_tt).map fun x => (x.1.md.map fun md => history_at md.router 0 0, x.2)) =
      some (some { type := 'f', length := 2, size := 2, position := 1
                   value := List.replicate 8 (some 0) ++
                     [some 0xc3, some 0xf5, some 0x48, some 0x40,
                      some 0x00, some 0x00, some 0x80, some 0x3f]
                   timetag := [{ sec := 0, frac := 0 }, example_tt] }, []) ∧
    history_at (example_device_with_destination_map 2).router 0 0 =
      { type := 'f', length := 2, size := 2, position := 0
        value := List.replicate 16 (some 0)
        timetag := [{ sec := 0, frac := 0 }, { sec := 0, frac := 0 }] } := by
  constructor <;> rfl

/-! ### Slots of maps processed at the source -/

/-- C36, evaluation at the failing input: the double 3.14 sent to a signal of
type `d` whose slot 0 belongs to a map that is ready, has an expression, is
processed at the source and has elements of type `i`.  With `@slot 0` the
instance value receives the first 4 bytes of the argument; without the
property it receives all 8. -/
theorem handler_signal_source_slot_not_plain :
    ((handler_signal example_env
        { sig := some (example_signal 'd' 1), md := some example_device_with_map }
        ['d', 's', 'i'] [example_double, example_slot_string, example_int32 0] 3
        example_tt).map fun x => x.1.sig.map fun sig => (instance_at sig 0).value) =
      some (some [some 0x1f, some 0x85, some 0xeb, some 0x51,
                  some 0, some 0, some 0, some 0]) ∧
    ((handler_signal example_env
        { sig := some (example_signal 'd' 1), md := some example_device_with_map }
        ['d'] [example_double] 1
        example_tt).map fun x => x.1.sig.map fun sig => (instance_at sig 0).value) =
      some (some [some 0x1f, some 0x85, some 0xeb, some 0x51,
                  some 0xb8, some 0x1e, some 0x09, some 0x40]) := by
  constructor <;> rfl

end Libmapper
